import Mathlib

/-!
# Stratus runner: lifecycle operations of `v2/pkg/stratus/runner/runner.go`

A shallow embedding of the `runnerImpl` methods.

* The receiver `m *runnerImpl` is mutable in Go; here every method takes the
  receiver and returns the receiver it leaves behind (`Ret.m`).
* Everything outside the runner (disk, Terraform, the cloud, the process
  environment) is an abstract state `σ`; every collaborator method is a
  function `σ → result × σ`, so collaborators may be stateful and may answer
  differently from one call to the next.
* `World.calls` is the ordered record of the calls made: each collaborator
  call with its arguments and its result, and the entry of each of the four
  lifecycle methods.
* A Go `(value, error)` pair is a Lean pair whose second component is
  `Option GoError` (`none` is `nil`); a `nil` map is the empty list.
* `log.Println` / `log.Printf` lines are not modelled (they have no effect on
  the receiver or on a collaborator); neither is the `context.Context` field:
  cancellation shows only through `errors.Is(err, context.Canceled)`.
-/

namespace Stratus

/-! ## Go values -/

/-- A `map[string]string`; the `nil` map and the empty map are both `[]`. -/
abbrev Outputs := List (String × String)

/-- A Go `error` value, as far as the runner observes it: its message
`err.Error()` and whether `errors.Is(err, context.Canceled)` holds. -/
structure GoError where
  Error : String
  canceled : Bool
deriving DecidableEq, Repr

/-- The sentinel `context.Canceled`. -/
def context.Canceled : GoError := ⟨"context canceled", true⟩

/-- Go `errors.New`: a fresh error with the given message, which wraps nothing. -/
def errors.New (text : String) : GoError := ⟨text, false⟩

/-- Go `errors.Is`; the runner only ever asks for `context.Canceled`. -/
def errors.Is (err target : GoError) : Bool :=
  if target = context.Canceled then err.canceled else decide (err = target)

/-- Go `strings.Contains`. -/
def strings.Contains (s substr : String) : Bool :=
  decide (substr.data <:+: s.data)

/-- A `uuid.UUID` (sixteen bytes). -/
structure UUID where
  bytes : List Nat
deriving DecidableEq, Repr

/-- The `stratus.AttackTechniqueState` string type. -/
abbrev AttackTechniqueState := String

/-- Modelled from the spec: the constant `stratus.AttackTechniqueStatusCold`
of package `stratus`, state `COLD`. -/
def AttackTechniqueStatusCold : AttackTechniqueState := "COLD"

/-- Modelled from the spec: the constant `stratus.AttackTechniqueStatusWarm`
of package `stratus`, state `WARM`. -/
def AttackTechniqueStatusWarm : AttackTechniqueState := "WARM"

/-- Modelled from the spec: the constant
`stratus.AttackTechniqueStatusDetonated` of package `stratus`, state
`DETONATED`. -/
def AttackTechniqueStatusDetonated : AttackTechniqueState := "DETONATED"

/-- The `stratus.CloudProvidersImpl` value built by `initialize`. -/
structure CloudProvidersImpl where
  UniqueCorrelationID : UUID
deriving DecidableEq, Repr

/-! ## The record of calls -/

/-- One entry of the call record. -/
inductive Event where
  /-- entry of `runnerImpl.WarmUp` -/
  | WarmUp
  /-- entry of `runnerImpl.Detonate` -/
  | Detonate
  /-- entry of `runnerImpl.Revert` -/
  | Revert
  /-- entry of `runnerImpl.CleanUp` -/
  | CleanUp
  | TerraformInitAndApply (dir : String) (outputs : Outputs) (err : Option GoError)
  | TerraformDestroy (dir : String) (err : Option GoError)
  | TerraformOutput (dir : String) (outputs : Outputs) (err : Option GoError)
  | GetRootDirectory (dir : String)
  | ExtractTechnique (err : Option GoError)
  | CleanupTechnique (err : Option GoError)
  | GetTerraformOutputs (outputs : Outputs) (err : Option GoError)
  | WriteTerraformOutputs (outputs : Outputs) (err : Option GoError)
  | GetTechniqueState (state : AttackTechniqueState)
  | SetTechniqueState (state : AttackTechniqueState) (err : Option GoError)
  | TechniqueDetonate (outputs : Outputs) (providers : CloudProvidersImpl) (err : Option GoError)
  | TechniqueRevert (outputs : Outputs) (providers : CloudProvidersImpl) (err : Option GoError)
  | ReadFile (path : String) (bytes : List Nat) (err : Option GoError)
deriving DecidableEq, Repr

/-! ## Collaborators -/

/-- The fields of `RunnerOptions`. -/
structure RunnerOptions where
  Force : Bool
  NoWarmup : Bool
  OutputsFile : String
  CustomTerraformDir : String
deriving DecidableEq, Repr

/-- The fields of `stratus.AttackTechnique` the runner reads. `Revert` is a
nilable function value. -/
structure AttackTechnique (σ : Type) where
  ID : String
  IsIdempotent : Bool
  IsSlow : Bool
  PrerequisitesTerraformCode : Option (List Nat)
  Detonate : Outputs → CloudProvidersImpl → σ → Option GoError × σ
  Revert : Option (Outputs → CloudProvidersImpl → σ → Option GoError × σ)

/-- The methods of the `TerraformManager` interface the runner calls. -/
structure TerraformManager (σ : Type) where
  TerraformInitAndApply : String → σ → (Outputs × Option GoError) × σ
  TerraformDestroy : String → σ → Option GoError × σ
  TerraformOutput : String → σ → (Outputs × Option GoError) × σ

/-- The methods of the `state.StateManager` interface the runner calls. -/
structure StateManager (σ : Type) where
  GetRootDirectory : σ → String × σ
  ExtractTechnique : σ → Option GoError × σ
  CleanupTechnique : σ → Option GoError × σ
  GetTerraformOutputs : σ → (Outputs × Option GoError) × σ
  WriteTerraformOutputs : Outputs → σ → Option GoError × σ
  GetTechniqueState : σ → AttackTechniqueState × σ
  SetTechniqueState : AttackTechniqueState → σ → Option GoError × σ

/-- Library and package functions the runner calls that are not methods of a
field of `runnerImpl`. -/
structure Host (σ : Type) where
  /-- `ioutil.ReadFile` -/
  ReadFile : String → σ → (List Nat × Option GoError) × σ
  /-- `json.Unmarshal` into a `map[string]string` -/
  Unmarshal : List Nat → Outputs × Option GoError
  /-- `os.Getenv` -/
  Getenv : String → σ → String
  /-- `filepath.IsAbs` -/
  IsAbs : String → Bool
  /-- `filepath.Abs` -/
  Abs : String → σ → String × Option GoError
  /-- `filepath.Join` of two elements -/
  Join : String → String → String
  /-- `uuid.New` -/
  uuidNew : σ → UUID × σ
  /-- `uuid.Parse` -/
  uuidParse : String → UUID × Option GoError
  /-- `useragent.GetStratusUserAgentForUUID` -/
  GetStratusUserAgentForUUID : UUID → String
  /-- `state.NewFileSystemStateManager` -/
  NewFileSystemStateManager : AttackTechnique σ → StateManager σ
  /-- `NewTerraformManagerWithContext`, from its directory and user agent -/
  NewTerraformManagerWithContext : String → String → TerraformManager σ

/-- The world a runner method runs in: the host functions, the state of
everything outside the runner, and the calls recorded so far. -/
structure World (σ : Type) where
  os : Host σ
  ext : σ
  calls : List Event

/-- Record the entry of a method. -/
def World.enter {σ : Type} (w : World σ) (e : Event) : World σ :=
  { w with calls := w.calls ++ [e] }

/-- Make one collaborator call `f` on the outside state and record it as
`ev result`. -/
def World.call {σ α : Type} (w : World σ) (f : σ → α × σ) (ev : α → Event) : α × World σ :=
  ((f w.ext).1, { w with ext := (f w.ext).2, calls := w.calls ++ [ev (f w.ext).1] })

/-- The fields of `runnerImpl` (without `Context`). -/
structure runnerImpl (σ : Type) where
  Technique : AttackTechnique σ
  TechniqueState : AttackTechniqueState
  TerraformDir : String
  Options : RunnerOptions
  TerraformManager : TerraformManager σ
  StateManager : StateManager σ
  ProviderFactory : CloudProvidersImpl
  UniqueCorrelationID : UUID

/-- What a method of `*runnerImpl` leaves behind: its return value, the
receiver and the world. -/
structure Ret (σ α : Type) where
  val : α
  m : runnerImpl σ
  w : World σ

/-! ## `runner.go` -/

/-- The constant `EnvVarStratusRedTeamDetonationId`. -/
def EnvVarStratusRedTeamDetonationId : String := "STRATUS_RED_TEAM_DETONATION_ID"

/-- The constant `MissingRegionErrorMessage` of `errorMessageFromTerraformError`. -/
def MissingRegionErrorMessage : String :=
  "The argument \"region\" is required, but no definition was found"

/-- Go `errorMessageFromTerraformError`. -/
def errorMessageFromTerraformError (err : GoError) : String :=
  if strings.Contains err.Error MissingRegionErrorMessage then
    "unable to create attack technique prerequisites. Ensure you are authenticated against AWS and have the right permissions to run Stratus Red Team.\n" ++
      "Stratus Red Team will display below the error that Terraform returned:\n" ++ err.Error
  else
    err.Error

/-- Go `runnerImpl.GetState`. -/
def runnerImpl.GetState {σ : Type} (m : runnerImpl σ) : AttackTechniqueState :=
  if m.Options.CustomTerraformDir ≠ "" then
    if m.TechniqueState = "" then AttackTechniqueStatusCold else m.TechniqueState
  else
    m.TechniqueState

/-- Go `runnerImpl.setState`: the `SetTechniqueState` error is only logged. -/
def runnerImpl.setState {σ : Type} (m : runnerImpl σ) (state : AttackTechniqueState)
    (w : World σ) : Ret σ Unit :=
  let w1 :=
    if m.Options.CustomTerraformDir = "" then
      (w.call (m.StateManager.SetTechniqueState state) (Event.SetTechniqueState state)).2
    else
      w
  ⟨(), { m with TechniqueState := state }, w1⟩

/-- Go `runnerImpl.GetUniqueExecutionId`, given `uuid.UUID.String`. -/
def runnerImpl.GetUniqueExecutionId {σ : Type} (uuidString : UUID → String)
    (m : runnerImpl σ) : String :=
  uuidString m.UniqueCorrelationID

/-- Go `runnerImpl.readTerraformOutputs`. -/
def runnerImpl.readTerraformOutputs {σ : Type} (m : runnerImpl σ) (w : World σ) :
    Ret σ (Outputs × Option GoError) :=
  if m.Options.OutputsFile = "" then
    ⟨([], some (errors.New "you must specify --outputs-file when using --no-warmup")), m, w⟩
  else
    let r := w.call (w.os.ReadFile m.Options.OutputsFile)
      (fun r => Event.ReadFile m.Options.OutputsFile r.1 r.2)
    match r.1.2 with
    | some err =>
      ⟨([], some (errors.New ("unable to read terraform outputs file: " ++ err.Error))), m, r.2⟩
    | none =>
      match (w.os.Unmarshal r.1.1).2 with
      | some err =>
        ⟨([], some (errors.New ("unable to parse terraform outputs file: " ++ err.Error))), m, r.2⟩
      | none => ⟨((w.os.Unmarshal r.1.1).1, none), m, r.2⟩

/-- Go `runnerImpl.WarmUp`. -/
def runnerImpl.WarmUp {σ : Type} (m : runnerImpl σ) (w0 : World σ) :
    Ret σ (Outputs × Option GoError) :=
  let w := w0.enter Event.WarmUp
  -- No prerequisites to spin-up
  if m.Technique.PrerequisitesTerraformCode = none ∧ m.Options.CustomTerraformDir = "" then
    ⟨([], none), m, w⟩
  else if m.Options.NoWarmup then
    m.readTerraformOutputs w
  else
    -- Only extract embedded Terraform if not using custom directory
    let x : Option GoError × World σ :=
      if m.Options.CustomTerraformDir = "" then
        w.call m.StateManager.ExtractTechnique Event.ExtractTechnique
      else
        (none, w)
    match x.1 with
    | some err => ⟨([], some (errors.New ("unable to extract Terraform file: " ++ err.Error))), m, x.2⟩
    | none =>
      let willWarmUp : Bool := true
      -- Technique is already warm
      let willWarmUp : Bool :=
        if m.TechniqueState = AttackTechniqueStatusWarm ∧ m.Options.Force = false then false
        else willWarmUp
      let willWarmUp : Bool :=
        if m.TechniqueState = AttackTechniqueStatusDetonated then false else willWarmUp
      if willWarmUp = false then
        let g := x.2.call m.StateManager.GetTerraformOutputs
          (fun r => Event.GetTerraformOutputs r.1 r.2)
        ⟨g.1, m, g.2⟩
      else
        let a := x.2.call (m.TerraformManager.TerraformInitAndApply m.TerraformDir)
          (fun r => Event.TerraformInitAndApply m.TerraformDir r.1 r.2)
        match a.1.2 with
        | some err =>
          let d := a.2.call (m.TerraformManager.TerraformDestroy m.TerraformDir)
            (Event.TerraformDestroy m.TerraformDir)
          if errors.Is err context.Canceled then
            ⟨([], some err), m, d.2⟩
          else
            ⟨([], some (errors.New ("unable to run terraform apply on prerequisite: " ++
              errorMessageFromTerraformError err))), m, d.2⟩
        | none =>
          -- Persist outputs to disk (only for embedded Terraform, not custom directories)
          let p : Option GoError × World σ :=
            if m.Options.CustomTerraformDir = "" then
              a.2.call (m.StateManager.WriteTerraformOutputs a.1.1)
                (Event.WriteTerraformOutputs a.1.1)
            else
              (none, a.2)
          let s := m.setState AttackTechniqueStatusWarm p.2
          -- the `display` output is only logged
          ⟨(a.1.1, p.1), s.m, s.w⟩

/-- Go `runnerImpl.Detonate`. -/
def runnerImpl.Detonate {σ : Type} (m : runnerImpl σ) (w0 : World σ) :
    Ret σ (Option GoError) :=
  let w := w0.enter Event.Detonate
  -- If the attack technique has already been detonated, make sure it's idempotent
  if m.GetState = AttackTechniqueStatusDetonated ∧
      (!m.Technique.IsIdempotent && !m.Options.Force) = true then
    ⟨some (errors.New (m.Technique.ID ++ " has already been detonated and is not idempotent. " ++
      "Revert it with 'stratus revert' before detonating it again, or use --force")), m, w⟩
  else
    let willWarmUp : Bool :=
      if m.GetState = AttackTechniqueStatusDetonated then false else true
    -- `IsSlow` only adds a log line
    let r : Ret σ (Outputs × Option GoError) :=
      if willWarmUp then
        m.WarmUp w
      else
        -- For custom Terraform directories, get outputs directly from Terraform
        if m.Options.CustomTerraformDir ≠ "" then
          let o := w.call (m.TerraformManager.TerraformOutput m.TerraformDir)
            (fun r => Event.TerraformOutput m.TerraformDir r.1 r.2)
          ⟨o.1, m, o.2⟩
        else
          let o := w.call m.StateManager.GetTerraformOutputs
            (fun r => Event.GetTerraformOutputs r.1 r.2)
          ⟨o.1, m, o.2⟩
    match r.val.2 with
    | some err => ⟨some err, r.m, r.w⟩
    | none =>
      -- Detonate
      let d := r.w.call (r.m.Technique.Detonate r.val.1 r.m.ProviderFactory)
        (Event.TechniqueDetonate r.val.1 r.m.ProviderFactory)
      match d.1 with
      | some err =>
        ⟨some (errors.New ("Error while detonating attack technique " ++ r.m.Technique.ID ++
          ": " ++ err.Error)), r.m, d.2⟩
      | none =>
        let s := r.m.setState AttackTechniqueStatusDetonated d.2
        ⟨none, s.m, s.w⟩

/-- Go `runnerImpl.Revert`. -/
def runnerImpl.Revert {σ : Type} (m : runnerImpl σ) (w0 : World σ) :
    Ret σ (Option GoError) :=
  let w := w0.enter Event.Revert
  if m.GetState ≠ AttackTechniqueStatusDetonated ∧ m.Options.Force = false then
    ⟨some (errors.New (m.Technique.ID ++
      " is not in DETONATED state and should not need to be reverted, use --force to force")), m, w⟩
  else
    -- For custom Terraform directories, get outputs directly from Terraform
    let o : (Outputs × Option GoError) × World σ :=
      if m.Options.CustomTerraformDir ≠ "" then
        w.call (m.TerraformManager.TerraformOutput m.TerraformDir)
          (fun r => Event.TerraformOutput m.TerraformDir r.1 r.2)
      else
        w.call m.StateManager.GetTerraformOutputs (fun r => Event.GetTerraformOutputs r.1 r.2)
    match o.1.2 with
    | some err =>
      ⟨some (errors.New ("unable to retrieve outputs of " ++ m.Technique.ID ++ ": " ++ err.Error)),
        m, o.2⟩
    | none =>
      match m.Technique.Revert with
      | some revert =>
        let v := o.2.call (revert o.1.1 m.ProviderFactory)
          (Event.TechniqueRevert o.1.1 m.ProviderFactory)
        match v.1 with
        | some err =>
          ⟨some (errors.New ("unable to revert detonation of " ++ m.Technique.ID ++ ": " ++
            err.Error)), m, v.2⟩
        | none =>
          let s := m.setState AttackTechniqueStatusWarm v.2
          ⟨none, s.m, s.w⟩
      | none =>
        let s := m.setState AttackTechniqueStatusWarm o.2
        ⟨none, s.m, s.w⟩

/-- Go `runnerImpl.CleanUp`. -/
def runnerImpl.CleanUp {σ : Type} (m : runnerImpl σ) (w0 : World σ) :
    Ret σ (Option GoError) :=
  let w := w0.enter Event.CleanUp
  -- Has the technique already been cleaned up?
  if m.TechniqueState = AttackTechniqueStatusCold ∧ m.Options.Force = false then
    ⟨some (errors.New (m.Technique.ID ++
      " is already COLD and should already be clean, use --force to force cleanup")), m, w⟩
  else
    -- Revert detonation
    let shouldRevert : Bool :=
      m.Technique.Revert.isSome &&
        (decide (m.GetState = AttackTechniqueStatusDetonated) ||
          decide (m.Options.CustomTerraformDir ≠ ""))
    let r : Ret σ (Option GoError) := if shouldRevert then m.Revert w else ⟨none, m, w⟩
    let abort : Option GoError :=
      match r.val with
      | some err =>
        if r.m.Options.Force then none
        else some (errors.New ("unable to revert detonation of " ++ r.m.Technique.ID ++
          " before cleaning up (use --force to cleanup anyway): " ++ err.Error))
      | none => none
    match abort with
    | some e => ⟨some e, r.m, r.w⟩
    | none =>
      -- Nuke prerequisites
      let d : Option GoError × World σ :=
        if (r.m.Technique.PrerequisitesTerraformCode ≠ none ∨
              r.m.Options.CustomTerraformDir ≠ "") ∧ r.m.Options.NoWarmup = false then
          r.w.call (r.m.TerraformManager.TerraformDestroy r.m.TerraformDir)
            (Event.TerraformDestroy r.m.TerraformDir)
        else
          (none, r.w)
      match d.1 with
      | some err =>
        if errors.Is err context.Canceled then
          ⟨some err, r.m, d.2⟩
        else
          ⟨some (errors.New ("unable to cleanup TTP prerequisites: " ++
            errorMessageFromTerraformError err)), r.m, d.2⟩
      | none =>
        let s := r.m.setState AttackTechniqueStatusCold d.2
        -- Only remove terraform directory if using embedded Terraform (not custom)
        if s.m.Options.CustomTerraformDir = "" then
          let c := s.w.call s.m.StateManager.CleanupTechnique Event.CleanupTechnique
          match c.1 with
          | some err =>
            ⟨some (errors.New ("unable to remove technique directory " ++ s.m.TerraformDir ++
              ": " ++ err.Error)), s.m, c.2⟩
          | none => ⟨none, s.m, c.2⟩
        else
          ⟨none, s.m, s.w⟩

/-- Go `runnerImpl.initialize`. -/
def runnerImpl.initialize {σ : Type} (m : runnerImpl σ) (w : World σ) : Ret σ Unit :=
  let d : String × World σ :=
    if m.Options.CustomTerraformDir ≠ "" then
      if !w.os.IsAbs m.Options.CustomTerraformDir then
        match (w.os.Abs m.Options.CustomTerraformDir w.ext).2 with
        | some _ => (m.Options.CustomTerraformDir, w)
        | none => ((w.os.Abs m.Options.CustomTerraformDir w.ext).1, w)
      else
        (m.Options.CustomTerraformDir, w)
    else
      let g := w.call m.StateManager.GetRootDirectory Event.GetRootDirectory
      (w.os.Join g.1 m.Technique.ID, g.2)
  let s := d.2.call m.StateManager.GetTechniqueState Event.GetTechniqueState
  let st : AttackTechniqueState := if s.1 = "" then AttackTechniqueStatusCold else s.1
  ⟨(), { m with
          TerraformDir := d.1
          TechniqueState := st
          ProviderFactory := ⟨m.UniqueCorrelationID⟩ }, s.2⟩

/-- Go `NewRunnerWithContext`. The fields `initialize` assigns start at their
zero values. -/
def NewRunnerWithContext {σ : Type} (technique : AttackTechnique σ) (options : RunnerOptions)
    (w : World σ) : Ret σ Unit :=
  let stateManager := w.os.NewFileSystemStateManager technique
  let n := w.os.uuidNew w.ext
  let w1 : World σ := { w with ext := n.2 }
  let grimoireDetonationId := w.os.Getenv "STRATUS_RED_TEAM_DETONATION_ID" w1.ext
  let c : UUID × World σ :=
    if grimoireDetonationId ≠ "" then
      match (w.os.uuidParse grimoireDetonationId).2 with
      | some _ => ((w.os.uuidNew w1.ext).1, { w1 with ext := (w.os.uuidNew w1.ext).2 })
      | none => ((w.os.uuidParse grimoireDetonationId).1, w1)
    else
      (n.1, w1)
  let g := c.2.call stateManager.GetRootDirectory Event.GetRootDirectory
  let runner : runnerImpl σ :=
    { Technique := technique
      TechniqueState := ""
      TerraformDir := ""
      Options := options
      TerraformManager :=
        w.os.NewTerraformManagerWithContext (w.os.Join g.1 "terraform")
          (w.os.GetStratusUserAgentForUUID c.1)
      StateManager := stateManager
      ProviderFactory := ⟨⟨[]⟩⟩
      UniqueCorrelationID := c.1 }
  runner.initialize g.2

/-- Go `NewRunner`: `NewRunnerWithContext` with the background context. -/
def NewRunner {σ : Type} (technique : AttackTechnique σ) (options : RunnerOptions)
    (w : World σ) : Ret σ Unit :=
  NewRunnerWithContext technique options w

/-! ## `cleanup_cmd.go` -/

/-- Go `cleanupCmdWorker`, over the techniques the worker receives from its
channel, in order. The package variables `flagForceCleanup` and
`cleanupCustomTerraformDir` are parameters; the value returned lists the
errors sent to the `errors` channel, one per technique. -/
def cleanupCmdWorker {σ : Type} (flagForceCleanup : Bool) (cleanupCustomTerraformDir : String) :
    List (AttackTechnique σ) → World σ → List (Option GoError) × World σ
  | [], w => ([], w)
  | technique :: rest, w =>
    let options : RunnerOptions :=
      { Force := flagForceCleanup
        NoWarmup := false
        OutputsFile := ""
        CustomTerraformDir := cleanupCustomTerraformDir }
    let stratusRunner := NewRunner technique options w
    let r := stratusRunner.m.CleanUp stratusRunner.w
    let rs := cleanupCmdWorker flagForceCleanup cleanupCustomTerraformDir rest r.w
    (r.val :: rs.1, rs.2)

/-- Go `doCleanupCmd`, up to the call of `handleErrorsChannel`: every technique
of the slice is sent to the workers. The workers are run one after the other,
each taking the next technique, which is the run of one worker over the whole
slice; the errors they send are returned. -/
def doCleanupCmd {σ : Type} (flagForceCleanup : Bool) (cleanupCustomTerraformDir : String)
    (techniques : List (AttackTechnique σ)) (w : World σ) : List (Option GoError) × World σ :=
  cleanupCmdWorker flagForceCleanup cleanupCustomTerraformDir techniques w

/-- Go `doCleanupAllCmd`; `availableTechniques` is what
`stratus.GetRegistry().ListAttackTechniques()` returns. -/
def doCleanupAllCmd {σ : Type} (flagForceCleanup : Bool) (cleanupCustomTerraformDir : String)
    (availableTechniques : List (AttackTechnique σ)) (w : World σ) :
    List (Option GoError) × World σ :=
  doCleanupCmd flagForceCleanup cleanupCustomTerraformDir availableTechniques w

/-! ## Classes of recorded calls -/

/-- The calls `WarmUp` can record after its entry, for working directory
`dir`. -/
def Event.byWarmUp (dir : String) : Event → Bool
  | .ReadFile _ _ _ => true
  | .ExtractTechnique _ => true
  | .GetTerraformOutputs _ _ => true
  | .TerraformInitAndApply d _ _ => decide (d = dir)
  | .TerraformDestroy d _ => decide (d = dir)
  | .WriteTerraformOutputs _ _ => true
  | .SetTechniqueState s _ => decide (s = AttackTechniqueStatusWarm)
  | _ => false

/-- The calls `Revert` can record after its entry, for working directory
`dir`. -/
def Event.byRevert (dir : String) : Event → Bool
  | .TerraformOutput d _ _ => decide (d = dir)
  | .GetTerraformOutputs _ _ => true
  | .TechniqueRevert _ _ _ => true
  | .SetTechniqueState s _ => decide (s = AttackTechniqueStatusWarm)
  | _ => false

/-- Whether a recorded call is a `TerraformDestroy` call. -/
def Event.isTerraformDestroy : Event → Bool
  | .TerraformDestroy _ _ => true
  | _ => false

/-- Whether an event records the entry of a lifecycle method. -/
def Event.isEntry : Event → Bool
  | .WarmUp => true
  | .Detonate => true
  | .Revert => true
  | .CleanUp => true
  | _ => false

/-- Whether a recorded call is a `SetTechniqueState` call. -/
def Event.isSetTechniqueState : Event → Bool
  | .SetTechniqueState _ _ => true
  | _ => false

/-- Whether a recorded call is one of the state manager's writing methods:
`SetTechniqueState`, `WriteTerraformOutputs`, `ExtractTechnique` or
`CleanupTechnique`. -/
def Event.isPersistenceWrite : Event → Bool
  | .SetTechniqueState _ _ => true
  | .WriteTerraformOutputs _ _ => true
  | .ExtractTechnique _ => true
  | .CleanupTechnique _ => true
  | _ => false

/-! ## Sequences of operations and invariants -/

/-- One of the four lifecycle operations of the `Runner` interface. -/
inductive Op where
  | WarmUp
  | Detonate
  | Revert
  | CleanUp
deriving DecidableEq, Repr

/-- A caller invoking one lifecycle operation; of `WarmUp` only the error is
kept. -/
def runnerImpl.run {σ : Type} (m : runnerImpl σ) (op : Op) (w : World σ) :
    Ret σ (Option GoError) :=
  match op with
  | .WarmUp => ⟨(m.WarmUp w).val.2, (m.WarmUp w).m, (m.WarmUp w).w⟩
  | .Detonate => m.Detonate w
  | .Revert => m.Revert w
  | .CleanUp => m.CleanUp w

/-- A caller invoking a sequence of lifecycle operations on one runner. -/
def runAll {σ : Type} : List Op → runnerImpl σ → World σ → runnerImpl σ × World σ
  | [], m, w => (m, w)
  | op :: ops, m, w => runAll ops (m.run op w).m (m.run op w).w

/-- A property `P` of the in-memory state and the world that every step a
lifecycle operation of `m` can take preserves: recording an entry, each
collaborator call the operation can make (the persistence writes only when no
custom directory is set, since they are not made otherwise), `setState`, and
`CleanupTechnique` once the state is COLD. -/
structure Invariant {σ : Type} (m : runnerImpl σ)
    (P : AttackTechniqueState → World σ → Prop) : Prop where
  enter : ∀ st w e, e.isEntry = true → P st w → P st (w.enter e)
  readFile : ∀ st w, P st w →
    P st (w.call (w.os.ReadFile m.Options.OutputsFile)
      (fun r => Event.ReadFile m.Options.OutputsFile r.1 r.2)).2
  getOutputs : ∀ st w, P st w →
    P st (w.call m.StateManager.GetTerraformOutputs
      (fun r => Event.GetTerraformOutputs r.1 r.2)).2
  apply : ∀ st w, P st w →
    P st (w.call (m.TerraformManager.TerraformInitAndApply m.TerraformDir)
      (fun r => Event.TerraformInitAndApply m.TerraformDir r.1 r.2)).2
  destroy : ∀ st w, P st w →
    P st (w.call (m.TerraformManager.TerraformDestroy m.TerraformDir)
      (Event.TerraformDestroy m.TerraformDir)).2
  output : ∀ st w, P st w →
    P st (w.call (m.TerraformManager.TerraformOutput m.TerraformDir)
      (fun r => Event.TerraformOutput m.TerraformDir r.1 r.2)).2
  detonate : ∀ st w o, P st w →
    P st (w.call (m.Technique.Detonate o m.ProviderFactory)
      (Event.TechniqueDetonate o m.ProviderFactory)).2
  revert : ∀ st w o revert, m.Technique.Revert = some revert → P st w →
    P st (w.call (revert o m.ProviderFactory) (Event.TechniqueRevert o m.ProviderFactory)).2
  extract : m.Options.CustomTerraformDir = "" → ∀ st w, P st w →
    P st (w.call m.StateManager.ExtractTechnique Event.ExtractTechnique).2
  write : m.Options.CustomTerraformDir = "" → ∀ st w o, P st w →
    P st (w.call (m.StateManager.WriteTerraformOutputs o) (Event.WriteTerraformOutputs o)).2
  setState : ∀ st st' w,
    st' = AttackTechniqueStatusWarm ∨ st' = AttackTechniqueStatusDetonated ∨
      st' = AttackTechniqueStatusCold →
    P st w → P st' (m.setState st' w).w
  cleanup : m.Options.CustomTerraformDir = "" → ∀ w, P AttackTechniqueStatusCold w →
    P AttackTechniqueStatusCold
      (w.call m.StateManager.CleanupTechnique Event.CleanupTechnique).2

/-! ## Dropping the error of `SetTechniqueState` -/

/-- The state manager `sm` with a `SetTechniqueState` that has the effect of
`sm.SetTechniqueState` on the outside state and returns no error. -/
def StateManager.quiet {σ : Type} (sm : StateManager σ) : StateManager σ :=
  { sm with SetTechniqueState := fun st s => (none, (sm.SetTechniqueState st s).2) }

/-- The runner `m` over the quiet state manager. -/
def runnerImpl.quiet {σ : Type} (m : runnerImpl σ) : runnerImpl σ :=
  { m with StateManager := m.StateManager.quiet }

/-- The recorded call with the error of a `SetTechniqueState` call left out. -/
def Event.quiet : Event → Event
  | .SetTechniqueState st _ => .SetTechniqueState st none
  | e => e

/-- The world with the errors of the recorded `SetTechniqueState` calls left
out. -/
def World.quiet {σ : Type} (w : World σ) : World σ :=
  { w with calls := w.calls.map Event.quiet }

/-- The result of a method, seen over the quiet state manager. -/
def Ret.quiet {σ α : Type} (r : Ret σ α) : Ret σ α :=
  ⟨r.val, r.m.quiet, r.w.quiet⟩

/-! ## Persistence as a store -/

/-- Modelled from the spec: Persistence as a store of outputs (`getOutputs`
and `writeOutputs` of the Persistence contract). `stored s` is the mapping
the store holds in the outside state `s`: `GetTerraformOutputs` returns it
without error and leaves it alone, a successful `WriteTerraformOutputs o`
makes it `o`, and recording the state or materializing the technique does not
change it. -/
structure OutputsStore {σ : Type} (sm : StateManager σ) (stored : σ → Outputs) : Prop where
  get : ∀ s, (sm.GetTerraformOutputs s).1 = (stored s, none)
  get_keeps : ∀ s, stored (sm.GetTerraformOutputs s).2 = stored s
  write : ∀ o s, (sm.WriteTerraformOutputs o s).1 = none →
    stored (sm.WriteTerraformOutputs o s).2 = o
  setState_keeps : ∀ st s, stored (sm.SetTechniqueState st s).2 = stored s
  extract_keeps : ∀ s, stored (sm.ExtractTechnique s).2 = stored s

/-- Modelled from the spec: Persistence as the store of the lifecycle state
(`getTechniqueState`, `setTechniqueState` and `cleanupTechnique` of the
Persistence contract). `persisted s` is the state value recorded in the
outside state `s`, the empty string when none is recorded:
`GetTechniqueState` returns it, a successful `SetTechniqueState st` makes it
`st`, `CleanupTechnique` keeps it or removes the record, and the other
methods leave it alone. -/
structure StateStore {σ : Type} (sm : StateManager σ) (persisted : σ → AttackTechniqueState) :
    Prop where
  get : ∀ s, (sm.GetTechniqueState s).1 = persisted s
  set : ∀ st s, (sm.SetTechniqueState st s).1 = none →
    persisted (sm.SetTechniqueState st s).2 = st
  cleanup : ∀ s, persisted (sm.CleanupTechnique s).2 = persisted s ∨
    persisted (sm.CleanupTechnique s).2 = ""
  extract_keeps : ∀ s, persisted (sm.ExtractTechnique s).2 = persisted s
  getOutputs_keeps : ∀ s, persisted (sm.GetTerraformOutputs s).2 = persisted s
  write_keeps : ∀ o s, persisted (sm.WriteTerraformOutputs o s).2 = persisted s

/-- Modelled from the spec: "Persistence exclusively owns the durable copy":
the calls of runner `m` that are not calls to Persistence (the provisioning
gateway, the capabilities of the technique, reading the outputs file) leave
the recorded state `persisted` alone. -/
structure OwnedByPersistence {σ : Type} (m : runnerImpl σ) (os : Host σ)
    (persisted : σ → AttackTechniqueState) : Prop where
  apply : ∀ s, persisted (m.TerraformManager.TerraformInitAndApply m.TerraformDir s).2 =
    persisted s
  destroy : ∀ s, persisted (m.TerraformManager.TerraformDestroy m.TerraformDir s).2 =
    persisted s
  output : ∀ s, persisted (m.TerraformManager.TerraformOutput m.TerraformDir s).2 = persisted s
  detonate : ∀ o s, persisted (m.Technique.Detonate o m.ProviderFactory s).2 = persisted s
  revert : ∀ revert, m.Technique.Revert = some revert →
    ∀ o s, persisted (revert o m.ProviderFactory s).2 = persisted s
  readFile : ∀ s, persisted (os.ReadFile m.Options.OutputsFile s).2 = persisted s

/-! ## Concrete collaborators, used to run the methods on explicit inputs -/

/-- A small disk: the technique state file and the outputs file of one
technique. -/
structure Disk where
  techniqueState : AttackTechniqueState
  outputs : Outputs
deriving DecidableEq, Repr

/-- A state manager that keeps the state and the outputs on a `Disk`; its
other operations succeed and change nothing. -/
def diskStateManager : StateManager Disk :=
  { GetRootDirectory := fun d => ("/home/.stratus-red-team", d)
    ExtractTechnique := fun d => (none, d)
    CleanupTechnique := fun d => (none, d)
    GetTerraformOutputs := fun d => ((d.outputs, none), d)
    WriteTerraformOutputs := fun o d => (none, { d with outputs := o })
    GetTechniqueState := fun d => (d.techniqueState, d)
    SetTechniqueState := fun s d => (none, { d with techniqueState := s }) }

/-- A Terraform manager with fixed answers. -/
def scriptedTerraform (apply : Outputs × Option GoError) (destroy : Option GoError)
    (output : Outputs × Option GoError) : TerraformManager Disk :=
  { TerraformInitAndApply := fun _ d => (apply, d)
    TerraformDestroy := fun _ d => (destroy, d)
    TerraformOutput := fun _ d => (output, d) }

/-- A technique whose capabilities return fixed answers. -/
def scriptedTechnique (idempotent : Bool) (code : Option (List Nat))
    (detonate : Option GoError) (revert : Option (Option GoError)) : AttackTechnique Disk :=
  { ID := "aws.demo.technique"
    IsIdempotent := idempotent
    IsSlow := false
    PrerequisitesTerraformCode := code
    Detonate := fun _ _ d => (detonate, d)
    Revert := revert.map (fun r => fun _ _ d => (r, d)) }

/-- Host functions for the examples: no environment override, no outputs
file, absolute paths only. -/
def demoHost (tf : TerraformManager Disk) : Host Disk :=
  { ReadFile := fun _ d => (([], some (errors.New "no such file")), d)
    Unmarshal := fun _ => ([], none)
    Getenv := fun _ _ => ""
    IsAbs := fun _ => true
    Abs := fun p _ => (p, none)
    Join := fun a b => a ++ "/" ++ b
    uuidNew := fun d => (⟨[4, 2]⟩, d)
    uuidParse := fun _ => (⟨[]⟩, some (errors.New "invalid UUID length"))
    GetStratusUserAgentForUUID := fun _ => "stratus-red-team"
    NewFileSystemStateManager := fun _ => diskStateManager
    NewTerraformManagerWithContext := fun _ _ => tf }

/-- A world for the examples, with an empty call record. -/
def demoWorld (tf : TerraformManager Disk) (d : Disk) : World Disk :=
  { os := demoHost tf, ext := d, calls := [] }

/-- A runner over the concrete collaborators, in the given in-memory state. -/
def demoRunner (technique : AttackTechnique Disk) (state : AttackTechniqueState)
    (options : RunnerOptions) (tf : TerraformManager Disk) : runnerImpl Disk :=
  { Technique := technique
    TechniqueState := state
    TerraformDir := if options.CustomTerraformDir = "" then
      "/home/.stratus-red-team/aws.demo.technique" else options.CustomTerraformDir
    Options := options
    TerraformManager := tf
    StateManager := diskStateManager
    ProviderFactory := ⟨⟨[4, 2]⟩⟩
    UniqueCorrelationID := ⟨[4, 2]⟩ }

/-- A Terraform manager all of whose operations succeed, with one output. -/
def okTerraform : TerraformManager Disk :=
  scriptedTerraform ([("endpoint", "x")], none) none ([("endpoint", "x")], none)

/-- The disk state manager with a `SetTechniqueState` that fails and writes
nothing. -/
def failingStateManager : StateManager Disk :=
  { diskStateManager with
    SetTechniqueState := fun _ d => (some (errors.New "read-only file system"), d) }

/-! ## Shared lemmas -/

theorem GetState_eq_detonated_iff {σ : Type} (m : runnerImpl σ) :
    m.GetState = AttackTechniqueStatusDetonated ↔
      m.TechniqueState = AttackTechniqueStatusDetonated := by
  unfold runnerImpl.GetState
  by_cases hc : m.Options.CustomTerraformDir = ""
  · simp [hc]
  · by_cases he : m.TechniqueState = ""
    · simp [hc, he, AttackTechniqueStatusDetonated, AttackTechniqueStatusCold]
    · simp [hc, he]

/-! ## Shared lemmas: the paths of `WarmUp` -/

theorem readTerraformOutputs_m {σ : Type} (m : runnerImpl σ) (w : World σ) :
    (m.readTerraformOutputs w).m = m := by
  unfold runnerImpl.readTerraformOutputs
  split_ifs
  · rfl
  · dsimp only
    split
    · rfl
    · split <;> rfl

theorem readTerraformOutputs_calls {σ : Type} (m : runnerImpl σ) (w : World σ) :
    (m.readTerraformOutputs w).w.calls = w.calls ∨
    ∃ b e, (m.readTerraformOutputs w).w.calls =
      w.calls ++ [Event.ReadFile m.Options.OutputsFile b e] := by
  unfold runnerImpl.readTerraformOutputs
  split_ifs
  · exact Or.inl rfl
  · dsimp only
    split
    · exact Or.inr ⟨_, _, rfl⟩
    · split <;> exact Or.inr ⟨_, _, rfl⟩

/-- The world in which `WarmUp` decides whether to provision: after its entry
and, without a custom directory, after a successful `ExtractTechnique`. -/
theorem WarmUp_extract_world {σ : Type} (m : runnerImpl σ) (w : World σ)
    (hx : m.Options.CustomTerraformDir = "" → (m.StateManager.ExtractTechnique w.ext).1 = none) :
    (if m.Options.CustomTerraformDir = "" then
        (w.enter Event.WarmUp).call m.StateManager.ExtractTechnique Event.ExtractTechnique
      else (none, w.enter Event.WarmUp)) =
    (none,
      { os := w.os
        ext := if m.Options.CustomTerraformDir = "" then
          (m.StateManager.ExtractTechnique w.ext).2 else w.ext
        calls := w.calls ++ Event.WarmUp ::
          (if m.Options.CustomTerraformDir = "" then [Event.ExtractTechnique none] else []) }) := by
  by_cases hc : m.Options.CustomTerraformDir = ""
  · simp [hc, World.call, World.enter, hx hc]
  · simp [hc, World.enter]

theorem WarmUp_noop {σ : Type} (m : runnerImpl σ) (w : World σ)
    (h1 : m.Technique.PrerequisitesTerraformCode = none ∧ m.Options.CustomTerraformDir = "") :
    m.WarmUp w = ⟨([], none), m, w.enter Event.WarmUp⟩ := by
  simp [runnerImpl.WarmUp, h1]

theorem WarmUp_noWarmup {σ : Type} (m : runnerImpl σ) (w : World σ)
    (h1 : ¬ (m.Technique.PrerequisitesTerraformCode = none ∧ m.Options.CustomTerraformDir = ""))
    (h2 : m.Options.NoWarmup = true) :
    m.WarmUp w = m.readTerraformOutputs (w.enter Event.WarmUp) := by
  simp only [runnerImpl.WarmUp, h1, h2, if_true, if_false]

theorem WarmUp_extract_fail {σ : Type} (m : runnerImpl σ) (w : World σ) (err : GoError)
    (h1 : ¬ (m.Technique.PrerequisitesTerraformCode = none ∧ m.Options.CustomTerraformDir = ""))
    (h2 : m.Options.NoWarmup = false)
    (hc : m.Options.CustomTerraformDir = "")
    (hx : (m.StateManager.ExtractTechnique w.ext).1 = some err) :
    m.WarmUp w =
      ⟨([], some (errors.New ("unable to extract Terraform file: " ++ err.Error))), m,
        ((w.enter Event.WarmUp).call m.StateManager.ExtractTechnique Event.ExtractTechnique).2⟩ := by
  have hx1 : ((w.enter Event.WarmUp).call m.StateManager.ExtractTechnique
      Event.ExtractTechnique).1 = some err := by simpa [World.call, World.enter] using hx
  have hcode : ¬ m.Technique.PrerequisitesTerraformCode = none := fun h => h1 ⟨h, hc⟩
  simp [runnerImpl.WarmUp, hcode, h2, hc, hx1]

theorem WarmUp_skip {σ : Type} (m : runnerImpl σ) (w w1 : World σ)
    (h1 : ¬ (m.Technique.PrerequisitesTerraformCode = none ∧ m.Options.CustomTerraformDir = ""))
    (h2 : m.Options.NoWarmup = false)
    (hw1 : (if m.Options.CustomTerraformDir = "" then
        (w.enter Event.WarmUp).call m.StateManager.ExtractTechnique Event.ExtractTechnique
      else (none, w.enter Event.WarmUp)) = (none, w1))
    (hs : (m.TechniqueState = AttackTechniqueStatusWarm ∧ m.Options.Force = false) ∨
      m.TechniqueState = AttackTechniqueStatusDetonated) :
    m.WarmUp w =
      ⟨(w1.call m.StateManager.GetTerraformOutputs (fun r => Event.GetTerraformOutputs r.1 r.2)).1,
        m,
        (w1.call m.StateManager.GetTerraformOutputs (fun r => Event.GetTerraformOutputs r.1 r.2)).2⟩ := by
  simp only [runnerImpl.WarmUp, h1, h2, if_false, hw1]
  rcases hs with hs | hs
  · by_cases hd : m.TechniqueState = AttackTechniqueStatusDetonated <;> simp [hs, hd]
  · simp [hs]

theorem WarmUp_apply_fail {σ : Type} (m : runnerImpl σ) (w w1 : World σ) (err : GoError)
    (h1 : ¬ (m.Technique.PrerequisitesTerraformCode = none ∧ m.Options.CustomTerraformDir = ""))
    (h2 : m.Options.NoWarmup = false)
    (hw1 : (if m.Options.CustomTerraformDir = "" then
        (w.enter Event.WarmUp).call m.StateManager.ExtractTechnique Event.ExtractTechnique
      else (none, w.enter Event.WarmUp)) = (none, w1))
    (hs : ¬ (m.TechniqueState = AttackTechniqueStatusWarm ∧ m.Options.Force = false))
    (hd : m.TechniqueState ≠ AttackTechniqueStatusDetonated)
    (ha : (m.TerraformManager.TerraformInitAndApply m.TerraformDir w1.ext).1.2 = some err) :
    m.WarmUp w =
      ⟨([], some (if errors.Is err context.Canceled then err
          else errors.New ("unable to run terraform apply on prerequisite: " ++
            errorMessageFromTerraformError err))),
        m,
        { os := w1.os
          ext := (m.TerraformManager.TerraformDestroy m.TerraformDir
            (m.TerraformManager.TerraformInitAndApply m.TerraformDir w1.ext).2).2
          calls := w1.calls ++
            [Event.TerraformInitAndApply m.TerraformDir
              (m.TerraformManager.TerraformInitAndApply m.TerraformDir w1.ext).1.1 (some err),
             Event.TerraformDestroy m.TerraformDir
              (m.TerraformManager.TerraformDestroy m.TerraformDir
                (m.TerraformManager.TerraformInitAndApply m.TerraformDir w1.ext).2).1] }⟩ := by
  simp only [runnerImpl.WarmUp, h1, h2, if_false, hw1]
  by_cases hcan : errors.Is err context.Canceled = true <;>
    simp [hs, hd, World.call, ha, hcan]

theorem WarmUp_apply_ok {σ : Type} (m : runnerImpl σ) (w w1 : World σ)
    (h1 : ¬ (m.Technique.PrerequisitesTerraformCode = none ∧ m.Options.CustomTerraformDir = ""))
    (h2 : m.Options.NoWarmup = false)
    (hw1 : (if m.Options.CustomTerraformDir = "" then
        (w.enter Event.WarmUp).call m.StateManager.ExtractTechnique Event.ExtractTechnique
      else (none, w.enter Event.WarmUp)) = (none, w1))
    (hs : ¬ (m.TechniqueState = AttackTechniqueStatusWarm ∧ m.Options.Force = false))
    (hd : m.TechniqueState ≠ AttackTechniqueStatusDetonated)
    (ha : (m.TerraformManager.TerraformInitAndApply m.TerraformDir w1.ext).1.2 = none) :
    (m.WarmUp w).val.1 = (m.TerraformManager.TerraformInitAndApply m.TerraformDir w1.ext).1.1 ∧
    (m.WarmUp w).val.2 =
      (if m.Options.CustomTerraformDir = "" then
        (m.StateManager.WriteTerraformOutputs
          (m.TerraformManager.TerraformInitAndApply m.TerraformDir w1.ext).1.1
          (m.TerraformManager.TerraformInitAndApply m.TerraformDir w1.ext).2).1
      else none) ∧
    (m.WarmUp w).m = { m with TechniqueState := AttackTechniqueStatusWarm } ∧
    (m.WarmUp w).w.calls = w1.calls ++
      Event.TerraformInitAndApply m.TerraformDir
        (m.TerraformManager.TerraformInitAndApply m.TerraformDir w1.ext).1.1 none ::
      (if m.Options.CustomTerraformDir = "" then
        [Event.WriteTerraformOutputs
          (m.TerraformManager.TerraformInitAndApply m.TerraformDir w1.ext).1.1
          (m.StateManager.WriteTerraformOutputs
            (m.TerraformManager.TerraformInitAndApply m.TerraformDir w1.ext).1.1
            (m.TerraformManager.TerraformInitAndApply m.TerraformDir w1.ext).2).1,
         Event.SetTechniqueState AttackTechniqueStatusWarm
          (m.StateManager.SetTechniqueState AttackTechniqueStatusWarm
            (m.StateManager.WriteTerraformOutputs
              (m.TerraformManager.TerraformInitAndApply m.TerraformDir w1.ext).1.1
              (m.TerraformManager.TerraformInitAndApply m.TerraformDir w1.ext).2).2).1]
      else []) := by
  simp only [runnerImpl.WarmUp, h1, h2, if_false, hw1]
  by_cases hc : m.Options.CustomTerraformDir = "" <;>
    simp [hs, hd, World.call, ha, hc, runnerImpl.setState]

/-- What every path of `WarmUp` has in common: it never calls the detonation
capability, and it either leaves the receiver alone and records no successful
apply, or records a successful apply and sets the state to WARM. -/
theorem WarmUp_summary {σ : Type} (m : runnerImpl σ) (w : World σ) :
    (∀ o p e, Event.TechniqueDetonate o p e ∈ (m.WarmUp w).w.calls →
      Event.TechniqueDetonate o p e ∈ w.calls) ∧
    (((m.WarmUp w).m = m ∧
        ∀ o, Event.TerraformInitAndApply m.TerraformDir o none ∈ (m.WarmUp w).w.calls →
          Event.TerraformInitAndApply m.TerraformDir o none ∈ w.calls) ∨
      ((m.WarmUp w).m = { m with TechniqueState := AttackTechniqueStatusWarm } ∧
        ∃ o, Event.TerraformInitAndApply m.TerraformDir o none ∈ (m.WarmUp w).w.calls)) := by
  by_cases h1 : m.Technique.PrerequisitesTerraformCode = none ∧ m.Options.CustomTerraformDir = ""
  · rw [WarmUp_noop m w h1]
    simp [World.enter]
  by_cases h2 : m.Options.NoWarmup = true
  · rw [WarmUp_noWarmup m w h1 h2]
    have hm := readTerraformOutputs_m m (w.enter Event.WarmUp)
    rcases readTerraformOutputs_calls m (w.enter Event.WarmUp) with hc | ⟨b, e, hc⟩ <;>
      refine ⟨?_, Or.inl ⟨hm, ?_⟩⟩ <;> rw [hc] <;> simp [World.enter]
  have h2 : m.Options.NoWarmup = false := by simpa using h2
  by_cases hx : m.Options.CustomTerraformDir = "" →
      (m.StateManager.ExtractTechnique w.ext).1 = none
  · have hw1 := WarmUp_extract_world m w hx
    by_cases hs : (m.TechniqueState = AttackTechniqueStatusWarm ∧ m.Options.Force = false) ∨
        m.TechniqueState = AttackTechniqueStatusDetonated
    · rw [WarmUp_skip m w _ h1 h2 hw1 hs]
      by_cases hc : m.Options.CustomTerraformDir = "" <;> simp [World.call, hc]
    · have hs1 : ¬ (m.TechniqueState = AttackTechniqueStatusWarm ∧ m.Options.Force = false) :=
        fun h => hs (Or.inl h)
      have hd : m.TechniqueState ≠ AttackTechniqueStatusDetonated := fun h => hs (Or.inr h)
      cases ha : (m.TerraformManager.TerraformInitAndApply m.TerraformDir
          (if m.Options.CustomTerraformDir = "" then
            (m.StateManager.ExtractTechnique w.ext).2 else w.ext)).1.2 with
      | some err =>
        rw [WarmUp_apply_fail m w _ err h1 h2 hw1 hs1 hd ha]
        by_cases hc : m.Options.CustomTerraformDir = "" <;> simp [hc]
      | none =>
        obtain ⟨-, -, hm, hcalls⟩ := WarmUp_apply_ok m w _ h1 h2 hw1 hs1 hd ha
        refine ⟨?_, Or.inr ⟨hm, ?_⟩⟩
        · rw [hcalls]
          by_cases hc : m.Options.CustomTerraformDir = "" <;> simp [hc]
        · rw [hcalls]
          exact ⟨_, List.mem_append_right _ (List.mem_cons_self _ _)⟩
  · have hc : m.Options.CustomTerraformDir = "" := by
      by_contra hc
      exact hx (fun h => absurd h hc)
    cases hx1 : (m.StateManager.ExtractTechnique w.ext).1 with
    | none => exact absurd (fun _ => hx1) hx
    | some err =>
      rw [WarmUp_extract_fail m w err h1 h2 hc hx1]
      simp [World.call, World.enter]

/-! ## Shared lemmas: the paths of `Detonate` -/

theorem Detonate_guard {σ : Type} (m : runnerImpl σ) (w : World σ)
    (hs : m.GetState = AttackTechniqueStatusDetonated)
    (hi : m.Technique.IsIdempotent = false) (hf : m.Options.Force = false) :
    m.Detonate w =
      ⟨some (errors.New (m.Technique.ID ++ " has already been detonated and is not idempotent. " ++
        "Revert it with 'stratus revert' before detonating it again, or use --force")), m,
        w.enter Event.Detonate⟩ := by
  simp [runnerImpl.Detonate, hs, hi, hf]

/-- After the guard, `Detonate` is determined by the result `r` of resolving
the outputs (through `WarmUp`, or by reading them when already detonated). -/
theorem Detonate_after_resolve {σ : Type} (m : runnerImpl σ) (w : World σ)
    (r : Ret σ (Outputs × Option GoError))
    (hg : ¬ (m.GetState = AttackTechniqueStatusDetonated ∧
      m.Technique.IsIdempotent = false ∧ m.Options.Force = false))
    (hr : (if m.GetState = AttackTechniqueStatusDetonated then
        (if m.Options.CustomTerraformDir ≠ "" then
          (⟨((w.enter Event.Detonate).call (m.TerraformManager.TerraformOutput m.TerraformDir)
              (fun r => Event.TerraformOutput m.TerraformDir r.1 r.2)).1, m,
            ((w.enter Event.Detonate).call (m.TerraformManager.TerraformOutput m.TerraformDir)
              (fun r => Event.TerraformOutput m.TerraformDir r.1 r.2)).2⟩ :
            Ret σ (Outputs × Option GoError))
        else
          ⟨((w.enter Event.Detonate).call m.StateManager.GetTerraformOutputs
              (fun r => Event.GetTerraformOutputs r.1 r.2)).1, m,
            ((w.enter Event.Detonate).call m.StateManager.GetTerraformOutputs
              (fun r => Event.GetTerraformOutputs r.1 r.2)).2⟩)
      else m.WarmUp (w.enter Event.Detonate)) = r) :
    (∀ err, r.val.2 = some err → m.Detonate w = ⟨some err, r.m, r.w⟩) ∧
    (r.val.2 = none →
      (∀ err, (r.m.Technique.Detonate r.val.1 r.m.ProviderFactory r.w.ext).1 = some err →
        m.Detonate w =
          ⟨some (errors.New ("Error while detonating attack technique " ++ r.m.Technique.ID ++
              ": " ++ err.Error)), r.m,
            { os := r.w.os
              ext := (r.m.Technique.Detonate r.val.1 r.m.ProviderFactory r.w.ext).2
              calls := r.w.calls ++
                [Event.TechniqueDetonate r.val.1 r.m.ProviderFactory (some err)] }⟩) ∧
      ((r.m.Technique.Detonate r.val.1 r.m.ProviderFactory r.w.ext).1 = none →
        m.Detonate w =
          ⟨none, { r.m with TechniqueState := AttackTechniqueStatusDetonated },
            (r.m.setState AttackTechniqueStatusDetonated
              { os := r.w.os
                ext := (r.m.Technique.Detonate r.val.1 r.m.ProviderFactory r.w.ext).2
                calls := r.w.calls ++
                  [Event.TechniqueDetonate r.val.1 r.m.ProviderFactory none] }).w⟩)) := by
  have hg' : ¬ (m.GetState = AttackTechniqueStatusDetonated ∧
      (!m.Technique.IsIdempotent && !m.Options.Force) = true) := by
    simpa using hg
  have hr' : (if (if m.GetState = AttackTechniqueStatusDetonated then false else true) = true then
        m.WarmUp (w.enter Event.Detonate)
      else
        (if m.Options.CustomTerraformDir ≠ "" then
          (⟨((w.enter Event.Detonate).call (m.TerraformManager.TerraformOutput m.TerraformDir)
              (fun r => Event.TerraformOutput m.TerraformDir r.1 r.2)).1, m,
            ((w.enter Event.Detonate).call (m.TerraformManager.TerraformOutput m.TerraformDir)
              (fun r => Event.TerraformOutput m.TerraformDir r.1 r.2)).2⟩ :
            Ret σ (Outputs × Option GoError))
        else
          ⟨((w.enter Event.Detonate).call m.StateManager.GetTerraformOutputs
              (fun r => Event.GetTerraformOutputs r.1 r.2)).1, m,
            ((w.enter Event.Detonate).call m.StateManager.GetTerraformOutputs
              (fun r => Event.GetTerraformOutputs r.1 r.2)).2⟩)) = r := by
    rw [← hr]
    by_cases hs : m.GetState = AttackTechniqueStatusDetonated <;> simp [hs]
  refine ⟨?_, ?_⟩
  · intro err he
    simp only [runnerImpl.Detonate, hg', if_false, hr', he]
  · intro hn
    refine ⟨?_, ?_⟩
    · intro err he
      simp only [runnerImpl.Detonate, hg', if_false, hr', hn]
      simp only [World.call, he]
    · intro he
      simp only [runnerImpl.Detonate, hg', if_false, hr', hn]
      simp only [World.call, he, runnerImpl.setState]

theorem strings_Contains_mid (a b c : String) : strings.Contains (a ++ b ++ c) b = true := by
  simp only [strings.Contains, String.data_append, decide_eq_true_eq]
  exact ⟨a.data, c.data, rfl⟩

theorem strings_Contains_suffix (a b : String) : strings.Contains (a ++ b) b = true := by
  simp only [strings.Contains, String.data_append, decide_eq_true_eq]
  exact ⟨a.data, [], by simp⟩

theorem GetState_withWarm {σ : Type} (m : runnerImpl σ) :
    ({ m with TechniqueState := AttackTechniqueStatusWarm } : runnerImpl σ).GetState =
      AttackTechniqueStatusWarm := by
  by_cases hc : m.Options.CustomTerraformDir = "" <;>
    simp [runnerImpl.GetState, hc, AttackTechniqueStatusWarm]

/-- The outputs-resolution step of `Detonate` never calls the detonation
capability, and changes the receiver only by a successful apply in `WarmUp`. -/
theorem Detonate_resolve_summary {σ : Type} (m : runnerImpl σ) (w : World σ)
    (r : Ret σ (Outputs × Option GoError))
    (hr : (if m.GetState = AttackTechniqueStatusDetonated then
        (if m.Options.CustomTerraformDir ≠ "" then
          (⟨((w.enter Event.Detonate).call (m.TerraformManager.TerraformOutput m.TerraformDir)
              (fun r => Event.TerraformOutput m.TerraformDir r.1 r.2)).1, m,
            ((w.enter Event.Detonate).call (m.TerraformManager.TerraformOutput m.TerraformDir)
              (fun r => Event.TerraformOutput m.TerraformDir r.1 r.2)).2⟩ :
            Ret σ (Outputs × Option GoError))
        else
          ⟨((w.enter Event.Detonate).call m.StateManager.GetTerraformOutputs
              (fun r => Event.GetTerraformOutputs r.1 r.2)).1, m,
            ((w.enter Event.Detonate).call m.StateManager.GetTerraformOutputs
              (fun r => Event.GetTerraformOutputs r.1 r.2)).2⟩)
      else m.WarmUp (w.enter Event.Detonate)) = r) :
    (∀ o p e, Event.TechniqueDetonate o p e ∈ r.w.calls →
      Event.TechniqueDetonate o p e ∈ w.calls) ∧
    ((r.m = m ∧
        ∀ o, Event.TerraformInitAndApply m.TerraformDir o none ∈ r.w.calls →
          Event.TerraformInitAndApply m.TerraformDir o none ∈ w.calls) ∨
      (r.m = { m with TechniqueState := AttackTechniqueStatusWarm } ∧
        ∃ o, Event.TerraformInitAndApply m.TerraformDir o none ∈ r.w.calls)) := by
  subst hr
  by_cases hs : m.GetState = AttackTechniqueStatusDetonated
  · by_cases hc : m.Options.CustomTerraformDir = "" <;>
      simp [hs, hc, World.call, World.enter]
  · simp only [hs, if_false]
    obtain ⟨h1, h2⟩ := WarmUp_summary m (w.enter Event.Detonate)
    refine ⟨?_, ?_⟩
    · intro o p e h
      simpa [World.enter] using h1 o p e h
    · rcases h2 with ⟨hm, h⟩ | ⟨hm, h⟩
      · refine Or.inl ⟨hm, ?_⟩
        intro o ho
        simpa [World.enter] using h o ho
      · exact Or.inr ⟨hm, h⟩


theorem GetState_eq_warm_iff {σ : Type} (m : runnerImpl σ) :
    m.GetState = AttackTechniqueStatusWarm ↔
      m.TechniqueState = AttackTechniqueStatusWarm := by
  unfold runnerImpl.GetState
  by_cases hc : m.Options.CustomTerraformDir = ""
  · simp [hc]
  · by_cases he : m.TechniqueState = ""
    · simp [hc, he, AttackTechniqueStatusWarm, AttackTechniqueStatusCold]
    · simp [hc, he]

theorem errorMessageFromTerraformError_suffix (err : GoError) :
    ∃ p, errorMessageFromTerraformError err = p ++ err.Error := by
  unfold errorMessageFromTerraformError
  split_ifs
  · exact ⟨_, rfl⟩
  · exact ⟨"", by simp⟩

theorem strings_Contains_terraform_message (a : String) (err : GoError) :
    strings.Contains (a ++ errorMessageFromTerraformError err) err.Error = true := by
  obtain ⟨p, hp⟩ := errorMessageFromTerraformError_suffix err
  rw [hp, ← String.append_assoc]
  exact strings_Contains_suffix _ _

/-- The calls of `WarmUp`: its entry followed by calls of the `byWarmUp`
class; a failed apply among them decides the error returned. -/
theorem WarmUp_events {σ : Type} (m : runnerImpl σ) (w : World σ) :
    ∃ evs, (m.WarmUp w).w.calls = w.calls ++ Event.WarmUp :: evs ∧
      (∀ ev ∈ evs, ev.byWarmUp m.TerraformDir = true) ∧
      (∀ o err, Event.TerraformInitAndApply m.TerraformDir o (some err) ∈ evs →
        (m.WarmUp w).val.2 = some (if errors.Is err context.Canceled then err
          else errors.New ("unable to run terraform apply on prerequisite: " ++
            errorMessageFromTerraformError err))) := by
  by_cases h1 : m.Technique.PrerequisitesTerraformCode = none ∧ m.Options.CustomTerraformDir = ""
  · rw [WarmUp_noop m w h1]
    exact ⟨[], by simp [World.enter], by simp, by simp⟩
  by_cases h2 : m.Options.NoWarmup = true
  · rw [WarmUp_noWarmup m w h1 h2]
    rcases readTerraformOutputs_calls m (w.enter Event.WarmUp) with hc | ⟨b, e, hc⟩
    · exact ⟨[], by rw [hc]; simp [World.enter], by simp, by simp⟩
    · exact ⟨[Event.ReadFile m.Options.OutputsFile b e], by rw [hc]; simp [World.enter],
        by simp [Event.byWarmUp], by simp⟩
  have h2 : m.Options.NoWarmup = false := by simpa using h2
  by_cases hx : m.Options.CustomTerraformDir = "" →
      (m.StateManager.ExtractTechnique w.ext).1 = none
  · have hw1 := WarmUp_extract_world m w hx
    by_cases hs : (m.TechniqueState = AttackTechniqueStatusWarm ∧ m.Options.Force = false) ∨
        m.TechniqueState = AttackTechniqueStatusDetonated
    · rw [WarmUp_skip m w _ h1 h2 hw1 hs]
      refine ⟨(if m.Options.CustomTerraformDir = "" then [Event.ExtractTechnique none] else []) ++
        [Event.GetTerraformOutputs
          (m.StateManager.GetTerraformOutputs (if m.Options.CustomTerraformDir = "" then
            (m.StateManager.ExtractTechnique w.ext).2 else w.ext)).1.1
          (m.StateManager.GetTerraformOutputs (if m.Options.CustomTerraformDir = "" then
            (m.StateManager.ExtractTechnique w.ext).2 else w.ext)).1.2], ?_, ?_, ?_⟩ <;>
      by_cases hc : m.Options.CustomTerraformDir = "" <;> simp [World.call, hc, Event.byWarmUp]
    · have hs1 : ¬ (m.TechniqueState = AttackTechniqueStatusWarm ∧ m.Options.Force = false) :=
        fun h => hs (Or.inl h)
      have hd : m.TechniqueState ≠ AttackTechniqueStatusDetonated := fun h => hs (Or.inr h)
      cases ha : (m.TerraformManager.TerraformInitAndApply m.TerraformDir
          (if m.Options.CustomTerraformDir = "" then
            (m.StateManager.ExtractTechnique w.ext).2 else w.ext)).1.2 with
      | some err =>
        rw [WarmUp_apply_fail m w _ err h1 h2 hw1 hs1 hd ha]
        refine ⟨(if m.Options.CustomTerraformDir = "" then [Event.ExtractTechnique none]
            else []) ++
          [Event.TerraformInitAndApply m.TerraformDir
            (m.TerraformManager.TerraformInitAndApply m.TerraformDir
              (if m.Options.CustomTerraformDir = "" then
                (m.StateManager.ExtractTechnique w.ext).2 else w.ext)).1.1 (some err),
           Event.TerraformDestroy m.TerraformDir
            (m.TerraformManager.TerraformDestroy m.TerraformDir
              (m.TerraformManager.TerraformInitAndApply m.TerraformDir
                (if m.Options.CustomTerraformDir = "" then
                  (m.StateManager.ExtractTechnique w.ext).2 else w.ext)).2).1], ?_, ?_, ?_⟩
        · by_cases hc : m.Options.CustomTerraformDir = "" <;> simp [hc]
        · by_cases hc : m.Options.CustomTerraformDir = "" <;> simp [hc, Event.byWarmUp]
        · intro o err' hmem
          have : err' = err := by
            by_cases hc : m.Options.CustomTerraformDir = "" <;> simp [hc] at hmem <;>
              exact hmem.2
          subst this
          rfl
      | none =>
        obtain ⟨-, -, -, hcalls⟩ := WarmUp_apply_ok m w _ h1 h2 hw1 hs1 hd ha
        rw [hcalls]
        refine ⟨(if m.Options.CustomTerraformDir = "" then [Event.ExtractTechnique none]
            else []) ++
          Event.TerraformInitAndApply m.TerraformDir
            (m.TerraformManager.TerraformInitAndApply m.TerraformDir
              (if m.Options.CustomTerraformDir = "" then
                (m.StateManager.ExtractTechnique w.ext).2 else w.ext)).1.1 none ::
          (if m.Options.CustomTerraformDir = "" then
            [Event.WriteTerraformOutputs
              (m.TerraformManager.TerraformInitAndApply m.TerraformDir
                (m.StateManager.ExtractTechnique w.ext).2).1.1
              (m.StateManager.WriteTerraformOutputs
                (m.TerraformManager.TerraformInitAndApply m.TerraformDir
                  (m.StateManager.ExtractTechnique w.ext).2).1.1
                (m.TerraformManager.TerraformInitAndApply m.TerraformDir
                  (m.StateManager.ExtractTechnique w.ext).2).2).1,
             Event.SetTechniqueState AttackTechniqueStatusWarm
              (m.StateManager.SetTechniqueState AttackTechniqueStatusWarm
                (m.StateManager.WriteTerraformOutputs
                  (m.TerraformManager.TerraformInitAndApply m.TerraformDir
                    (m.StateManager.ExtractTechnique w.ext).2).1.1
                  (m.TerraformManager.TerraformInitAndApply m.TerraformDir
                    (m.StateManager.ExtractTechnique w.ext).2).2).2).1]
          else []), ?_, ?_, ?_⟩ <;>
        by_cases hc : m.Options.CustomTerraformDir = "" <;> simp [hc, Event.byWarmUp]
  · have hc : m.Options.CustomTerraformDir = "" := by
      by_contra hc
      exact hx (fun h => absurd h hc)
    cases hx1 : (m.StateManager.ExtractTechnique w.ext).1 with
    | none => exact absurd (fun _ => hx1) hx
    | some err =>
      rw [WarmUp_extract_fail m w err h1 h2 hc hx1]
      exact ⟨[Event.ExtractTechnique (some err)], by simp [World.call, World.enter, hx1],
        by simp [Event.byWarmUp], by simp⟩

/-! ## Shared lemmas: the paths of `Revert` -/

theorem Revert_guard {σ : Type} (m : runnerImpl σ) (w : World σ)
    (hs : m.GetState ≠ AttackTechniqueStatusDetonated) (hf : m.Options.Force = false) :
    m.Revert w =
      ⟨some (errors.New (m.Technique.ID ++
        " is not in DETONATED state and should not need to be reverted, use --force to force")),
        m, w.enter Event.Revert⟩ := by
  simp [runnerImpl.Revert, hs, hf]

/-- After its guard, `Revert` is determined by the result `o` of reading the
outputs. -/
theorem Revert_after_outputs {σ : Type} (m : runnerImpl σ) (w : World σ)
    (o : (Outputs × Option GoError) × World σ)
    (hg : m.GetState = AttackTechniqueStatusDetonated ∨ m.Options.Force = true)
    (ho : (if m.Options.CustomTerraformDir ≠ "" then
        (w.enter Event.Revert).call (m.TerraformManager.TerraformOutput m.TerraformDir)
          (fun r => Event.TerraformOutput m.TerraformDir r.1 r.2)
      else
        (w.enter Event.Revert).call m.StateManager.GetTerraformOutputs
          (fun r => Event.GetTerraformOutputs r.1 r.2)) = o) :
    (∀ err, o.1.2 = some err →
      m.Revert w = ⟨some (errors.New ("unable to retrieve outputs of " ++ m.Technique.ID ++
        ": " ++ err.Error)), m, o.2⟩) ∧
    (o.1.2 = none →
      (∀ revert, m.Technique.Revert = some revert →
        (∀ err, (revert o.1.1 m.ProviderFactory o.2.ext).1 = some err →
          m.Revert w =
            ⟨some (errors.New ("unable to revert detonation of " ++ m.Technique.ID ++ ": " ++
              err.Error)), m,
              { os := o.2.os
                ext := (revert o.1.1 m.ProviderFactory o.2.ext).2
                calls := o.2.calls ++
                  [Event.TechniqueRevert o.1.1 m.ProviderFactory (some err)] }⟩) ∧
        ((revert o.1.1 m.ProviderFactory o.2.ext).1 = none →
          m.Revert w =
            ⟨none, { m with TechniqueState := AttackTechniqueStatusWarm },
              (m.setState AttackTechniqueStatusWarm
                { os := o.2.os
                  ext := (revert o.1.1 m.ProviderFactory o.2.ext).2
                  calls := o.2.calls ++
                    [Event.TechniqueRevert o.1.1 m.ProviderFactory none] }).w⟩)) ∧
      (m.Technique.Revert = none →
        m.Revert w =
          ⟨none, { m with TechniqueState := AttackTechniqueStatusWarm },
            (m.setState AttackTechniqueStatusWarm o.2).w⟩)) := by
  have hg' : ¬ (m.GetState ≠ AttackTechniqueStatusDetonated ∧ m.Options.Force = false) := by
    rintro ⟨h1, h2⟩
    rcases hg with h | h
    · exact h1 h
    · rw [h2] at h
      exact Bool.noConfusion h
  refine ⟨?_, ?_⟩
  · intro err he
    simp only [runnerImpl.Revert, hg', if_false, ho, he]
  · intro hn
    refine ⟨?_, ?_⟩
    · intro revert hrev
      refine ⟨?_, ?_⟩
      · intro err he
        simp only [runnerImpl.Revert, hg', if_false, ho, hn, hrev]
        simp only [World.call, he]
      · intro he
        simp only [runnerImpl.Revert, hg', if_false, ho, hn, hrev]
        simp only [World.call, he, runnerImpl.setState]
    · intro hrev
      simp only [runnerImpl.Revert, hg', if_false, ho, hn, hrev, runnerImpl.setState]

/-- The calls of `Revert`: its entry followed by calls of the `byRevert`
class. It returns no error exactly when it sets the state to WARM, and
otherwise leaves the receiver alone. -/
theorem Revert_events {σ : Type} (m : runnerImpl σ) (w : World σ) :
    ∃ evs, (m.Revert w).w.calls = w.calls ++ Event.Revert :: evs ∧
      (∀ ev ∈ evs, ev.byRevert m.TerraformDir = true) ∧
      (((m.Revert w).val = none ∧
          (m.Revert w).m = { m with TechniqueState := AttackTechniqueStatusWarm }) ∨
        ((m.Revert w).val ≠ none ∧ (m.Revert w).m = m)) := by
  by_cases hg : m.GetState = AttackTechniqueStatusDetonated ∨ m.Options.Force = true
  · obtain ⟨hA, hB⟩ := Revert_after_outputs m w _ hg rfl
    have hcalls : ∃ ev, ev.byRevert m.TerraformDir = true ∧
        (if m.Options.CustomTerraformDir ≠ "" then
          (w.enter Event.Revert).call (m.TerraformManager.TerraformOutput m.TerraformDir)
            (fun r => Event.TerraformOutput m.TerraformDir r.1 r.2)
        else
          (w.enter Event.Revert).call m.StateManager.GetTerraformOutputs
            (fun r => Event.GetTerraformOutputs r.1 r.2)).2.calls =
          w.calls ++ [Event.Revert, ev] := by
      by_cases hc : m.Options.CustomTerraformDir = ""
      · exact ⟨Event.GetTerraformOutputs (m.StateManager.GetTerraformOutputs w.ext).1.1
          (m.StateManager.GetTerraformOutputs w.ext).1.2, by simp [Event.byRevert],
          by simp [hc, World.call, World.enter]⟩
      · exact ⟨Event.TerraformOutput m.TerraformDir
          (m.TerraformManager.TerraformOutput m.TerraformDir w.ext).1.1
          (m.TerraformManager.TerraformOutput m.TerraformDir w.ext).1.2,
          by simp [Event.byRevert], by simp [hc, World.call, World.enter]⟩
    generalize (if m.Options.CustomTerraformDir ≠ "" then
        (w.enter Event.Revert).call (m.TerraformManager.TerraformOutput m.TerraformDir)
          (fun r => Event.TerraformOutput m.TerraformDir r.1 r.2)
      else
        (w.enter Event.Revert).call m.StateManager.GetTerraformOutputs
          (fun r => Event.GetTerraformOutputs r.1 r.2)) = o at hA hB hcalls
    obtain ⟨ev0, hev0, hcalls⟩ := hcalls
    have hpair : ∀ ev1 : Event, ev1.byRevert m.TerraformDir = true →
        ∀ ev ∈ [ev0, ev1], ev.byRevert m.TerraformDir = true := by
      intro ev1 h1 ev hev
      simp only [List.mem_cons, List.mem_singleton, List.not_mem_nil, or_false] at hev
      rcases hev with rfl | rfl
      · exact hev0
      · exact h1
    have htriple : ∀ ev1 ev2 : Event, ev1.byRevert m.TerraformDir = true →
        ev2.byRevert m.TerraformDir = true →
        ∀ ev ∈ [ev0, ev1, ev2], ev.byRevert m.TerraformDir = true := by
      intro ev1 ev2 h1 h2 ev hev
      simp only [List.mem_cons, List.mem_singleton, List.not_mem_nil, or_false] at hev
      rcases hev with rfl | rfl | rfl
      · exact hev0
      · exact h1
      · exact h2
    cases ho : o.1.2 with
    | some err =>
      rw [hA err ho]
      exact ⟨[ev0], by simp [hcalls], by simpa using hev0, Or.inr ⟨by simp, rfl⟩⟩
    | none =>
      obtain ⟨hB1, hB2⟩ := hB ho
      cases hrev : m.Technique.Revert with
      | none =>
        rw [hB2 hrev]
        by_cases hc : m.Options.CustomTerraformDir = ""
        · exact ⟨[ev0, Event.SetTechniqueState AttackTechniqueStatusWarm
            (m.StateManager.SetTechniqueState AttackTechniqueStatusWarm o.2.ext).1],
            by simp [runnerImpl.setState, hc, World.call, hcalls],
            hpair _ (by simp [Event.byRevert]), Or.inl ⟨rfl, rfl⟩⟩
        · exact ⟨[ev0], by simp [runnerImpl.setState, hc, hcalls], by simpa using hev0,
            Or.inl ⟨rfl, rfl⟩⟩
      | some revert =>
        obtain ⟨hC1, hC2⟩ := hB1 revert hrev
        cases hv : (revert o.1.1 m.ProviderFactory o.2.ext).1 with
        | some err =>
          rw [hC1 err hv]
          exact ⟨[ev0, Event.TechniqueRevert o.1.1 m.ProviderFactory (some err)],
            by simp [hcalls], hpair _ (by simp [Event.byRevert]), Or.inr ⟨by simp, rfl⟩⟩
        | none =>
          rw [hC2 hv]
          by_cases hc : m.Options.CustomTerraformDir = ""
          · exact ⟨[ev0, Event.TechniqueRevert o.1.1 m.ProviderFactory none,
              Event.SetTechniqueState AttackTechniqueStatusWarm
                (m.StateManager.SetTechniqueState AttackTechniqueStatusWarm
                  (revert o.1.1 m.ProviderFactory o.2.ext).2).1],
              by simp [runnerImpl.setState, hc, World.call, hcalls],
              htriple _ _ (by simp [Event.byRevert]) (by simp [Event.byRevert]), Or.inl ⟨rfl, rfl⟩⟩
          · exact ⟨[ev0, Event.TechniqueRevert o.1.1 m.ProviderFactory none],
              by simp [runnerImpl.setState, hc, hcalls],
              hpair _ (by simp [Event.byRevert]), Or.inl ⟨rfl, rfl⟩⟩
  · have hs : m.GetState ≠ AttackTechniqueStatusDetonated := fun h => hg (Or.inl h)
    have hf : m.Options.Force = false := by
      cases h : m.Options.Force
      · rfl
      · exact absurd (Or.inr h) hg
    rw [Revert_guard m w hs hf]
    exact ⟨[], by simp [World.enter], by simp, Or.inr ⟨by simp, rfl⟩⟩

/-! ## Shared lemmas: the paths of `CleanUp` -/

theorem CleanUp_guard {σ : Type} (m : runnerImpl σ) (w : World σ)
    (hs : m.TechniqueState = AttackTechniqueStatusCold) (hf : m.Options.Force = false) :
    m.CleanUp w =
      ⟨some (errors.New (m.Technique.ID ++
        " is already COLD and should already be clean, use --force to force cleanup")), m,
        w.enter Event.CleanUp⟩ := by
  simp [runnerImpl.CleanUp, hs, hf]

/-- The revert step of `CleanUp` failed and force is not set: `CleanUp` stops
there. -/
theorem CleanUp_revert_abort {σ : Type} (m : runnerImpl σ) (w : World σ)
    (r : Ret σ (Option GoError)) (err : GoError)
    (hg : ¬ (m.TechniqueState = AttackTechniqueStatusCold ∧ m.Options.Force = false))
    (hr : (if (m.Technique.Revert.isSome &&
          (decide (m.GetState = AttackTechniqueStatusDetonated) ||
            decide (m.Options.CustomTerraformDir ≠ ""))) = true
        then m.Revert (w.enter Event.CleanUp) else ⟨none, m, w.enter Event.CleanUp⟩) = r)
    (hv : r.val = some err) (hf : r.m.Options.Force = false) :
    m.CleanUp w =
      ⟨some (errors.New ("unable to revert detonation of " ++ r.m.Technique.ID ++
        " before cleaning up (use --force to cleanup anyway): " ++ err.Error)), r.m, r.w⟩ := by
  simp only [runnerImpl.CleanUp, hg, if_false, hr, hv, hf]
  simp

/-- The revert step of `CleanUp` passed and `TerraformDestroy` is called and
fails: `CleanUp` stops there. -/
theorem CleanUp_destroy_fail {σ : Type} (m : runnerImpl σ) (w : World σ)
    (r : Ret σ (Option GoError)) (err : GoError)
    (hg : ¬ (m.TechniqueState = AttackTechniqueStatusCold ∧ m.Options.Force = false))
    (hr : (if (m.Technique.Revert.isSome &&
          (decide (m.GetState = AttackTechniqueStatusDetonated) ||
            decide (m.Options.CustomTerraformDir ≠ ""))) = true
        then m.Revert (w.enter Event.CleanUp) else ⟨none, m, w.enter Event.CleanUp⟩) = r)
    (hpass : r.val = none ∨ r.m.Options.Force = true)
    (hneed : (r.m.Technique.PrerequisitesTerraformCode ≠ none ∨
      r.m.Options.CustomTerraformDir ≠ "") ∧ r.m.Options.NoWarmup = false)
    (hd : (r.m.TerraformManager.TerraformDestroy r.m.TerraformDir r.w.ext).1 = some err) :
    m.CleanUp w =
      ⟨some (if errors.Is err context.Canceled then err
          else errors.New ("unable to cleanup TTP prerequisites: " ++
            errorMessageFromTerraformError err)), r.m,
        { os := r.w.os
          ext := (r.m.TerraformManager.TerraformDestroy r.m.TerraformDir r.w.ext).2
          calls := r.w.calls ++ [Event.TerraformDestroy r.m.TerraformDir (some err)] }⟩ := by
  have habort : (match r.val with
      | some err =>
        if r.m.Options.Force = true then none
        else some (errors.New ("unable to revert detonation of " ++ r.m.Technique.ID ++
          " before cleaning up (use --force to cleanup anyway): " ++ err.Error))
      | none => none) = none := by
    rcases hpass with h | h
    · simp [h]
    · cases r.val <;> simp [h]
  simp only [runnerImpl.CleanUp, hg, if_false, hr, habort, hneed]
  by_cases hcan : errors.Is err context.Canceled = true <;>
    simp [World.call, hd, hcan]

/-- The revert step of `CleanUp` passed and the destroy step left the world
`w1` without an error: `CleanUp` sets the state to COLD and, without a custom
directory, calls `CleanupTechnique`, whose error is the only one it can still
return. -/
theorem CleanUp_after_destroy {σ : Type} (m : runnerImpl σ) (w w1 : World σ)
    (r : Ret σ (Option GoError))
    (hg : ¬ (m.TechniqueState = AttackTechniqueStatusCold ∧ m.Options.Force = false))
    (hr : (if (m.Technique.Revert.isSome &&
          (decide (m.GetState = AttackTechniqueStatusDetonated) ||
            decide (m.Options.CustomTerraformDir ≠ ""))) = true
        then m.Revert (w.enter Event.CleanUp) else ⟨none, m, w.enter Event.CleanUp⟩) = r)
    (hpass : r.val = none ∨ r.m.Options.Force = true)
    (hd : (if (r.m.Technique.PrerequisitesTerraformCode ≠ none ∨
          r.m.Options.CustomTerraformDir ≠ "") ∧ r.m.Options.NoWarmup = false then
        r.w.call (r.m.TerraformManager.TerraformDestroy r.m.TerraformDir)
          (Event.TerraformDestroy r.m.TerraformDir)
      else (none, r.w)) = (none, w1)) :
    (m.CleanUp w).m = { r.m with TechniqueState := AttackTechniqueStatusCold } ∧
    (r.m.Options.CustomTerraformDir = "" →
      (m.CleanUp w).w.calls = w1.calls ++
        [Event.SetTechniqueState AttackTechniqueStatusCold
          (r.m.StateManager.SetTechniqueState AttackTechniqueStatusCold w1.ext).1,
         Event.CleanupTechnique
          (r.m.StateManager.CleanupTechnique
            (r.m.StateManager.SetTechniqueState AttackTechniqueStatusCold w1.ext).2).1] ∧
      (m.CleanUp w).val =
        (match (r.m.StateManager.CleanupTechnique
            (r.m.StateManager.SetTechniqueState AttackTechniqueStatusCold w1.ext).2).1 with
        | some err => some (errors.New ("unable to remove technique directory " ++
            r.m.TerraformDir ++ ": " ++ err.Error))
        | none => none)) ∧
    (r.m.Options.CustomTerraformDir ≠ "" →
      (m.CleanUp w).w.calls = w1.calls ∧ (m.CleanUp w).val = none) := by
  have habort : (match r.val with
      | some err =>
        if r.m.Options.Force = true then none
        else some (errors.New ("unable to revert detonation of " ++ r.m.Technique.ID ++
          " before cleaning up (use --force to cleanup anyway): " ++ err.Error))
      | none => none) = none := by
    rcases hpass with h | h
    · simp [h]
    · cases r.val <;> simp [h]
  simp only [runnerImpl.CleanUp, hg, if_false, hr, habort, hd]
  by_cases hc : r.m.Options.CustomTerraformDir = ""
  · simp only [runnerImpl.setState, hc, if_true, World.call]
    cases hcl : (r.m.StateManager.CleanupTechnique
        (r.m.StateManager.SetTechniqueState AttackTechniqueStatusCold w1.ext).2).1 <;>
      simp
  · simp [runnerImpl.setState, hc]

/-- After the guard, `Detonate` returns the error of the outputs-resolution
step `r` if there is one, and the calls it records after those of `r` are
the capability call and the `SetTechniqueState` that follows its success. -/
theorem Detonate_tail_calls {σ : Type} (m : runnerImpl σ) (w : World σ)
    (r : Ret σ (Outputs × Option GoError))
    (hg : ¬ (m.GetState = AttackTechniqueStatusDetonated ∧
      m.Technique.IsIdempotent = false ∧ m.Options.Force = false))
    (hr : (if m.GetState = AttackTechniqueStatusDetonated then
        (if m.Options.CustomTerraformDir ≠ "" then
          (⟨((w.enter Event.Detonate).call (m.TerraformManager.TerraformOutput m.TerraformDir)
              (fun r => Event.TerraformOutput m.TerraformDir r.1 r.2)).1, m,
            ((w.enter Event.Detonate).call (m.TerraformManager.TerraformOutput m.TerraformDir)
              (fun r => Event.TerraformOutput m.TerraformDir r.1 r.2)).2⟩ :
            Ret σ (Outputs × Option GoError))
        else
          ⟨((w.enter Event.Detonate).call m.StateManager.GetTerraformOutputs
              (fun r => Event.GetTerraformOutputs r.1 r.2)).1, m,
            ((w.enter Event.Detonate).call m.StateManager.GetTerraformOutputs
              (fun r => Event.GetTerraformOutputs r.1 r.2)).2⟩)
      else m.WarmUp (w.enter Event.Detonate)) = r) :
    (∀ e, r.val.2 = some e → (m.Detonate w).val = some e) ∧
    ∃ tail, (m.Detonate w).w.calls = r.w.calls ++ tail ∧
      ∀ ev ∈ tail, (∃ o p e, ev = Event.TechniqueDetonate o p e) ∨
        (∃ e, ev = Event.SetTechniqueState AttackTechniqueStatusDetonated e) := by
  obtain ⟨hA, hB⟩ := Detonate_after_resolve m w r hg hr
  refine ⟨fun e he => by rw [hA e he], ?_⟩
  cases hv : r.val.2 with
  | some e1 =>
    rw [hA e1 hv]
    exact ⟨[], by simp, by simp⟩
  | none =>
    obtain ⟨hB1, hB2⟩ := hB hv
    cases hd : (r.m.Technique.Detonate r.val.1 r.m.ProviderFactory r.w.ext).1 with
    | some e2 =>
      rw [hB1 e2 hd]
      exact ⟨[Event.TechniqueDetonate r.val.1 r.m.ProviderFactory (some e2)], rfl, by simp⟩
    | none =>
      rw [hB2 hd]
      by_cases hc : r.m.Options.CustomTerraformDir = ""
      · exact ⟨[Event.TechniqueDetonate r.val.1 r.m.ProviderFactory none,
          Event.SetTechniqueState AttackTechniqueStatusDetonated
            (r.m.StateManager.SetTechniqueState AttackTechniqueStatusDetonated
              (r.m.Technique.Detonate r.val.1 r.m.ProviderFactory r.w.ext).2).1],
          by simp [runnerImpl.setState, hc, World.call], by simp⟩
      · exact ⟨[Event.TechniqueDetonate r.val.1 r.m.ProviderFactory none],
          by simp [runnerImpl.setState, hc], by simp⟩

/-- The revert step of `CleanUp`: it changes no field of the receiver other
than the state, and it records the `Revert` entry followed by calls of the
`byRevert` class when `Revert` is invoked, and nothing otherwise. -/
theorem CleanUp_revert_step {σ : Type} (m : runnerImpl σ) (w : World σ)
    (r : Ret σ (Option GoError))
    (hr : (if (m.Technique.Revert.isSome &&
          (decide (m.GetState = AttackTechniqueStatusDetonated) ||
            decide (m.Options.CustomTerraformDir ≠ ""))) = true
        then m.Revert (w.enter Event.CleanUp) else ⟨none, m, w.enter Event.CleanUp⟩) = r) :
    (r.m = m ∨ (r.val = none ∧ r.m = { m with TechniqueState := AttackTechniqueStatusWarm })) ∧
    r.m.Technique = m.Technique ∧ r.m.Options = m.Options ∧
    r.m.TerraformDir = m.TerraformDir ∧ r.m.TerraformManager = m.TerraformManager ∧
    r.m.StateManager = m.StateManager ∧
    ∃ evs, r.w.calls = w.calls ++ Event.CleanUp :: evs ∧
      (((m.Technique.Revert.isSome &&
          (decide (m.GetState = AttackTechniqueStatusDetonated) ||
            decide (m.Options.CustomTerraformDir ≠ ""))) = true ∧
          r = m.Revert (w.enter Event.CleanUp) ∧
          ∃ evs', evs = Event.Revert :: evs' ∧ ∀ ev ∈ evs', ev.byRevert m.TerraformDir = true) ∨
        ((m.Technique.Revert.isSome &&
          (decide (m.GetState = AttackTechniqueStatusDetonated) ||
            decide (m.Options.CustomTerraformDir ≠ ""))) = false ∧
          r = ⟨none, m, w.enter Event.CleanUp⟩ ∧ evs = [])) := by
  subst hr
  cases hsr : (m.Technique.Revert.isSome &&
      (decide (m.GetState = AttackTechniqueStatusDetonated) ||
        decide (m.Options.CustomTerraformDir ≠ "")))
  · rw [if_neg Bool.false_ne_true]
    exact ⟨Or.inl rfl, rfl, rfl, rfl, rfl, rfl, [], by simp [World.enter],
      Or.inr ⟨rfl, rfl, rfl⟩⟩
  · rw [if_pos rfl]
    obtain ⟨evs', hcalls, hby, hm⟩ := Revert_events m (w.enter Event.CleanUp)
    have hfr : (m.Revert (w.enter Event.CleanUp)).m = m ∨
        ((m.Revert (w.enter Event.CleanUp)).val = none ∧
          (m.Revert (w.enter Event.CleanUp)).m =
            { m with TechniqueState := AttackTechniqueStatusWarm }) := by
      rcases hm with ⟨h1, h2⟩ | ⟨-, h2⟩
      · exact Or.inr ⟨h1, h2⟩
      · exact Or.inl h2
    refine ⟨hfr, ?_, ?_, ?_, ?_, ?_, Event.Revert :: evs', ?_, Or.inl ⟨rfl, rfl, evs', rfl, hby⟩⟩
    · rcases hfr with h | ⟨-, h⟩ <;> rw [h]
    · rcases hfr with h | ⟨-, h⟩ <;> rw [h]
    · rcases hfr with h | ⟨-, h⟩ <;> rw [h]
    · rcases hfr with h | ⟨-, h⟩ <;> rw [h]
    · rcases hfr with h | ⟨-, h⟩ <;> rw [h]
    · rw [hcalls]
      simp [World.enter]

/-- A `CleanUp` that returns no error has set the state to COLD (through
`SetTechniqueState` when no custom directory is set) and changed no other
field of the receiver. -/
theorem CleanUp_ok {σ : Type} (m : runnerImpl σ) (w : World σ)
    (h : (m.CleanUp w).val = none) :
    (m.CleanUp w).m = { m with TechniqueState := AttackTechniqueStatusCold } ∧
    (m.Options.CustomTerraformDir = "" →
      ∃ e, Event.SetTechniqueState AttackTechniqueStatusCold e ∈ (m.CleanUp w).w.calls) := by
  by_cases hg : m.TechniqueState = AttackTechniqueStatusCold ∧ m.Options.Force = false
  · rw [CleanUp_guard m w hg.1 hg.2] at h
    exact Option.noConfusion h
  · obtain ⟨hfr, hT, hO, hD, hTM, hSM, -⟩ := CleanUp_revert_step m w _ rfl
    have hA := fun e => CleanUp_revert_abort m w _ e hg rfl
    have hB := fun e => CleanUp_destroy_fail m w _ e hg rfl
    have hC := fun w1 => CleanUp_after_destroy m w w1 _ hg rfl
    generalize (if (m.Technique.Revert.isSome &&
            (decide (m.GetState = AttackTechniqueStatusDetonated) ||
              decide (m.Options.CustomTerraformDir ≠ ""))) = true
          then m.Revert (w.enter Event.CleanUp)
          else ⟨none, m, w.enter Event.CleanUp⟩) = r at hfr hT hO hD hTM hSM hA hB hC
    have hcold : ({ r.m with TechniqueState := AttackTechniqueStatusCold } : runnerImpl σ) =
        { m with TechniqueState := AttackTechniqueStatusCold } := by
      rcases hfr with h1 | ⟨-, h1⟩ <;> rw [h1]
    by_cases hpass : r.val = none ∨ r.m.Options.Force = true
    · have key : ∀ w1, (if (r.m.Technique.PrerequisitesTerraformCode ≠ none ∨
              r.m.Options.CustomTerraformDir ≠ "") ∧ r.m.Options.NoWarmup = false then
            r.w.call (r.m.TerraformManager.TerraformDestroy r.m.TerraformDir)
              (Event.TerraformDestroy r.m.TerraformDir)
          else (none, r.w)) = (none, w1) →
          (m.CleanUp w).m = { m with TechniqueState := AttackTechniqueStatusCold } ∧
          (m.Options.CustomTerraformDir = "" →
            ∃ e, Event.SetTechniqueState AttackTechniqueStatusCold e ∈
              (m.CleanUp w).w.calls) := by
        intro w1 hw1
        obtain ⟨hm, h1, -⟩ := hC w1 hpass hw1
        refine ⟨hm.trans hcold, ?_⟩
        intro hc
        rw [(h1 (by rw [hO]; exact hc)).1]
        exact ⟨(r.m.StateManager.SetTechniqueState AttackTechniqueStatusCold w1.ext).1,
          by simp⟩
      by_cases hneed : (r.m.Technique.PrerequisitesTerraformCode ≠ none ∨
          r.m.Options.CustomTerraformDir ≠ "") ∧ r.m.Options.NoWarmup = false
      · cases hd : (r.m.TerraformManager.TerraformDestroy r.m.TerraformDir r.w.ext).1 with
        | some e1 =>
          rw [hB e1 hpass hneed hd] at h
          exact Option.noConfusion h
        | none =>
          exact key
            { os := r.w.os
              ext := (r.m.TerraformManager.TerraformDestroy r.m.TerraformDir r.w.ext).2
              calls := r.w.calls ++ [Event.TerraformDestroy r.m.TerraformDir none] }
            (by simp only [hneed, and_self, if_true, World.call, hd])
      · exact key r.w (by simp only [hneed, if_false])
    · have hf : r.m.Options.Force = false := by
        cases h' : r.m.Options.Force
        · rfl
        · exact absurd (Or.inr h') hpass
      cases hv : r.val with
      | none => exact absurd (Or.inl hv) hpass
      | some e1 =>
        rw [hA e1 hv hf] at h
        exact Option.noConfusion h

/-- The runner built by `NewRunnerWithContext` for a run without a custom
directory: its options and technique are the ones given, and its state is the
one `GetTechniqueState` returned, an empty answer counting as COLD. -/
theorem NewRunnerWithContext_state {σ : Type} (technique : AttackTechnique σ)
    (options : RunnerOptions) (w : World σ) (hc : options.CustomTerraformDir = "")
    (hw : w.calls = []) :
    (NewRunnerWithContext technique options w).m.Options = options ∧
    (NewRunnerWithContext technique options w).m.Technique = technique ∧
    ∃ d1 d2 s, (NewRunnerWithContext technique options w).w.calls =
        [Event.GetRootDirectory d1, Event.GetRootDirectory d2, Event.GetTechniqueState s] ∧
      (NewRunnerWithContext technique options w).m.TechniqueState =
        (if s = "" then AttackTechniqueStatusCold else s) := by
  refine ⟨rfl, rfl, ?_⟩
  by_cases hgv : w.os.Getenv "STRATUS_RED_TEAM_DETONATION_ID" (w.os.uuidNew w.ext).2 = ""
  · simp only [NewRunnerWithContext, runnerImpl.initialize, hc, World.call, hw, ne_eq,
      not_true_eq_false, if_false, List.nil_append, List.cons_append, hgv]
    exact ⟨_, _, _, rfl, rfl⟩
  · cases hp : (w.os.uuidParse
        (w.os.Getenv "STRATUS_RED_TEAM_DETONATION_ID" (w.os.uuidNew w.ext).2)).2 with
    | none =>
      simp only [NewRunnerWithContext, runnerImpl.initialize, hc, World.call, hw, ne_eq,
        not_true_eq_false, not_false_eq_true, if_true, if_false, List.nil_append,
        List.cons_append, hgv, hp]
      exact ⟨_, _, _, rfl, rfl⟩
    | some e =>
      simp only [NewRunnerWithContext, runnerImpl.initialize, hc, World.call, hw, ne_eq,
        not_true_eq_false, not_false_eq_true, if_true, if_false, List.nil_append,
        List.cons_append, hgv, hp]
      exact ⟨_, _, _, rfl, rfl⟩

/-- The calls recorded by the revert step of `CleanUp` hold no
`TerraformDestroy`, no `CleanupTechnique` and no `SetTechniqueState` to
COLD. -/
theorem CleanUp_revert_step_calls {σ : Type} (m : runnerImpl σ) (w : World σ)
    (r : Ret σ (Option GoError))
    (hr : (if (m.Technique.Revert.isSome &&
          (decide (m.GetState = AttackTechniqueStatusDetonated) ||
            decide (m.Options.CustomTerraformDir ≠ ""))) = true
        then m.Revert (w.enter Event.CleanUp) else ⟨none, m, w.enter Event.CleanUp⟩) = r) :
    r.w.calls.countP Event.isTerraformDestroy = w.calls.countP Event.isTerraformDestroy ∧
    (∀ e, Event.CleanupTechnique e ∈ r.w.calls → Event.CleanupTechnique e ∈ w.calls) ∧
    (∀ e, Event.SetTechniqueState AttackTechniqueStatusCold e ∈ r.w.calls →
      Event.SetTechniqueState AttackTechniqueStatusCold e ∈ w.calls) := by
  obtain ⟨-, -, -, -, -, -, evs, hcalls, hevs⟩ := CleanUp_revert_step m w r hr
  rw [hcalls]
  rcases hevs with ⟨-, -, evs', rfl, hby⟩ | ⟨-, -, rfl⟩
  · refine ⟨?_, ?_, ?_⟩
    · have h0 : evs'.countP Event.isTerraformDestroy = 0 := by
        rw [List.countP_eq_zero]
        intro ev hev
        have := hby ev hev
        cases ev <;> simp_all [Event.byRevert, Event.isTerraformDestroy]
      simp [List.countP_append, List.countP_cons, Event.isTerraformDestroy, h0]
    · intro e h
      simp only [List.mem_append, List.mem_cons] at h
      rcases h with h | h | h | h
      · exact h
      · exact Event.noConfusion h
      · exact Event.noConfusion h
      · have := hby _ h
        simp [Event.byRevert] at this
    · intro e h
      simp only [List.mem_append, List.mem_cons] at h
      rcases h with h | h | h | h
      · exact h
      · exact Event.noConfusion h
      · exact Event.noConfusion h
      · have := hby _ h
        simp [Event.byRevert, AttackTechniqueStatusCold, AttackTechniqueStatusWarm] at this
  · simp [List.countP_append, List.countP_cons, Event.isTerraformDestroy]

/-- When the state is WARM and force is not set, or the state is DETONATED,
`WarmUp` records no `TerraformInitAndApply`. -/
theorem WarmUp_no_apply {σ : Type} (m : runnerImpl σ) (w : World σ)
    (hs : (m.TechniqueState = AttackTechniqueStatusWarm ∧ m.Options.Force = false) ∨
      m.TechniqueState = AttackTechniqueStatusDetonated) :
    ∀ d o e, Event.TerraformInitAndApply d o e ∈ (m.WarmUp w).w.calls →
      Event.TerraformInitAndApply d o e ∈ w.calls := by
  intro d o e
  by_cases h1 : m.Technique.PrerequisitesTerraformCode = none ∧ m.Options.CustomTerraformDir = ""
  · rw [WarmUp_noop m w h1]
    simp [World.enter]
  by_cases h2 : m.Options.NoWarmup = true
  · rw [WarmUp_noWarmup m w h1 h2]
    rcases readTerraformOutputs_calls m (w.enter Event.WarmUp) with hc | ⟨b, e', hc⟩ <;>
      rw [hc] <;> simp [World.enter]
  have h2 : m.Options.NoWarmup = false := by simpa using h2
  by_cases hx : m.Options.CustomTerraformDir = "" →
      (m.StateManager.ExtractTechnique w.ext).1 = none
  · have hw1 := WarmUp_extract_world m w hx
    rw [WarmUp_skip m w _ h1 h2 hw1 hs]
    by_cases hc : m.Options.CustomTerraformDir = "" <;> simp [World.call, hc]
  · have hc : m.Options.CustomTerraformDir = "" := by
      by_contra hc
      exact hx (fun h => absurd h hc)
    cases hx1 : (m.StateManager.ExtractTechnique w.ext).1 with
    | none => exact absurd (fun _ => hx1) hx
    | some err =>
      rw [WarmUp_extract_fail m w err h1 h2 hc hx1]
      simp [World.call, World.enter]

/-- A recorded call of the detonation capability, when the record started
empty, was made by this `Detonate` after the outputs-resolution step `r`
returned no error, with the outputs of `r`; and when it returned no error,
`Detonate` returns none and sets the state to DETONATED. -/
theorem Detonate_capability_event {σ : Type} (m : runnerImpl σ) (w : World σ)
    (r : Ret σ (Outputs × Option GoError)) (hw : w.calls = [])
    (hr : (if m.GetState = AttackTechniqueStatusDetonated then
        (if m.Options.CustomTerraformDir ≠ "" then
          (⟨((w.enter Event.Detonate).call (m.TerraformManager.TerraformOutput m.TerraformDir)
              (fun r => Event.TerraformOutput m.TerraformDir r.1 r.2)).1, m,
            ((w.enter Event.Detonate).call (m.TerraformManager.TerraformOutput m.TerraformDir)
              (fun r => Event.TerraformOutput m.TerraformDir r.1 r.2)).2⟩ :
            Ret σ (Outputs × Option GoError))
        else
          ⟨((w.enter Event.Detonate).call m.StateManager.GetTerraformOutputs
              (fun r => Event.GetTerraformOutputs r.1 r.2)).1, m,
            ((w.enter Event.Detonate).call m.StateManager.GetTerraformOutputs
              (fun r => Event.GetTerraformOutputs r.1 r.2)).2⟩)
      else m.WarmUp (w.enter Event.Detonate)) = r) :
    ∀ o p e, Event.TechniqueDetonate o p e ∈ (m.Detonate w).w.calls →
      o = r.val.1 ∧ r.val.2 = none ∧
      (e = none → (m.Detonate w).val = none ∧
        (m.Detonate w).m = { r.m with TechniqueState := AttackTechniqueStatusDetonated }) := by
  intro o p e hmem
  by_cases hg : m.GetState = AttackTechniqueStatusDetonated ∧
      m.Technique.IsIdempotent = false ∧ m.Options.Force = false
  · rw [Detonate_guard m w hg.1 hg.2.1 hg.2.2] at hmem
    simp [World.enter, hw] at hmem
  · obtain ⟨hnodet, -⟩ := Detonate_resolve_summary m w r hr
    obtain ⟨hA, hB⟩ := Detonate_after_resolve m w r hg hr
    have hnodet' : ∀ o p e, Event.TechniqueDetonate o p e ∉ r.w.calls := by
      intro o p e h
      have := hnodet o p e h
      simp [hw] at this
    cases hv : r.val.2 with
    | some err =>
      rw [hA err hv] at hmem
      exact absurd hmem (hnodet' _ _ _)
    | none =>
      obtain ⟨hB1, hB2⟩ := hB hv
      cases hd : (r.m.Technique.Detonate r.val.1 r.m.ProviderFactory r.w.ext).1 with
      | some err =>
        rw [hB1 err hd] at hmem
        simp only [List.mem_append, List.mem_singleton, hnodet', false_or] at hmem
        obtain ⟨h1, -, h3⟩ := Event.TechniqueDetonate.inj hmem
        refine ⟨h1, rfl, ?_⟩
        intro he
        rw [he] at h3
        exact Option.noConfusion h3
      | none =>
        rw [hB2 hd] at hmem ⊢
        refine ⟨?_, rfl, fun _ => ⟨rfl, rfl⟩⟩
        by_cases hc : r.m.Options.CustomTerraformDir = ""
        · simp only [runnerImpl.setState, hc, if_true, World.call, List.mem_append,
            List.mem_singleton, hnodet', false_or] at hmem
          rcases hmem with h | h
          · exact (Event.TechniqueDetonate.inj h).1
          · exact Event.noConfusion h
        · simp only [runnerImpl.setState, hc, if_false, List.mem_append,
            List.mem_singleton, hnodet', false_or] at hmem
          exact (Event.TechniqueDetonate.inj hmem).1

/-- The successful-apply path of `WarmUp`, as one equation. -/
theorem WarmUp_apply_ok_eq {σ : Type} (m : runnerImpl σ) (w w1 : World σ)
    (h1 : ¬ (m.Technique.PrerequisitesTerraformCode = none ∧ m.Options.CustomTerraformDir = ""))
    (h2 : m.Options.NoWarmup = false)
    (hw1 : (if m.Options.CustomTerraformDir = "" then
        (w.enter Event.WarmUp).call m.StateManager.ExtractTechnique Event.ExtractTechnique
      else (none, w.enter Event.WarmUp)) = (none, w1))
    (hs : ¬ (m.TechniqueState = AttackTechniqueStatusWarm ∧ m.Options.Force = false))
    (hd : m.TechniqueState ≠ AttackTechniqueStatusDetonated)
    (ha : (m.TerraformManager.TerraformInitAndApply m.TerraformDir w1.ext).1.2 = none) :
    m.WarmUp w =
      ⟨((w1.call (m.TerraformManager.TerraformInitAndApply m.TerraformDir)
            (fun r => Event.TerraformInitAndApply m.TerraformDir r.1 r.2)).1.1,
          (if m.Options.CustomTerraformDir = "" then
            (w1.call (m.TerraformManager.TerraformInitAndApply m.TerraformDir)
              (fun r => Event.TerraformInitAndApply m.TerraformDir r.1 r.2)).2.call
              (m.StateManager.WriteTerraformOutputs
                (w1.call (m.TerraformManager.TerraformInitAndApply m.TerraformDir)
                  (fun r => Event.TerraformInitAndApply m.TerraformDir r.1 r.2)).1.1)
              (Event.WriteTerraformOutputs
                (w1.call (m.TerraformManager.TerraformInitAndApply m.TerraformDir)
                  (fun r => Event.TerraformInitAndApply m.TerraformDir r.1 r.2)).1.1)
          else
            (none, (w1.call (m.TerraformManager.TerraformInitAndApply m.TerraformDir)
              (fun r => Event.TerraformInitAndApply m.TerraformDir r.1 r.2)).2)).1),
        { m with TechniqueState := AttackTechniqueStatusWarm },
        (m.setState AttackTechniqueStatusWarm
          (if m.Options.CustomTerraformDir = "" then
            (w1.call (m.TerraformManager.TerraformInitAndApply m.TerraformDir)
              (fun r => Event.TerraformInitAndApply m.TerraformDir r.1 r.2)).2.call
              (m.StateManager.WriteTerraformOutputs
                (w1.call (m.TerraformManager.TerraformInitAndApply m.TerraformDir)
                  (fun r => Event.TerraformInitAndApply m.TerraformDir r.1 r.2)).1.1)
              (Event.WriteTerraformOutputs
                (w1.call (m.TerraformManager.TerraformInitAndApply m.TerraformDir)
                  (fun r => Event.TerraformInitAndApply m.TerraformDir r.1 r.2)).1.1)
          else
            (none, (w1.call (m.TerraformManager.TerraformInitAndApply m.TerraformDir)
              (fun r => Event.TerraformInitAndApply m.TerraformDir r.1 r.2)).2)).2).w⟩ := by
  have ha' : (w1.call (m.TerraformManager.TerraformInitAndApply m.TerraformDir)
      (fun r => Event.TerraformInitAndApply m.TerraformDir r.1 r.2)).1.2 = none := ha
  have hwill : ((if m.TechniqueState = AttackTechniqueStatusDetonated then false
      else if m.TechniqueState = AttackTechniqueStatusWarm ∧ m.Options.Force = false then false
        else true) = false) = False := by
    simp [hs, hd]
  simp only [runnerImpl.WarmUp, h1, h2, if_false, hw1, hwill, ha', runnerImpl.setState]
  rfl

theorem diskStateManager_outputsStore : OutputsStore diskStateManager Disk.outputs :=
  { get := fun _ => rfl
    get_keeps := fun _ => rfl
    write := fun _ _ _ => rfl
    setState_keeps := fun _ _ => rfl
    extract_keeps := fun _ => rfl }

/-! ## Shared lemmas: the receiver after each operation -/

theorem GetState_withState {σ : Type} (m : runnerImpl σ) (st : AttackTechniqueState)
    (hst : st ≠ "") :
    ({ m with TechniqueState := st } : runnerImpl σ).GetState = st := by
  by_cases hc : m.Options.CustomTerraformDir = "" <;> simp [runnerImpl.GetState, hc, hst]

/-- `WarmUp` leaves the receiver alone or, on the provisioning path only,
sets its state to WARM. -/
theorem WarmUp_receiver {σ : Type} (m : runnerImpl σ) (w : World σ) :
    (m.WarmUp w).m = m ∨
    ((m.WarmUp w).m = { m with TechniqueState := AttackTechniqueStatusWarm } ∧
      ¬ (m.TechniqueState = AttackTechniqueStatusWarm ∧ m.Options.Force = false) ∧
      m.TechniqueState ≠ AttackTechniqueStatusDetonated) := by
  by_cases h1 : m.Technique.PrerequisitesTerraformCode = none ∧ m.Options.CustomTerraformDir = ""
  · rw [WarmUp_noop m w h1]
    exact Or.inl rfl
  by_cases h2 : m.Options.NoWarmup = true
  · rw [WarmUp_noWarmup m w h1 h2]
    exact Or.inl (readTerraformOutputs_m m _)
  have h2 : m.Options.NoWarmup = false := by simpa using h2
  by_cases hx : m.Options.CustomTerraformDir = "" →
      (m.StateManager.ExtractTechnique w.ext).1 = none
  · have hw1 := WarmUp_extract_world m w hx
    by_cases hs : (m.TechniqueState = AttackTechniqueStatusWarm ∧ m.Options.Force = false) ∨
        m.TechniqueState = AttackTechniqueStatusDetonated
    · rw [WarmUp_skip m w _ h1 h2 hw1 hs]
      exact Or.inl rfl
    · have hs1 : ¬ (m.TechniqueState = AttackTechniqueStatusWarm ∧ m.Options.Force = false) :=
        fun h => hs (Or.inl h)
      have hd : m.TechniqueState ≠ AttackTechniqueStatusDetonated := fun h => hs (Or.inr h)
      cases ha : (m.TerraformManager.TerraformInitAndApply m.TerraformDir
          (if m.Options.CustomTerraformDir = "" then
            (m.StateManager.ExtractTechnique w.ext).2 else w.ext)).1.2 with
      | some err =>
        rw [WarmUp_apply_fail m w _ err h1 h2 hw1 hs1 hd ha]
        exact Or.inl rfl
      | none =>
        rw [WarmUp_apply_ok_eq m w _ h1 h2 hw1 hs1 hd ha]
        exact Or.inr ⟨rfl, hs1, hd⟩
  · have hc : m.Options.CustomTerraformDir = "" := by
      by_contra hc
      exact hx (fun h => absurd h hc)
    cases hx1 : (m.StateManager.ExtractTechnique w.ext).1 with
    | none => exact absurd (fun _ => hx1) hx
    | some err =>
      rw [WarmUp_extract_fail m w err h1 h2 hc hx1]
      exact Or.inl rfl

/-- `Detonate` leaves the receiver alone, sets its state to DETONATED, or,
when its warm-up provisioned and it then stopped, leaves it WARM. -/
theorem Detonate_receiver {σ : Type} (m : runnerImpl σ) (w : World σ) :
    (m.Detonate w).m = m ∨
    (m.Detonate w).m = { m with TechniqueState := AttackTechniqueStatusDetonated } ∨
    ((m.Detonate w).m = { m with TechniqueState := AttackTechniqueStatusWarm } ∧
      m.GetState ≠ AttackTechniqueStatusDetonated ∧
      ¬ (m.TechniqueState = AttackTechniqueStatusWarm ∧ m.Options.Force = false)) := by
  by_cases hg : m.GetState = AttackTechniqueStatusDetonated ∧
      m.Technique.IsIdempotent = false ∧ m.Options.Force = false
  · rw [Detonate_guard m w hg.1 hg.2.1 hg.2.2]
    exact Or.inl rfl
  · obtain ⟨hA, hB⟩ := Detonate_after_resolve m w _ hg rfl
    have hr : (if m.GetState = AttackTechniqueStatusDetonated then
        (if m.Options.CustomTerraformDir ≠ "" then
          (⟨((w.enter Event.Detonate).call (m.TerraformManager.TerraformOutput m.TerraformDir)
              (fun r => Event.TerraformOutput m.TerraformDir r.1 r.2)).1, m,
            ((w.enter Event.Detonate).call (m.TerraformManager.TerraformOutput m.TerraformDir)
              (fun r => Event.TerraformOutput m.TerraformDir r.1 r.2)).2⟩ :
            Ret σ (Outputs × Option GoError))
        else
          ⟨((w.enter Event.Detonate).call m.StateManager.GetTerraformOutputs
              (fun r => Event.GetTerraformOutputs r.1 r.2)).1, m,
            ((w.enter Event.Detonate).call m.StateManager.GetTerraformOutputs
              (fun r => Event.GetTerraformOutputs r.1 r.2)).2⟩)
      else m.WarmUp (w.enter Event.Detonate)).m = m ∨
      ((if m.GetState = AttackTechniqueStatusDetonated then
        (if m.Options.CustomTerraformDir ≠ "" then
          (⟨((w.enter Event.Detonate).call (m.TerraformManager.TerraformOutput m.TerraformDir)
              (fun r => Event.TerraformOutput m.TerraformDir r.1 r.2)).1, m,
            ((w.enter Event.Detonate).call (m.TerraformManager.TerraformOutput m.TerraformDir)
              (fun r => Event.TerraformOutput m.TerraformDir r.1 r.2)).2⟩ :
            Ret σ (Outputs × Option GoError))
        else
          ⟨((w.enter Event.Detonate).call m.StateManager.GetTerraformOutputs
              (fun r => Event.GetTerraformOutputs r.1 r.2)).1, m,
            ((w.enter Event.Detonate).call m.StateManager.GetTerraformOutputs
              (fun r => Event.GetTerraformOutputs r.1 r.2)).2⟩)
      else m.WarmUp (w.enter Event.Detonate)).m =
          { m with TechniqueState := AttackTechniqueStatusWarm } ∧
        m.GetState ≠ AttackTechniqueStatusDetonated ∧
        ¬ (m.TechniqueState = AttackTechniqueStatusWarm ∧ m.Options.Force = false)) := by
      by_cases hs : m.GetState = AttackTechniqueStatusDetonated
      · by_cases hc : m.Options.CustomTerraformDir = "" <;> simp [hs, hc]
      · simp only [hs, if_false]
        rcases WarmUp_receiver m (w.enter Event.Detonate) with h | ⟨h, h', -⟩
        · exact Or.inl h
        · exact Or.inr ⟨h, hs, h'⟩
    generalize (if m.GetState = AttackTechniqueStatusDetonated then
        (if m.Options.CustomTerraformDir ≠ "" then
          (⟨((w.enter Event.Detonate).call (m.TerraformManager.TerraformOutput m.TerraformDir)
              (fun r => Event.TerraformOutput m.TerraformDir r.1 r.2)).1, m,
            ((w.enter Event.Detonate).call (m.TerraformManager.TerraformOutput m.TerraformDir)
              (fun r => Event.TerraformOutput m.TerraformDir r.1 r.2)).2⟩ :
            Ret σ (Outputs × Option GoError))
        else
          ⟨((w.enter Event.Detonate).call m.StateManager.GetTerraformOutputs
              (fun r => Event.GetTerraformOutputs r.1 r.2)).1, m,
            ((w.enter Event.Detonate).call m.StateManager.GetTerraformOutputs
              (fun r => Event.GetTerraformOutputs r.1 r.2)).2⟩)
      else m.WarmUp (w.enter Event.Detonate)) = r at hA hB hr
    have hdet : ({ r.m with TechniqueState := AttackTechniqueStatusDetonated } : runnerImpl σ) =
        { m with TechniqueState := AttackTechniqueStatusDetonated } := by
      rcases hr with h | ⟨h, -⟩ <;> rw [h]
    cases hv : r.val.2 with
    | some err =>
      rw [hA err hv]
      rcases hr with h | h
      · exact Or.inl h
      · exact Or.inr (Or.inr h)
    | none =>
      obtain ⟨hB1, hB2⟩ := hB hv
      cases hd : (r.m.Technique.Detonate r.val.1 r.m.ProviderFactory r.w.ext).1 with
      | some err =>
        rw [hB1 err hd]
        rcases hr with h | h
        · exact Or.inl h
        · exact Or.inr (Or.inr h)
      | none =>
        rw [hB2 hd]
        exact Or.inr (Or.inl hdet)

/-- `Revert` leaves the receiver alone or, its guard passed, sets its state
to WARM. -/
theorem Revert_receiver {σ : Type} (m : runnerImpl σ) (w : World σ) :
    ((m.Revert w).val ≠ none ∧ (m.Revert w).m = m) ∨
    ((m.Revert w).val = none ∧
      (m.Revert w).m = { m with TechniqueState := AttackTechniqueStatusWarm } ∧
      (m.GetState = AttackTechniqueStatusDetonated ∨ m.Options.Force = true)) := by
  by_cases hg : m.GetState = AttackTechniqueStatusDetonated ∨ m.Options.Force = true
  · obtain ⟨-, -, -, h⟩ := Revert_events m w
    rcases h with ⟨h1, h2⟩ | h
    · exact Or.inr ⟨h1, h2, hg⟩
    · exact Or.inl h
  · have hs : m.GetState ≠ AttackTechniqueStatusDetonated := fun h => hg (Or.inl h)
    have hf : m.Options.Force = false := by
      cases h : m.Options.Force
      · rfl
      · exact absurd (Or.inr h) hg
    rw [Revert_guard m w hs hf]
    exact Or.inl ⟨by simp, rfl⟩

/-- `CleanUp` leaves the receiver alone, sets its state to COLD, or, when its
`Revert` succeeded and it then stopped, leaves it WARM. -/
theorem CleanUp_receiver {σ : Type} (m : runnerImpl σ) (w : World σ) :
    (m.CleanUp w).m = m ∨
    ((m.CleanUp w).m = { m with TechniqueState := AttackTechniqueStatusCold } ∧
      ¬ (m.TechniqueState = AttackTechniqueStatusCold ∧ m.Options.Force = false)) ∨
    ((m.CleanUp w).m = { m with TechniqueState := AttackTechniqueStatusWarm } ∧
      (m.GetState = AttackTechniqueStatusDetonated ∨ m.Options.Force = true)) := by
  by_cases hg : m.TechniqueState = AttackTechniqueStatusCold ∧ m.Options.Force = false
  · rw [CleanUp_guard m w hg.1 hg.2]
    exact Or.inl rfl
  · obtain ⟨-, hT, hO, hD, hTM, hSM, evs, -, hevs⟩ := CleanUp_revert_step m w _ rfl
    have hA := fun e => CleanUp_revert_abort m w _ e hg rfl
    have hB := fun e => CleanUp_destroy_fail m w _ e hg rfl
    have hC := fun w1 => CleanUp_after_destroy m w w1 _ hg rfl
    have hrm : (if (m.Technique.Revert.isSome &&
            (decide (m.GetState = AttackTechniqueStatusDetonated) ||
              decide (m.Options.CustomTerraformDir ≠ ""))) = true
          then m.Revert (w.enter Event.CleanUp)
          else ⟨none, m, w.enter Event.CleanUp⟩).m = m ∨
        ((if (m.Technique.Revert.isSome &&
            (decide (m.GetState = AttackTechniqueStatusDetonated) ||
              decide (m.Options.CustomTerraformDir ≠ ""))) = true
          then m.Revert (w.enter Event.CleanUp)
          else ⟨none, m, w.enter Event.CleanUp⟩).m =
            { m with TechniqueState := AttackTechniqueStatusWarm } ∧
          (m.GetState = AttackTechniqueStatusDetonated ∨ m.Options.Force = true)) := by
      rcases hevs with ⟨-, h, -⟩ | ⟨-, h, -⟩
      · rw [h]
        rcases Revert_receiver m (w.enter Event.CleanUp) with ⟨-, h'⟩ | ⟨-, h', h''⟩
        · exact Or.inl h'
        · exact Or.inr ⟨h', h''⟩
      · rw [h]
        exact Or.inl rfl
    generalize (if (m.Technique.Revert.isSome &&
            (decide (m.GetState = AttackTechniqueStatusDetonated) ||
              decide (m.Options.CustomTerraformDir ≠ ""))) = true
          then m.Revert (w.enter Event.CleanUp)
          else ⟨none, m, w.enter Event.CleanUp⟩) = r at hT hO hD hTM hSM hA hB hC hrm
    have hcold : ({ r.m with TechniqueState := AttackTechniqueStatusCold } : runnerImpl σ) =
        { m with TechniqueState := AttackTechniqueStatusCold } := by
      rcases hrm with h1 | ⟨h1, -⟩ <;> rw [h1]
    have hstay : r.m = m ∨ (r.m = { m with TechniqueState := AttackTechniqueStatusWarm } ∧
        (m.GetState = AttackTechniqueStatusDetonated ∨ m.Options.Force = true)) := hrm
    have hres : (m.CleanUp w).m = r.m → (m.CleanUp w).m = m ∨
        ((m.CleanUp w).m = { m with TechniqueState := AttackTechniqueStatusCold } ∧
          ¬ (m.TechniqueState = AttackTechniqueStatusCold ∧ m.Options.Force = false)) ∨
        ((m.CleanUp w).m = { m with TechniqueState := AttackTechniqueStatusWarm } ∧
          (m.GetState = AttackTechniqueStatusDetonated ∨ m.Options.Force = true)) := by
      intro h
      rcases hstay with h1 | ⟨h1, h2⟩
      · exact Or.inl (h.trans h1)
      · exact Or.inr (Or.inr ⟨h.trans h1, h2⟩)
    by_cases hpass : r.val = none ∨ r.m.Options.Force = true
    · have key : ∀ w1, (if (r.m.Technique.PrerequisitesTerraformCode ≠ none ∨
              r.m.Options.CustomTerraformDir ≠ "") ∧ r.m.Options.NoWarmup = false then
            r.w.call (r.m.TerraformManager.TerraformDestroy r.m.TerraformDir)
              (Event.TerraformDestroy r.m.TerraformDir)
          else (none, r.w)) = (none, w1) →
          (m.CleanUp w).m = { m with TechniqueState := AttackTechniqueStatusCold } := by
        intro w1 hw1
        exact (hC w1 hpass hw1).1.trans hcold
      by_cases hneed : (r.m.Technique.PrerequisitesTerraformCode ≠ none ∨
          r.m.Options.CustomTerraformDir ≠ "") ∧ r.m.Options.NoWarmup = false
      · cases hd : (r.m.TerraformManager.TerraformDestroy r.m.TerraformDir r.w.ext).1 with
        | some e1 =>
          exact hres (by rw [hB e1 hpass hneed hd])
        | none =>
          exact Or.inr (Or.inl ⟨key
            { os := r.w.os
              ext := (r.m.TerraformManager.TerraformDestroy r.m.TerraformDir r.w.ext).2
              calls := r.w.calls ++ [Event.TerraformDestroy r.m.TerraformDir none] }
            (by simp only [hneed, and_self, if_true, World.call, hd]), hg⟩)
      · exact Or.inr (Or.inl ⟨key r.w (by simp only [hneed, if_false]), hg⟩)
    · have hf : r.m.Options.Force = false := by
        cases h' : r.m.Options.Force
        · rfl
        · exact absurd (Or.inr h') hpass
      cases hv : r.val with
      | none => exact absurd (Or.inl hv) hpass
      | some e1 =>
        exact hres (by rw [hA e1 hv hf])

/-! ## Shared lemmas: invariants of the operations -/

theorem Invariant_withState {σ : Type} (m : runnerImpl σ) (st : AttackTechniqueState)
    (P : AttackTechniqueState → World σ → Prop) (hP : Invariant m P) :
    Invariant ({ m with TechniqueState := st } : runnerImpl σ) P :=
  { enter := hP.enter
    readFile := hP.readFile
    getOutputs := hP.getOutputs
    apply := hP.apply
    destroy := hP.destroy
    output := hP.output
    detonate := hP.detonate
    revert := hP.revert
    extract := hP.extract
    write := hP.write
    setState := hP.setState
    cleanup := hP.cleanup }

theorem readTerraformOutputs_invariant {σ : Type} (m : runnerImpl σ) (w : World σ)
    (P : AttackTechniqueState → World σ → Prop) (hP : Invariant m P)
    (st : AttackTechniqueState) (h : P st w) :
    P st (m.readTerraformOutputs w).w := by
  unfold runnerImpl.readTerraformOutputs
  split_ifs
  · exact h
  · have h' := hP.readFile st w h
    dsimp only
    split
    · exact h'
    · split <;> exact h'

/-- The extraction step of `WarmUp` preserves an invariant. -/
theorem WarmUp_extract_invariant {σ : Type} (m : runnerImpl σ) (w : World σ)
    (P : AttackTechniqueState → World σ → Prop) (hP : Invariant m P)
    (st : AttackTechniqueState) (h : P st w) :
    P st (if m.Options.CustomTerraformDir = "" then
        (w.enter Event.WarmUp).call m.StateManager.ExtractTechnique Event.ExtractTechnique
      else (none, w.enter Event.WarmUp)).2 := by
  by_cases hc : m.Options.CustomTerraformDir = ""
  · simp only [hc, if_true]
    exact hP.extract hc st _ (hP.enter st w _ rfl h)
  · simp only [hc, if_false]
    exact hP.enter st w _ rfl h

theorem WarmUp_invariant {σ : Type} (m : runnerImpl σ) (w : World σ)
    (P : AttackTechniqueState → World σ → Prop) (hP : Invariant m P)
    (h : P m.TechniqueState w) :
    P (m.WarmUp w).m.TechniqueState (m.WarmUp w).w := by
  by_cases h1 : m.Technique.PrerequisitesTerraformCode = none ∧ m.Options.CustomTerraformDir = ""
  · rw [WarmUp_noop m w h1]
    exact hP.enter _ _ _ rfl h
  by_cases h2 : m.Options.NoWarmup = true
  · rw [WarmUp_noWarmup m w h1 h2, readTerraformOutputs_m]
    exact readTerraformOutputs_invariant m _ P hP _ (hP.enter _ _ _ rfl h)
  have h2 : m.Options.NoWarmup = false := by simpa using h2
  have hx2 := WarmUp_extract_invariant m w P hP _ h
  by_cases hc : m.Options.CustomTerraformDir = "" ∧
      ∃ err, (m.StateManager.ExtractTechnique w.ext).1 = some err
  · obtain ⟨hc, err, hx1⟩ := hc
    rw [WarmUp_extract_fail m w err h1 h2 hc hx1]
    simpa only [hc, if_true] using hx2
  · have hx : m.Options.CustomTerraformDir = "" →
        (m.StateManager.ExtractTechnique w.ext).1 = none := by
      intro hc'
      cases hx1 : (m.StateManager.ExtractTechnique w.ext).1 with
      | none => rfl
      | some err => exact absurd ⟨hc', err, hx1⟩ hc
    have hw1 := WarmUp_extract_world m w hx
    rw [hw1] at hx2
    by_cases hs : (m.TechniqueState = AttackTechniqueStatusWarm ∧ m.Options.Force = false) ∨
        m.TechniqueState = AttackTechniqueStatusDetonated
    · rw [WarmUp_skip m w _ h1 h2 hw1 hs]
      exact hP.getOutputs _ _ hx2
    · have hs1 : ¬ (m.TechniqueState = AttackTechniqueStatusWarm ∧ m.Options.Force = false) :=
        fun h => hs (Or.inl h)
      have hd : m.TechniqueState ≠ AttackTechniqueStatusDetonated := fun h => hs (Or.inr h)
      have hap := hP.apply _ _ hx2
      cases ha : (m.TerraformManager.TerraformInitAndApply m.TerraformDir
          (if m.Options.CustomTerraformDir = "" then
            (m.StateManager.ExtractTechnique w.ext).2 else w.ext)).1.2 with
      | some err =>
        rw [WarmUp_apply_fail m w _ err h1 h2 hw1 hs1 hd ha]
        have hde := hP.destroy _ _ hap
        simp only [World.call, ha, List.append_assoc, List.cons_append, List.nil_append] at hde
        simp only [List.append_assoc, List.cons_append, List.nil_append]
        exact hde
      | none =>
        rw [WarmUp_apply_ok_eq m w _ h1 h2 hw1 hs1 hd ha]
        refine hP.setState m.TechniqueState _ _ (Or.inl rfl) ?_
        by_cases hc' : m.Options.CustomTerraformDir = ""
        · simp only [hc', if_true]
          simp only [hc', if_true] at hap
          exact hP.write hc' _ _ _ hap
        · simp only [hc', if_false]
          simp only [hc', if_false] at hap
          exact hap

theorem Revert_invariant {σ : Type} (m : runnerImpl σ) (w : World σ)
    (P : AttackTechniqueState → World σ → Prop) (hP : Invariant m P)
    (h : P m.TechniqueState w) :
    P (m.Revert w).m.TechniqueState (m.Revert w).w := by
  by_cases hg : m.GetState = AttackTechniqueStatusDetonated ∨ m.Options.Force = true
  · obtain ⟨hA, hB⟩ := Revert_after_outputs m w _ hg rfl
    have ho : P m.TechniqueState
        (if m.Options.CustomTerraformDir ≠ "" then
          (w.enter Event.Revert).call (m.TerraformManager.TerraformOutput m.TerraformDir)
            (fun r => Event.TerraformOutput m.TerraformDir r.1 r.2)
        else
          (w.enter Event.Revert).call m.StateManager.GetTerraformOutputs
            (fun r => Event.GetTerraformOutputs r.1 r.2)).2 := by
      by_cases hc : m.Options.CustomTerraformDir = ""
      · simp only [hc, ne_eq, not_true_eq_false, if_false]
        exact hP.getOutputs _ _ (hP.enter _ _ _ rfl h)
      · simp only [hc, ne_eq, not_false_eq_true, if_true]
        exact hP.output _ _ (hP.enter _ _ _ rfl h)
    generalize (if m.Options.CustomTerraformDir ≠ "" then
          (w.enter Event.Revert).call (m.TerraformManager.TerraformOutput m.TerraformDir)
            (fun r => Event.TerraformOutput m.TerraformDir r.1 r.2)
        else
          (w.enter Event.Revert).call m.StateManager.GetTerraformOutputs
            (fun r => Event.GetTerraformOutputs r.1 r.2)) = o at hA hB ho
    cases hv : o.1.2 with
    | some err =>
      rw [hA err hv]
      exact ho
    | none =>
      obtain ⟨hB1, hB2⟩ := hB hv
      cases hrev : m.Technique.Revert with
      | none =>
        rw [hB2 hrev]
        exact hP.setState m.TechniqueState _ _ (Or.inl rfl) ho
      | some revert =>
        obtain ⟨hC1, hC2⟩ := hB1 revert hrev
        have hcall := hP.revert m.TechniqueState o.2 o.1.1 revert hrev ho
        cases hr : (revert o.1.1 m.ProviderFactory o.2.ext).1 with
        | some err =>
          rw [hC1 err hr]
          simp only [World.call, hr] at hcall
          exact hcall
        | none =>
          rw [hC2 hr]
          simp only [World.call, hr] at hcall
          exact hP.setState m.TechniqueState _ _ (Or.inl rfl) hcall
  · have hs : m.GetState ≠ AttackTechniqueStatusDetonated := fun h => hg (Or.inl h)
    have hf : m.Options.Force = false := by
      cases h : m.Options.Force
      · rfl
      · exact absurd (Or.inr h) hg
    rw [Revert_guard m w hs hf]
    exact hP.enter _ _ _ rfl h

theorem Detonate_invariant {σ : Type} (m : runnerImpl σ) (w : World σ)
    (P : AttackTechniqueState → World σ → Prop) (hP : Invariant m P)
    (h : P m.TechniqueState w) :
    P (m.Detonate w).m.TechniqueState (m.Detonate w).w := by
  by_cases hg : m.GetState = AttackTechniqueStatusDetonated ∧
      m.Technique.IsIdempotent = false ∧ m.Options.Force = false
  · rw [Detonate_guard m w hg.1 hg.2.1 hg.2.2]
    exact hP.enter _ _ _ rfl h
  · obtain ⟨hA, hB⟩ := Detonate_after_resolve m w _ hg rfl
    obtain ⟨-, hrm⟩ := Detonate_resolve_summary m w _ rfl
    have hr : P (if m.GetState = AttackTechniqueStatusDetonated then
        (if m.Options.CustomTerraformDir ≠ "" then
          (⟨((w.enter Event.Detonate).call (m.TerraformManager.TerraformOutput m.TerraformDir)
              (fun r => Event.TerraformOutput m.TerraformDir r.1 r.2)).1, m,
            ((w.enter Event.Detonate).call (m.TerraformManager.TerraformOutput m.TerraformDir)
              (fun r => Event.TerraformOutput m.TerraformDir r.1 r.2)).2⟩ :
            Ret σ (Outputs × Option GoError))
        else
          ⟨((w.enter Event.Detonate).call m.StateManager.GetTerraformOutputs
              (fun r => Event.GetTerraformOutputs r.1 r.2)).1, m,
            ((w.enter Event.Detonate).call m.StateManager.GetTerraformOutputs
              (fun r => Event.GetTerraformOutputs r.1 r.2)).2⟩)
      else m.WarmUp (w.enter Event.Detonate)).m.TechniqueState
      (if m.GetState = AttackTechniqueStatusDetonated then
        (if m.Options.CustomTerraformDir ≠ "" then
          (⟨((w.enter Event.Detonate).call (m.TerraformManager.TerraformOutput m.TerraformDir)
              (fun r => Event.TerraformOutput m.TerraformDir r.1 r.2)).1, m,
            ((w.enter Event.Detonate).call (m.TerraformManager.TerraformOutput m.TerraformDir)
              (fun r => Event.TerraformOutput m.TerraformDir r.1 r.2)).2⟩ :
            Ret σ (Outputs × Option GoError))
        else
          ⟨((w.enter Event.Detonate).call m.StateManager.GetTerraformOutputs
              (fun r => Event.GetTerraformOutputs r.1 r.2)).1, m,
            ((w.enter Event.Detonate).call m.StateManager.GetTerraformOutputs
              (fun r => Event.GetTerraformOutputs r.1 r.2)).2⟩)
      else m.WarmUp (w.enter Event.Detonate)).w := by
      by_cases hs : m.GetState = AttackTechniqueStatusDetonated
      · by_cases hc : m.Options.CustomTerraformDir = ""
        · simp only [hs, hc, if_true, ne_eq, not_true_eq_false, if_false]
          exact hP.getOutputs _ _ (hP.enter _ _ _ rfl h)
        · simp only [hs, hc, if_true, ne_eq, not_false_eq_true]
          exact hP.output _ _ (hP.enter _ _ _ rfl h)
      · simp only [hs, if_false]
        exact WarmUp_invariant m _ P hP (hP.enter _ _ _ rfl h)
    generalize (if m.GetState = AttackTechniqueStatusDetonated then
        (if m.Options.CustomTerraformDir ≠ "" then
          (⟨((w.enter Event.Detonate).call (m.TerraformManager.TerraformOutput m.TerraformDir)
              (fun r => Event.TerraformOutput m.TerraformDir r.1 r.2)).1, m,
            ((w.enter Event.Detonate).call (m.TerraformManager.TerraformOutput m.TerraformDir)
              (fun r => Event.TerraformOutput m.TerraformDir r.1 r.2)).2⟩ :
            Ret σ (Outputs × Option GoError))
        else
          ⟨((w.enter Event.Detonate).call m.StateManager.GetTerraformOutputs
              (fun r => Event.GetTerraformOutputs r.1 r.2)).1, m,
            ((w.enter Event.Detonate).call m.StateManager.GetTerraformOutputs
              (fun r => Event.GetTerraformOutputs r.1 r.2)).2⟩)
      else m.WarmUp (w.enter Event.Detonate)) = r at hA hB hrm hr
    have hPr : Invariant r.m P := by
      rcases hrm with ⟨h', -⟩ | ⟨h', -⟩
      · rw [h']
        exact hP
      · rw [h']
        exact Invariant_withState m _ P hP
    cases hv : r.val.2 with
    | some err =>
      rw [hA err hv]
      exact hr
    | none =>
      obtain ⟨hB1, hB2⟩ := hB hv
      have hcall := hPr.detonate r.m.TechniqueState r.w r.val.1 hr
      cases hd : (r.m.Technique.Detonate r.val.1 r.m.ProviderFactory r.w.ext).1 with
      | some err =>
        rw [hB1 err hd]
        simp only [World.call, hd] at hcall
        exact hcall
      | none =>
        rw [hB2 hd]
        simp only [World.call, hd] at hcall
        exact hPr.setState r.m.TechniqueState _ _ (Or.inr (Or.inl rfl)) hcall

/-- The last steps of `CleanUp`, once the destroy step has left the world
`w1` without an error, as equations. -/
theorem CleanUp_after_destroy_eq {σ : Type} (m : runnerImpl σ) (w w1 : World σ)
    (r : Ret σ (Option GoError))
    (hg : ¬ (m.TechniqueState = AttackTechniqueStatusCold ∧ m.Options.Force = false))
    (hr : (if (m.Technique.Revert.isSome &&
          (decide (m.GetState = AttackTechniqueStatusDetonated) ||
            decide (m.Options.CustomTerraformDir ≠ ""))) = true
        then m.Revert (w.enter Event.CleanUp) else ⟨none, m, w.enter Event.CleanUp⟩) = r)
    (hpass : r.val = none ∨ r.m.Options.Force = true)
    (hd : (if (r.m.Technique.PrerequisitesTerraformCode ≠ none ∨
          r.m.Options.CustomTerraformDir ≠ "") ∧ r.m.Options.NoWarmup = false then
        r.w.call (r.m.TerraformManager.TerraformDestroy r.m.TerraformDir)
          (Event.TerraformDestroy r.m.TerraformDir)
      else (none, r.w)) = (none, w1)) :
    (m.CleanUp w).m = { r.m with TechniqueState := AttackTechniqueStatusCold } ∧
    (m.CleanUp w).w =
      (if r.m.Options.CustomTerraformDir = "" then
        ((r.m.setState AttackTechniqueStatusCold w1).w.call r.m.StateManager.CleanupTechnique
          Event.CleanupTechnique).2
      else (r.m.setState AttackTechniqueStatusCold w1).w) ∧
    (m.CleanUp w).val =
      (if r.m.Options.CustomTerraformDir = "" then
        (match ((r.m.setState AttackTechniqueStatusCold w1).w.call
            r.m.StateManager.CleanupTechnique Event.CleanupTechnique).1 with
        | some err => some (errors.New ("unable to remove technique directory " ++
            r.m.TerraformDir ++ ": " ++ err.Error))
        | none => none)
      else none) := by
  have habort : (match r.val with
      | some err =>
        if r.m.Options.Force = true then none
        else some (errors.New ("unable to revert detonation of " ++ r.m.Technique.ID ++
          " before cleaning up (use --force to cleanup anyway): " ++ err.Error))
      | none => none) = none := by
    rcases hpass with h | h
    · simp [h]
    · cases r.val <;> simp [h]
  simp only [runnerImpl.CleanUp, hg, if_false, hr, habort, hd]
  by_cases hc : r.m.Options.CustomTerraformDir = ""
  · simp only [runnerImpl.setState, hc, if_true, World.call]
    cases hcl : (r.m.StateManager.CleanupTechnique
        (r.m.StateManager.SetTechniqueState AttackTechniqueStatusCold w1.ext).2).1 <;>
      simp
  · simp [runnerImpl.setState, hc]

theorem CleanUp_invariant {σ : Type} (m : runnerImpl σ) (w : World σ)
    (P : AttackTechniqueState → World σ → Prop) (hP : Invariant m P)
    (h : P m.TechniqueState w) :
    P (m.CleanUp w).m.TechniqueState (m.CleanUp w).w := by
  by_cases hg : m.TechniqueState = AttackTechniqueStatusCold ∧ m.Options.Force = false
  · rw [CleanUp_guard m w hg.1 hg.2]
    exact hP.enter _ _ _ rfl h
  · obtain ⟨hfr, -, -, -, -, -, evs0, -, hevs⟩ := CleanUp_revert_step m w _ rfl
    have hA := fun e => CleanUp_revert_abort m w _ e hg rfl
    have hB := fun e => CleanUp_destroy_fail m w _ e hg rfl
    have hC := fun w1 => CleanUp_after_destroy_eq m w w1 _ hg rfl
    have hr : P (if (m.Technique.Revert.isSome &&
            (decide (m.GetState = AttackTechniqueStatusDetonated) ||
              decide (m.Options.CustomTerraformDir ≠ ""))) = true
          then m.Revert (w.enter Event.CleanUp)
          else ⟨none, m, w.enter Event.CleanUp⟩).m.TechniqueState
        (if (m.Technique.Revert.isSome &&
            (decide (m.GetState = AttackTechniqueStatusDetonated) ||
              decide (m.Options.CustomTerraformDir ≠ ""))) = true
          then m.Revert (w.enter Event.CleanUp)
          else ⟨none, m, w.enter Event.CleanUp⟩).w := by
      rcases hevs with ⟨-, h', -⟩ | ⟨-, h', -⟩
      · rw [h']
        exact Revert_invariant m _ P hP (hP.enter _ _ _ rfl h)
      · rw [h']
        exact hP.enter _ _ _ rfl h
    generalize (if (m.Technique.Revert.isSome &&
            (decide (m.GetState = AttackTechniqueStatusDetonated) ||
              decide (m.Options.CustomTerraformDir ≠ ""))) = true
          then m.Revert (w.enter Event.CleanUp)
          else ⟨none, m, w.enter Event.CleanUp⟩) = r at hfr hA hB hC hr
    have hPr : Invariant r.m P := by
      rcases hfr with h' | ⟨-, h'⟩
      · rw [h']
        exact hP
      · rw [h']
        exact Invariant_withState m _ P hP
    by_cases hpass : r.val = none ∨ r.m.Options.Force = true
    · have key : ∀ w1, P r.m.TechniqueState w1 →
          (if (r.m.Technique.PrerequisitesTerraformCode ≠ none ∨
              r.m.Options.CustomTerraformDir ≠ "") ∧ r.m.Options.NoWarmup = false then
            r.w.call (r.m.TerraformManager.TerraformDestroy r.m.TerraformDir)
              (Event.TerraformDestroy r.m.TerraformDir)
          else (none, r.w)) = (none, w1) →
          P (m.CleanUp w).m.TechniqueState (m.CleanUp w).w := by
        intro w1 hw1 hd
        obtain ⟨hm, hw, -⟩ := hC w1 hpass hd
        rw [hm, hw]
        have hset := hPr.setState r.m.TechniqueState AttackTechniqueStatusCold w1
          (Or.inr (Or.inr rfl)) hw1
        by_cases hc : r.m.Options.CustomTerraformDir = ""
        · simp only [hc, if_true]
          exact hPr.cleanup hc _ hset
        · simp only [hc, if_false]
          exact hset
      have hcall := hPr.destroy r.m.TechniqueState r.w hr
      by_cases hneed : (r.m.Technique.PrerequisitesTerraformCode ≠ none ∨
          r.m.Options.CustomTerraformDir ≠ "") ∧ r.m.Options.NoWarmup = false
      · cases hd : (r.m.TerraformManager.TerraformDestroy r.m.TerraformDir r.w.ext).1 with
        | some e1 =>
          rw [hB e1 hpass hneed hd]
          simp only [World.call, hd] at hcall
          exact hcall
        | none =>
          simp only [World.call, hd] at hcall
          exact key
            { os := r.w.os
              ext := (r.m.TerraformManager.TerraformDestroy r.m.TerraformDir r.w.ext).2
              calls := r.w.calls ++ [Event.TerraformDestroy r.m.TerraformDir none] } hcall
            (by simp only [hneed, and_self, if_true, World.call, hd])
      · exact key r.w hr (by simp only [hneed, if_false])
    · have hf : r.m.Options.Force = false := by
        cases h' : r.m.Options.Force
        · rfl
        · exact absurd (Or.inr h') hpass
      cases hv : r.val with
      | none => exact absurd (Or.inl hv) hpass
      | some e1 =>
        rw [hA e1 hv hf]
        exact hr

/-- Every lifecycle operation preserves an invariant, and the invariant is
still one for the receiver it leaves. -/
theorem run_invariant {σ : Type} (m : runnerImpl σ) (w : World σ) (op : Op)
    (P : AttackTechniqueState → World σ → Prop) (hP : Invariant m P)
    (h : P m.TechniqueState w) :
    P (m.run op w).m.TechniqueState (m.run op w).w ∧ Invariant (m.run op w).m P ∧
    (m.run op w).m.Options = m.Options := by
  have hI : ∀ n : runnerImpl σ,
      (n = m ∨ ∃ st, n = ({ m with TechniqueState := st } : runnerImpl σ)) →
      Invariant n P ∧ n.Options = m.Options := by
    intro n hn
    rcases hn with rfl | ⟨st, rfl⟩
    · exact ⟨hP, rfl⟩
    · exact ⟨Invariant_withState m st P hP, rfl⟩
  cases op with
  | WarmUp =>
    refine ⟨WarmUp_invariant m w P hP h, hI _ ?_⟩
    rcases WarmUp_receiver m w with h' | ⟨h', -⟩
    · exact Or.inl h'
    · exact Or.inr ⟨_, h'⟩
  | Detonate =>
    refine ⟨Detonate_invariant m w P hP h, hI _ ?_⟩
    rcases Detonate_receiver m w with h' | h' | ⟨h', -⟩
    · exact Or.inl h'
    · exact Or.inr ⟨_, h'⟩
    · exact Or.inr ⟨_, h'⟩
  | Revert =>
    refine ⟨Revert_invariant m w P hP h, hI _ ?_⟩
    rcases Revert_receiver m w with ⟨-, h'⟩ | ⟨-, h', -⟩
    · exact Or.inl h'
    · exact Or.inr ⟨_, h'⟩
  | CleanUp =>
    refine ⟨CleanUp_invariant m w P hP h, hI _ ?_⟩
    rcases CleanUp_receiver m w with h' | ⟨h', -⟩ | ⟨h', -⟩
    · exact Or.inl h'
    · exact Or.inr ⟨_, h'⟩
    · exact Or.inr ⟨_, h'⟩

/-- An invariant holds after every sequence of lifecycle operations. -/
theorem runAll_invariant {σ : Type} (ops : List Op) (m : runnerImpl σ) (w : World σ)
    (P : AttackTechniqueState → World σ → Prop) (hP : Invariant m P)
    (h : P m.TechniqueState w) :
    P (runAll ops m w).1.TechniqueState (runAll ops m w).2 ∧
    (runAll ops m w).1.Options = m.Options := by
  induction ops generalizing m w with
  | nil => exact ⟨h, rfl⟩
  | cons op ops ih =>
    obtain ⟨h1, h2, h3⟩ := run_invariant m w op P hP h
    obtain ⟨h4, h5⟩ := ih (m.run op w).m (m.run op w).w h2 h1
    exact ⟨h4, h5.trans h3⟩

/-! ## Shared lemmas: three invariants -/

theorem no_write_snoc {l l0 : List Event} (e : Event) (he : e.isPersistenceWrite = false)
    (h : ∃ evs, l = l0 ++ evs ∧ ∀ ev ∈ evs, ev.isPersistenceWrite = false) :
    ∃ evs, l ++ [e] = l0 ++ evs ∧ ∀ ev ∈ evs, ev.isPersistenceWrite = false := by
  obtain ⟨evs, h1, h2⟩ := h
  refine ⟨evs ++ [e], by rw [h1, List.append_assoc], ?_⟩
  intro ev hev
  rcases List.mem_append.1 hev with h' | h'
  · exact h2 ev h'
  · rw [List.mem_singleton.1 h']
    exact he

/-- With a custom directory, none of the calls recorded since `w0` is a write
to the state manager, whatever the runner does. -/
theorem custom_no_write_invariant {σ : Type} (m : runnerImpl σ) (w0 : World σ)
    (hc : m.Options.CustomTerraformDir ≠ "") :
    Invariant m (fun _ w => ∃ evs, w.calls = w0.calls ++ evs ∧
      ∀ ev ∈ evs, ev.isPersistenceWrite = false) where
  enter := by
    intro st w e he h
    refine no_write_snoc e ?_ h
    cases e <;> simp_all [Event.isEntry, Event.isPersistenceWrite]
  readFile := fun st w h => no_write_snoc _ rfl h
  getOutputs := fun st w h => no_write_snoc _ rfl h
  apply := fun st w h => no_write_snoc _ rfl h
  destroy := fun st w h => no_write_snoc _ rfl h
  output := fun st w h => no_write_snoc _ rfl h
  detonate := fun st w o h => no_write_snoc _ rfl h
  revert := fun st w o revert _ h => no_write_snoc _ rfl h
  extract := fun h => absurd h hc
  write := fun h => absurd h hc
  setState := by
    intro st st' w _ h
    simpa only [runnerImpl.setState, hc, if_false] using h
  cleanup := fun h => absurd h hc

theorem written_snoc {st s0 : AttackTechniqueState} {l l0 : List Event} (e : Event)
    (h : ∃ evs, l = l0 ++ evs ∧ (st = s0 ∨ ∃ err, Event.SetTechniqueState st err ∈ evs)) :
    ∃ evs, l ++ [e] = l0 ++ evs ∧ (st = s0 ∨ ∃ err, Event.SetTechniqueState st err ∈ evs) := by
  obtain ⟨evs, h1, h2⟩ := h
  refine ⟨evs ++ [e], by rw [h1, List.append_assoc], ?_⟩
  rcases h2 with h2 | ⟨err, h2⟩
  · exact Or.inl h2
  · exact Or.inr ⟨err, List.mem_append_left _ h2⟩

/-- Without a custom directory, a state other than the one the runner started
in (`s0`) has been handed to `SetTechniqueState` since `w0`. -/
theorem written_through_invariant {σ : Type} (m : runnerImpl σ) (w0 : World σ)
    (s0 : AttackTechniqueState) (hc : m.Options.CustomTerraformDir = "") :
    Invariant m (fun st w => ∃ evs, w.calls = w0.calls ++ evs ∧
      (st = s0 ∨ ∃ err, Event.SetTechniqueState st err ∈ evs)) where
  enter := fun st w e _ h => written_snoc e h
  readFile := fun st w h => written_snoc _ h
  getOutputs := fun st w h => written_snoc _ h
  apply := fun st w h => written_snoc _ h
  destroy := fun st w h => written_snoc _ h
  output := fun st w h => written_snoc _ h
  detonate := fun st w o h => written_snoc _ h
  revert := fun st w o revert _ h => written_snoc _ h
  extract := fun _ st w h => written_snoc _ h
  write := fun _ st w o h => written_snoc _ h
  setState := by
    intro st st' w _ h
    obtain ⟨evs, h1, -⟩ := h
    simp only [runnerImpl.setState, hc, if_true, World.call]
    refine ⟨evs ++ [Event.SetTechniqueState st'
        (m.StateManager.SetTechniqueState st' w.ext).1], ?_,
      Or.inr ⟨(m.StateManager.SetTechniqueState st' w.ext).1, ?_⟩⟩
    · rw [h1, List.append_assoc]
    · exact List.mem_append_right _ (List.mem_singleton.2 rfl)
  cleanup := fun _ w h => written_snoc _ h

/-- Without a custom directory, over a state store whose `SetTechniqueState`
succeeds, the recorded state (none counting as COLD) is the state the runner
holds. -/
theorem persisted_invariant {σ : Type} (m : runnerImpl σ) (os : Host σ)
    (persisted : σ → AttackTechniqueState) (hS : StateStore m.StateManager persisted)
    (hO : OwnedByPersistence m os persisted)
    (hok : ∀ st s, (m.StateManager.SetTechniqueState st s).1 = none)
    (hc : m.Options.CustomTerraformDir = "") :
    Invariant m (fun st w => w.os = os ∧
      (if persisted w.ext = "" then AttackTechniqueStatusCold else persisted w.ext) = st) where
  enter := fun st w e _ h => h
  readFile := by
    intro st w h
    obtain ⟨h1, h2⟩ := h
    refine ⟨h1, ?_⟩
    simp only [World.call, h1, hO.readFile]
    exact h2
  getOutputs := by
    intro st w h
    refine ⟨h.1, ?_⟩
    simp only [World.call, hS.getOutputs_keeps]
    exact h.2
  apply := by
    intro st w h
    refine ⟨h.1, ?_⟩
    simp only [World.call, hO.apply]
    exact h.2
  destroy := by
    intro st w h
    refine ⟨h.1, ?_⟩
    simp only [World.call, hO.destroy]
    exact h.2
  output := by
    intro st w h
    refine ⟨h.1, ?_⟩
    simp only [World.call, hO.output]
    exact h.2
  detonate := by
    intro st w o h
    refine ⟨h.1, ?_⟩
    simp only [World.call, hO.detonate]
    exact h.2
  revert := by
    intro st w o revert hrev h
    refine ⟨h.1, ?_⟩
    simp only [World.call, hO.revert revert hrev]
    exact h.2
  extract := by
    intro _ st w h
    refine ⟨h.1, ?_⟩
    simp only [World.call, hS.extract_keeps]
    exact h.2
  write := by
    intro _ st w o h
    refine ⟨h.1, ?_⟩
    simp only [World.call, hS.write_keeps]
    exact h.2
  setState := by
    intro st st' w hst h
    refine ⟨by simpa only [runnerImpl.setState, hc, if_true, World.call] using h.1, ?_⟩
    simp only [runnerImpl.setState, hc, if_true, World.call, hS.set st' w.ext (hok st' w.ext)]
    rcases hst with rfl | rfl | rfl <;> decide
  cleanup := by
    intro _ w h
    refine ⟨h.1, ?_⟩
    simp only [World.call]
    rcases hS.cleanup w.ext with h' | h'
    · rw [h']
      exact h.2
    · rw [h']
      rfl

theorem diskStateManager_stateStore : StateStore diskStateManager Disk.techniqueState :=
  { get := fun _ => rfl
    set := fun _ _ _ => rfl
    cleanup := fun _ => Or.inl rfl
    extract_keeps := fun _ => rfl
    getOutputs_keeps := fun _ => rfl
    write_keeps := fun _ _ => rfl }

theorem demoRunner_ownedByPersistence (idempotent : Bool) (code : Option (List Nat))
    (detonate : Option GoError) (revert : Option (Option GoError))
    (state : AttackTechniqueState) (options : RunnerOptions)
    (apply : Outputs × Option GoError) (destroy : Option GoError)
    (output : Outputs × Option GoError) (tf : TerraformManager Disk) :
    OwnedByPersistence
      (demoRunner (scriptedTechnique idempotent code detonate revert) state options
        (scriptedTerraform apply destroy output))
      (demoHost tf) Disk.techniqueState :=
  { apply := fun _ => rfl
    destroy := fun _ => rfl
    output := fun _ => rfl
    detonate := fun _ _ => rfl
    revert := by
      intro rv hrv o s
      cases revert with
      | none => simp [demoRunner, scriptedTechnique] at hrv
      | some r =>
        simp only [demoRunner, scriptedTechnique, Option.map_some', Option.some.injEq] at hrv
        rw [← hrv]
    readFile := fun _ => rfl }

theorem GetState_noncustom {σ : Type} (m : runnerImpl σ)
    (hc : m.Options.CustomTerraformDir = "") : m.GetState = m.TechniqueState := by
  simp [runnerImpl.GetState, hc]

/-! ## Shared lemmas: the error of `SetTechniqueState` is not used -/

theorem World.enter_quiet {σ : Type} (w : World σ) (e : Event) (he : e.quiet = e) :
    w.quiet.enter e = (w.enter e).quiet := by
  simp [World.quiet, World.enter, he]

theorem World.call_quiet {σ α : Type} (w : World σ) (f : σ → α × σ) (ev : α → Event)
    (hev : ∀ a, (ev a).quiet = ev a) :
    w.quiet.call f ev = ((w.call f ev).1, (w.call f ev).2.quiet) := by
  simp [World.quiet, World.call, hev]

theorem setState_quiet {σ : Type} (m : runnerImpl σ) (st : AttackTechniqueState)
    (w : World σ) : m.quiet.setState st w.quiet = (m.setState st w).quiet := by
  by_cases hc : m.Options.CustomTerraformDir = ""
  · simp [runnerImpl.setState, runnerImpl.quiet, StateManager.quiet, World.quiet, World.call,
      Ret.quiet, Event.quiet, hc]
  · simp [runnerImpl.setState, runnerImpl.quiet, StateManager.quiet, World.quiet,
      Ret.quiet, hc]

theorem readTerraformOutputs_quiet {σ : Type} (m : runnerImpl σ) (w : World σ) :
    m.quiet.readTerraformOutputs w.quiet = (m.readTerraformOutputs w).quiet := by
  unfold runnerImpl.readTerraformOutputs
  by_cases h : m.Options.OutputsFile = ""
  · have h' : m.quiet.Options.OutputsFile = "" := h
    simp only [h, h', if_true]
    rfl
  · have h' : ¬ m.quiet.Options.OutputsFile = "" := h
    simp only [h, h', if_false]
    have hx : w.quiet.call (w.quiet.os.ReadFile m.quiet.Options.OutputsFile)
        (fun r => Event.ReadFile m.quiet.Options.OutputsFile r.1 r.2) =
        ((w.call (w.os.ReadFile m.Options.OutputsFile)
          (fun r => Event.ReadFile m.Options.OutputsFile r.1 r.2)).1,
         (w.call (w.os.ReadFile m.Options.OutputsFile)
          (fun r => Event.ReadFile m.Options.OutputsFile r.1 r.2)).2.quiet) :=
      World.call_quiet w _ _ (fun _ => rfl)
    rw [hx]
    generalize w.call (w.os.ReadFile m.Options.OutputsFile)
          (fun r => Event.ReadFile m.Options.OutputsFile r.1 r.2) = x
    have hos : w.quiet.os = w.os := rfl
    rw [hos]
    dsimp only
    cases x.1.2 with
    | some e => rfl
    | none =>
      dsimp only
      cases (w.os.Unmarshal x.1.1).2 <;> rfl

theorem WarmUp_quiet {σ : Type} (m : runnerImpl σ) (w : World σ) :
    m.quiet.WarmUp w.quiet = (m.WarmUp w).quiet := by
  by_cases h1 : m.Technique.PrerequisitesTerraformCode = none ∧ m.Options.CustomTerraformDir = ""
  · rw [WarmUp_noop m w h1, WarmUp_noop m.quiet w.quiet h1, World.enter_quiet _ _ rfl]
    rfl
  by_cases h2 : m.Options.NoWarmup = true
  · rw [WarmUp_noWarmup m w h1 h2, WarmUp_noWarmup m.quiet w.quiet h1 h2,
      World.enter_quiet _ _ rfl, readTerraformOutputs_quiet]
  have h2 : m.Options.NoWarmup = false := by simpa using h2
  by_cases hc : m.Options.CustomTerraformDir = "" ∧
      ∃ err, (m.StateManager.ExtractTechnique w.ext).1 = some err
  · obtain ⟨hc, err, hx1⟩ := hc
    rw [WarmUp_extract_fail m w err h1 h2 hc hx1,
      WarmUp_extract_fail m.quiet w.quiet err h1 h2 hc hx1]
    simp [Ret.quiet, World.quiet, World.call, World.enter, runnerImpl.quiet, StateManager.quiet,
      Event.quiet]
  · have hx : m.Options.CustomTerraformDir = "" →
        (m.StateManager.ExtractTechnique w.ext).1 = none := by
      intro hc'
      cases hx1 : (m.StateManager.ExtractTechnique w.ext).1 with
      | none => rfl
      | some err => exact absurd ⟨hc', err, hx1⟩ hc
    have hw1 := WarmUp_extract_world m w hx
    have hw1' := WarmUp_extract_world m.quiet w.quiet hx
    by_cases hs : (m.TechniqueState = AttackTechniqueStatusWarm ∧ m.Options.Force = false) ∨
        m.TechniqueState = AttackTechniqueStatusDetonated
    · rw [WarmUp_skip m w _ h1 h2 hw1 hs, WarmUp_skip m.quiet w.quiet _ h1 h2 hw1' hs]
      by_cases hc' : m.Options.CustomTerraformDir = "" <;>
        simp [Ret.quiet, World.quiet, World.call, runnerImpl.quiet, StateManager.quiet,
          Event.quiet, hc']
    · have hs1 : ¬ (m.TechniqueState = AttackTechniqueStatusWarm ∧ m.Options.Force = false) :=
        fun h => hs (Or.inl h)
      have hd : m.TechniqueState ≠ AttackTechniqueStatusDetonated := fun h => hs (Or.inr h)
      cases ha : (m.TerraformManager.TerraformInitAndApply m.TerraformDir
          (if m.Options.CustomTerraformDir = "" then
            (m.StateManager.ExtractTechnique w.ext).2 else w.ext)).1.2 with
      | some err =>
        rw [WarmUp_apply_fail m w _ err h1 h2 hw1 hs1 hd ha,
          WarmUp_apply_fail m.quiet w.quiet _ err h1 h2 hw1' hs1 hd ha]
        by_cases hc' : m.Options.CustomTerraformDir = "" <;>
          simp [Ret.quiet, World.quiet, runnerImpl.quiet, StateManager.quiet, Event.quiet, hc']
      | none =>
        rw [WarmUp_apply_ok_eq m w _ h1 h2 hw1 hs1 hd ha,
          WarmUp_apply_ok_eq m.quiet w.quiet _ h1 h2 hw1' hs1 hd ha]
        by_cases hc' : m.Options.CustomTerraformDir = ""
        · simp [Ret.quiet, World.quiet, World.call, runnerImpl.quiet, StateManager.quiet,
            Event.quiet, runnerImpl.setState, hc']
        · simp [Ret.quiet, World.quiet, World.call, runnerImpl.quiet, StateManager.quiet,
            Event.quiet, runnerImpl.setState, hc']

theorem Revert_quiet {σ : Type} (m : runnerImpl σ) (w : World σ) :
    m.quiet.Revert w.quiet = (m.Revert w).quiet := by
  by_cases hg : m.GetState = AttackTechniqueStatusDetonated ∨ m.Options.Force = true
  · have ho' : (if m.quiet.Options.CustomTerraformDir ≠ "" then
          (w.quiet.enter Event.Revert).call
            (m.quiet.TerraformManager.TerraformOutput m.quiet.TerraformDir)
            (fun r => Event.TerraformOutput m.quiet.TerraformDir r.1 r.2)
        else
          (w.quiet.enter Event.Revert).call m.quiet.StateManager.GetTerraformOutputs
            (fun r => Event.GetTerraformOutputs r.1 r.2)) =
        ((if m.Options.CustomTerraformDir ≠ "" then
          (w.enter Event.Revert).call (m.TerraformManager.TerraformOutput m.TerraformDir)
            (fun r => Event.TerraformOutput m.TerraformDir r.1 r.2)
        else
          (w.enter Event.Revert).call m.StateManager.GetTerraformOutputs
            (fun r => Event.GetTerraformOutputs r.1 r.2)).1,
         (if m.Options.CustomTerraformDir ≠ "" then
          (w.enter Event.Revert).call (m.TerraformManager.TerraformOutput m.TerraformDir)
            (fun r => Event.TerraformOutput m.TerraformDir r.1 r.2)
        else
          (w.enter Event.Revert).call m.StateManager.GetTerraformOutputs
            (fun r => Event.GetTerraformOutputs r.1 r.2)).2.quiet) := by
      rw [World.enter_quiet _ _ rfl]
      by_cases hc : m.Options.CustomTerraformDir = ""
      · have hc' : m.quiet.Options.CustomTerraformDir = "" := hc
        simp only [hc, hc', ne_eq, not_true_eq_false, if_false]
        exact World.call_quiet _ _ _ (fun _ => rfl)
      · have hc' : ¬ m.quiet.Options.CustomTerraformDir = "" := hc
        simp only [hc, hc', ne_eq, not_false_eq_true, if_true]
        exact World.call_quiet _ _ _ (fun _ => rfl)
    obtain ⟨hA, hB⟩ := Revert_after_outputs m w _ hg rfl
    obtain ⟨hA', hB'⟩ := Revert_after_outputs m.quiet w.quiet _ hg ho'
    generalize (if m.Options.CustomTerraformDir ≠ "" then
          (w.enter Event.Revert).call (m.TerraformManager.TerraformOutput m.TerraformDir)
            (fun r => Event.TerraformOutput m.TerraformDir r.1 r.2)
        else
          (w.enter Event.Revert).call m.StateManager.GetTerraformOutputs
            (fun r => Event.GetTerraformOutputs r.1 r.2)) = o at hA hB hA' hB'
    dsimp only at hA' hB'
    cases hv : o.1.2 with
    | some err =>
      rw [hA err hv, hA' err hv]
      rfl
    | none =>
      obtain ⟨hB1, hB2⟩ := hB hv
      obtain ⟨hB1', hB2'⟩ := hB' hv
      cases hrev : m.Technique.Revert with
      | none =>
        rw [hB2 hrev, hB2' hrev, setState_quiet]
        rfl
      | some revert =>
        obtain ⟨hC1, hC2⟩ := hB1 revert hrev
        obtain ⟨hC1', hC2'⟩ := hB1' revert hrev
        cases hr : (revert o.1.1 m.ProviderFactory o.2.ext).1 with
        | some err =>
          rw [hC1 err hr, hC1' err hr]
          simp [Ret.quiet, World.quiet, Event.quiet, runnerImpl.quiet]
        | none =>
          rw [hC2 hr, hC2' hr]
          have hw : ({ os := o.2.quiet.os
                       ext := (revert o.1.1 m.quiet.ProviderFactory o.2.quiet.ext).2
                       calls := o.2.quiet.calls ++
                        [Event.TechniqueRevert o.1.1 m.quiet.ProviderFactory none] } : World σ) =
              ({ os := o.2.os
                 ext := (revert o.1.1 m.ProviderFactory o.2.ext).2
                 calls := o.2.calls ++
                  [Event.TechniqueRevert o.1.1 m.ProviderFactory none] } : World σ).quiet := by
            simp [World.quiet, Event.quiet, runnerImpl.quiet]
          rw [hw, setState_quiet]
          rfl
  · have hs : m.GetState ≠ AttackTechniqueStatusDetonated := fun h => hg (Or.inl h)
    have hf : m.Options.Force = false := by
      cases h : m.Options.Force
      · rfl
      · exact absurd (Or.inr h) hg
    rw [Revert_guard m w hs hf, Revert_guard m.quiet w.quiet hs hf, World.enter_quiet _ _ rfl]
    rfl

theorem Detonate_quiet {σ : Type} (m : runnerImpl σ) (w : World σ) :
    m.quiet.Detonate w.quiet = (m.Detonate w).quiet := by
  by_cases hg : m.GetState = AttackTechniqueStatusDetonated ∧
      m.Technique.IsIdempotent = false ∧ m.Options.Force = false
  · rw [Detonate_guard m w hg.1 hg.2.1 hg.2.2,
      Detonate_guard m.quiet w.quiet hg.1 hg.2.1 hg.2.2, World.enter_quiet _ _ rfl]
    rfl
  · have hr' : (if m.quiet.GetState = AttackTechniqueStatusDetonated then
          (if m.quiet.Options.CustomTerraformDir ≠ "" then
            (⟨((w.quiet.enter Event.Detonate).call
                (m.quiet.TerraformManager.TerraformOutput m.quiet.TerraformDir)
                (fun r => Event.TerraformOutput m.quiet.TerraformDir r.1 r.2)).1, m.quiet,
              ((w.quiet.enter Event.Detonate).call
                (m.quiet.TerraformManager.TerraformOutput m.quiet.TerraformDir)
                (fun r => Event.TerraformOutput m.quiet.TerraformDir r.1 r.2)).2⟩ :
              Ret σ (Outputs × Option GoError))
          else
            ⟨((w.quiet.enter Event.Detonate).call m.quiet.StateManager.GetTerraformOutputs
                (fun r => Event.GetTerraformOutputs r.1 r.2)).1, m.quiet,
              ((w.quiet.enter Event.Detonate).call m.quiet.StateManager.GetTerraformOutputs
                (fun r => Event.GetTerraformOutputs r.1 r.2)).2⟩)
        else m.quiet.WarmUp (w.quiet.enter Event.Detonate)) =
        (if m.GetState = AttackTechniqueStatusDetonated then
          (if m.Options.CustomTerraformDir ≠ "" then
            (⟨((w.enter Event.Detonate).call (m.TerraformManager.TerraformOutput m.TerraformDir)
                (fun r => Event.TerraformOutput m.TerraformDir r.1 r.2)).1, m,
              ((w.enter Event.Detonate).call (m.TerraformManager.TerraformOutput m.TerraformDir)
                (fun r => Event.TerraformOutput m.TerraformDir r.1 r.2)).2⟩ :
              Ret σ (Outputs × Option GoError))
          else
            ⟨((w.enter Event.Detonate).call m.StateManager.GetTerraformOutputs
                (fun r => Event.GetTerraformOutputs r.1 r.2)).1, m,
              ((w.enter Event.Detonate).call m.StateManager.GetTerraformOutputs
                (fun r => Event.GetTerraformOutputs r.1 r.2)).2⟩)
        else m.WarmUp (w.enter Event.Detonate)).quiet := by
      rw [World.enter_quiet _ _ rfl]
      by_cases hs : m.GetState = AttackTechniqueStatusDetonated
      · have hs' : m.quiet.GetState = AttackTechniqueStatusDetonated := hs
        by_cases hc : m.Options.CustomTerraformDir = ""
        · have hc' : m.quiet.Options.CustomTerraformDir = "" := hc
          simp only [hs, hs', hc, hc', if_true, ne_eq, not_true_eq_false, if_false]
          rw [World.call_quiet _ _ _ (fun _ => rfl)]
          rfl
        · have hc' : ¬ m.quiet.Options.CustomTerraformDir = "" := hc
          simp only [hs, hs', hc, hc', if_true, ne_eq, not_false_eq_true]
          rw [World.call_quiet _ _ _ (fun _ => rfl)]
          rfl
      · have hs' : ¬ m.quiet.GetState = AttackTechniqueStatusDetonated := hs
        simp only [hs, hs', if_false]
        exact WarmUp_quiet m _
    obtain ⟨hA, hB⟩ := Detonate_after_resolve m w _ hg rfl
    obtain ⟨hA', hB'⟩ := Detonate_after_resolve m.quiet w.quiet _ hg hr'
    generalize (if m.GetState = AttackTechniqueStatusDetonated then
          (if m.Options.CustomTerraformDir ≠ "" then
            (⟨((w.enter Event.Detonate).call (m.TerraformManager.TerraformOutput m.TerraformDir)
                (fun r => Event.TerraformOutput m.TerraformDir r.1 r.2)).1, m,
              ((w.enter Event.Detonate).call (m.TerraformManager.TerraformOutput m.TerraformDir)
                (fun r => Event.TerraformOutput m.TerraformDir r.1 r.2)).2⟩ :
              Ret σ (Outputs × Option GoError))
          else
            ⟨((w.enter Event.Detonate).call m.StateManager.GetTerraformOutputs
                (fun r => Event.GetTerraformOutputs r.1 r.2)).1, m,
              ((w.enter Event.Detonate).call m.StateManager.GetTerraformOutputs
                (fun r => Event.GetTerraformOutputs r.1 r.2)).2⟩)
        else m.WarmUp (w.enter Event.Detonate)) = r at hA hB hA' hB'
    cases hv : r.val.2 with
    | some err =>
      rw [hA err hv, hA' err hv]
      rfl
    | none =>
      obtain ⟨hB1, hB2⟩ := hB hv
      obtain ⟨hB1', hB2'⟩ := hB' hv
      cases hd : (r.m.Technique.Detonate r.val.1 r.m.ProviderFactory r.w.ext).1 with
      | some err =>
        rw [hB1 err hd, hB1' err hd]
        simp [Ret.quiet, World.quiet, Event.quiet, runnerImpl.quiet]
      | none =>
        rw [hB2 hd, hB2' hd]
        have hw : ({ os := r.quiet.w.os
                     ext := (r.quiet.m.Technique.Detonate r.quiet.val.1 r.quiet.m.ProviderFactory
                      r.quiet.w.ext).2
                     calls := r.quiet.w.calls ++
                      [Event.TechniqueDetonate r.quiet.val.1 r.quiet.m.ProviderFactory none] } :
                    World σ) =
            ({ os := r.w.os
               ext := (r.m.Technique.Detonate r.val.1 r.m.ProviderFactory r.w.ext).2
               calls := r.w.calls ++
                [Event.TechniqueDetonate r.val.1 r.m.ProviderFactory none] } : World σ).quiet := by
          simp [World.quiet, Event.quiet, runnerImpl.quiet, Ret.quiet]
        have hm : r.quiet.m = r.m.quiet := rfl
        rw [hw, hm, setState_quiet]
        rfl

theorem Ret_eq {σ α : Type} (x y : Ret σ α) (h1 : x.val = y.val) (h2 : x.m = y.m)
    (h3 : x.w = y.w) : x = y := by
  cases x
  cases y
  simp_all

theorem CleanUp_quiet {σ : Type} (m : runnerImpl σ) (w : World σ) :
    m.quiet.CleanUp w.quiet = (m.CleanUp w).quiet := by
  by_cases hg : m.TechniqueState = AttackTechniqueStatusCold ∧ m.Options.Force = false
  · rw [CleanUp_guard m w hg.1 hg.2, CleanUp_guard m.quiet w.quiet hg.1 hg.2,
      World.enter_quiet _ _ rfl]
    rfl
  · have hr' : (if (m.quiet.Technique.Revert.isSome &&
            (decide (m.quiet.GetState = AttackTechniqueStatusDetonated) ||
              decide (m.quiet.Options.CustomTerraformDir ≠ ""))) = true
          then m.quiet.Revert (w.quiet.enter Event.CleanUp)
          else ⟨none, m.quiet, w.quiet.enter Event.CleanUp⟩) =
        (if (m.Technique.Revert.isSome &&
            (decide (m.GetState = AttackTechniqueStatusDetonated) ||
              decide (m.Options.CustomTerraformDir ≠ ""))) = true
          then m.Revert (w.enter Event.CleanUp)
          else ⟨none, m, w.enter Event.CleanUp⟩).quiet := by
      rw [World.enter_quiet _ _ rfl]
      have hb : (m.quiet.Technique.Revert.isSome &&
            (decide (m.quiet.GetState = AttackTechniqueStatusDetonated) ||
              decide (m.quiet.Options.CustomTerraformDir ≠ ""))) =
          (m.Technique.Revert.isSome &&
            (decide (m.GetState = AttackTechniqueStatusDetonated) ||
              decide (m.Options.CustomTerraformDir ≠ ""))) := rfl
      rw [hb]
      cases (m.Technique.Revert.isSome &&
            (decide (m.GetState = AttackTechniqueStatusDetonated) ||
              decide (m.Options.CustomTerraformDir ≠ "")))
      · rw [if_neg Bool.false_ne_true, if_neg Bool.false_ne_true]
        rfl
      · rw [if_pos rfl, if_pos rfl]
        exact Revert_quiet m _
    have hA := fun e => CleanUp_revert_abort m w _ e hg rfl
    have hB := fun e => CleanUp_destroy_fail m w _ e hg rfl
    have hC := fun w1 => CleanUp_after_destroy_eq m w w1 _ hg rfl
    have hA' := fun e => CleanUp_revert_abort m.quiet w.quiet _ e hg hr'
    have hB' := fun e => CleanUp_destroy_fail m.quiet w.quiet _ e hg hr'
    have hC' := fun w1 => CleanUp_after_destroy_eq m.quiet w.quiet w1 _ hg hr'
    generalize (if (m.Technique.Revert.isSome &&
            (decide (m.GetState = AttackTechniqueStatusDetonated) ||
              decide (m.Options.CustomTerraformDir ≠ ""))) = true
          then m.Revert (w.enter Event.CleanUp)
          else ⟨none, m, w.enter Event.CleanUp⟩) = r at hA hB hC hA' hB' hC'
    by_cases hpass : r.val = none ∨ r.m.Options.Force = true
    · have key : ∀ w1,
          (if (r.m.Technique.PrerequisitesTerraformCode ≠ none ∨
              r.m.Options.CustomTerraformDir ≠ "") ∧ r.m.Options.NoWarmup = false then
            r.w.call (r.m.TerraformManager.TerraformDestroy r.m.TerraformDir)
              (Event.TerraformDestroy r.m.TerraformDir)
          else (none, r.w)) = (none, w1) →
          (if (r.quiet.m.Technique.PrerequisitesTerraformCode ≠ none ∨
              r.quiet.m.Options.CustomTerraformDir ≠ "") ∧ r.quiet.m.Options.NoWarmup = false then
            r.quiet.w.call (r.quiet.m.TerraformManager.TerraformDestroy r.quiet.m.TerraformDir)
              (Event.TerraformDestroy r.quiet.m.TerraformDir)
          else (none, r.quiet.w)) = (none, w1.quiet) →
          m.quiet.CleanUp w.quiet = (m.CleanUp w).quiet := by
        intro w1 hd hd'
        obtain ⟨hm, hw, hval⟩ := hC w1 hpass hd
        obtain ⟨hm', hw', hval'⟩ := hC' w1.quiet hpass hd'
        have hrm : r.quiet.m = r.m.quiet := rfl
        rw [hrm, setState_quiet] at hw' hval'
        refine Ret_eq _ _ ?_ ?_ ?_
        · rw [hval']
          show _ = (m.CleanUp w).val
          rw [hval]
          by_cases hc : r.m.Options.CustomTerraformDir = ""
          · have hc' : r.m.quiet.Options.CustomTerraformDir = "" := hc
            simp only [hc, hc', if_true]
            rw [show (r.m.setState AttackTechniqueStatusCold w1).quiet.w =
              (r.m.setState AttackTechniqueStatusCold w1).w.quiet from rfl,
              show r.m.quiet.StateManager.CleanupTechnique = r.m.StateManager.CleanupTechnique
                from rfl,
              World.call_quiet _ _ _ (fun _ => rfl)]
            rfl
          · have hc' : ¬ r.m.quiet.Options.CustomTerraformDir = "" := hc
            simp only [hc, hc', if_false]
        · rw [hm']
          show _ = (m.CleanUp w).m.quiet
          rw [hm]
          rfl
        · rw [hw']
          show _ = (m.CleanUp w).w.quiet
          rw [hw]
          by_cases hc : r.m.Options.CustomTerraformDir = ""
          · have hc' : r.m.quiet.Options.CustomTerraformDir = "" := hc
            simp only [hc, hc', if_true]
            rw [show (r.m.setState AttackTechniqueStatusCold w1).quiet.w =
              (r.m.setState AttackTechniqueStatusCold w1).w.quiet from rfl,
              show r.m.quiet.StateManager.CleanupTechnique = r.m.StateManager.CleanupTechnique
                from rfl,
              World.call_quiet _ _ _ (fun _ => rfl)]
          · have hc' : ¬ r.m.quiet.Options.CustomTerraformDir = "" := hc
            simp only [hc, hc', if_false]
            rfl
      by_cases hneed : (r.m.Technique.PrerequisitesTerraformCode ≠ none ∨
          r.m.Options.CustomTerraformDir ≠ "") ∧ r.m.Options.NoWarmup = false
      · have hneed' : (r.quiet.m.Technique.PrerequisitesTerraformCode ≠ none ∨
            r.quiet.m.Options.CustomTerraformDir ≠ "") ∧ r.quiet.m.Options.NoWarmup = false :=
          hneed
        cases hd : (r.m.TerraformManager.TerraformDestroy r.m.TerraformDir r.w.ext).1 with
        | some e1 =>
          rw [hB e1 hpass hneed hd, hB' e1 hpass hneed hd]
          simp [Ret.quiet, World.quiet, Event.quiet, runnerImpl.quiet]
        | none =>
          refine key
            { os := r.w.os
              ext := (r.m.TerraformManager.TerraformDestroy r.m.TerraformDir r.w.ext).2
              calls := r.w.calls ++ [Event.TerraformDestroy r.m.TerraformDir none] } ?_ ?_
          · simp only [hneed, and_self, if_true, World.call, hd]
          · rw [if_pos hneed']
            have hd' : (r.quiet.m.TerraformManager.TerraformDestroy r.quiet.m.TerraformDir
                r.quiet.w.ext).1 = none := hd
            simp only [World.call, hd']
            simp [World.quiet, Event.quiet, Ret.quiet, runnerImpl.quiet]
      · have hneed' : ¬ ((r.quiet.m.Technique.PrerequisitesTerraformCode ≠ none ∨
            r.quiet.m.Options.CustomTerraformDir ≠ "") ∧ r.quiet.m.Options.NoWarmup = false) :=
          hneed
        refine key r.w ?_ ?_
        · rw [if_neg hneed]
        · rw [if_neg hneed']
          rfl
    · have hf : r.m.Options.Force = false := by
        cases h' : r.m.Options.Force
        · rfl
        · exact absurd (Or.inr h') hpass
      cases hv : r.val with
      | none => exact absurd (Or.inl hv) hpass
      | some e1 =>
        rw [hA e1 hv hf, hA' e1 hv hf]
        rfl

/-- Every lifecycle operation commutes with dropping the error of
`SetTechniqueState`. -/
theorem run_quiet {σ : Type} (m : runnerImpl σ) (w : World σ) (op : Op) :
    m.quiet.run op w.quiet = (m.run op w).quiet := by
  cases op with
  | WarmUp =>
    simp only [runnerImpl.run, WarmUp_quiet]
    rfl
  | Detonate => exact Detonate_quiet m w
  | Revert => exact Revert_quiet m w
  | CleanUp => exact CleanUp_quiet m w

/-! ## C1 -/

/-- C1: for a runner whose state is DETONATED, (a) when the technique is not
idempotent and force is not set, `Detonate` returns the guard-violation
error, leaves the receiver as it was and records nothing but its own entry
(no `WarmUp`, no gateway, persistence or capability call), so the state stays
DETONATED; (b) when the technique is idempotent or force is set, the existing
outputs are read without error and the detonation capability succeeds,
`Detonate` returns no error and the state is DETONATED. -/
theorem C1_detonate_in_detonated_state {σ : Type} (m : runnerImpl σ) (w : World σ)
    (hs : m.GetState = AttackTechniqueStatusDetonated) :
    (m.Technique.IsIdempotent = false ∧ m.Options.Force = false →
      (m.Detonate w).val = some (errors.New (m.Technique.ID ++
        " has already been detonated and is not idempotent. " ++
        "Revert it with 'stratus revert' before detonating it again, or use --force")) ∧
      (m.Detonate w).m = m ∧
      (m.Detonate w).w.ext = w.ext ∧
      (m.Detonate w).w.calls = w.calls ++ [Event.Detonate] ∧
      (m.Detonate w).m.GetState = AttackTechniqueStatusDetonated) ∧
    (m.Technique.IsIdempotent = true ∨ m.Options.Force = true →
      ((if m.Options.CustomTerraformDir ≠ "" then
          m.TerraformManager.TerraformOutput m.TerraformDir w.ext
        else m.StateManager.GetTerraformOutputs w.ext).1.2 = none) →
      (m.Technique.Detonate
        (if m.Options.CustomTerraformDir ≠ "" then
          m.TerraformManager.TerraformOutput m.TerraformDir w.ext
        else m.StateManager.GetTerraformOutputs w.ext).1.1 m.ProviderFactory
        (if m.Options.CustomTerraformDir ≠ "" then
          m.TerraformManager.TerraformOutput m.TerraformDir w.ext
        else m.StateManager.GetTerraformOutputs w.ext).2).1 = none →
      (m.Detonate w).val = none ∧
      (m.Detonate w).m.GetState = AttackTechniqueStatusDetonated) := by
  have hts := (GetState_eq_detonated_iff m).1 hs
  constructor
  · rintro ⟨hi, hf⟩
    simp [runnerImpl.Detonate, hs, hi, hf, World.enter]
  · intro hif hread hdet
    have hg : ¬ (m.Technique.IsIdempotent = false ∧ m.Options.Force = false) := by
      rcases hif with h | h <;> simp [h]
    by_cases hc : m.Options.CustomTerraformDir = ""
    · simp only [hc, ne_eq, not_true_eq_false, if_false] at hread hdet
      simp [runnerImpl.Detonate, hs, hg, hc, World.call, World.enter, hread, hdet,
        runnerImpl.setState]
      simp [runnerImpl.GetState, hc]
    · simp only [hc, ne_eq, not_false_eq_true, if_true] at hread hdet
      simp [runnerImpl.Detonate, hs, hg, hc, World.call, World.enter, hread, hdet,
        runnerImpl.setState]
      simp [runnerImpl.GetState, hc, AttackTechniqueStatusDetonated]

/-- C1 at explicit inputs: a detonated, non-idempotent technique without
force is refused with nothing but the entry recorded; the same technique with
force is detonated again. -/
theorem C1_detonate_in_detonated_state_witness :
    ((demoRunner (scriptedTechnique false (some [1]) none none) "DETONATED"
        ⟨false, false, "", ""⟩ okTerraform).Detonate
        (demoWorld okTerraform ⟨"DETONATED", []⟩)).w.calls = [Event.Detonate] ∧
    ((demoRunner (scriptedTechnique false (some [1]) none none) "DETONATED"
        ⟨true, false, "", ""⟩ okTerraform).Detonate
        (demoWorld okTerraform ⟨"DETONATED", []⟩)).val = none :=
  ⟨((C1_detonate_in_detonated_state
      (demoRunner (scriptedTechnique false (some [1]) none none) "DETONATED"
        ⟨false, false, "", ""⟩ okTerraform)
      (demoWorld okTerraform ⟨"DETONATED", []⟩) (by decide)).1 ⟨rfl, rfl⟩).2.2.2.1,
   ((C1_detonate_in_detonated_state
      (demoRunner (scriptedTechnique false (some [1]) none none) "DETONATED"
        ⟨true, false, "", ""⟩ okTerraform)
      (demoWorld okTerraform ⟨"DETONATED", []⟩) (by decide)).2 (Or.inr rfl) (by decide)
        (by decide)).1⟩

/-! ## C2 -/

/-- C2, the claim as stated fails: a COLD technique whose warm-up succeeds and
whose detonation capability fails. The capability is invoked and returns an
error, the state before `Detonate` is COLD and the state after it is WARM. -/
theorem C2_counterexample :
    Event.TechniqueDetonate [("endpoint", "x")] ⟨⟨[4, 2]⟩⟩ (some ⟨"boom", false⟩) ∈
      ((demoRunner (scriptedTechnique false (some [1]) (some ⟨"boom", false⟩) none) "COLD"
        ⟨false, false, "", ""⟩ okTerraform).Detonate
        (demoWorld okTerraform ⟨"COLD", []⟩)).w.calls ∧
    (demoRunner (scriptedTechnique false (some [1]) (some ⟨"boom", false⟩) none) "COLD"
        ⟨false, false, "", ""⟩ okTerraform).GetState = "COLD" ∧
    ((demoRunner (scriptedTechnique false (some [1]) (some ⟨"boom", false⟩) none) "COLD"
        ⟨false, false, "", ""⟩ okTerraform).Detonate
        (demoWorld okTerraform ⟨"COLD", []⟩)).m.GetState = "WARM" ∧
    ((demoRunner (scriptedTechnique false (some [1]) (some ⟨"boom", false⟩) none) "COLD"
        ⟨false, false, "", ""⟩ okTerraform).Detonate
        (demoWorld okTerraform ⟨"COLD", []⟩)).m.GetState ≠
      (demoRunner (scriptedTechnique false (some [1]) (some ⟨"boom", false⟩) none) "COLD"
        ⟨false, false, "", ""⟩ okTerraform).GetState := by
  decide

/-- C2 (amended): when `Detonate` invokes the detonation capability and the
capability returns the error `e`, `Detonate` returns a new error whose message
is the technique identifier and the message of `e` in context (so it contains
both), and `Detonate` makes no state transition of its own: the state after
it is the state before it when no apply succeeded during the call, and WARM
when the `WarmUp` inside `Detonate` applied the prerequisites. -/
theorem C2_failed_detonation {σ : Type} (m : runnerImpl σ) (w : World σ)
    (outputs : Outputs) (providers : CloudProvidersImpl) (e : GoError)
    (hw : w.calls = [])
    (hcall : Event.TechniqueDetonate outputs providers (some e) ∈ (m.Detonate w).w.calls) :
    ∃ err, (m.Detonate w).val = some err ∧
      err = errors.New ("Error while detonating attack technique " ++ m.Technique.ID ++
        ": " ++ e.Error) ∧
      strings.Contains err.Error m.Technique.ID = true ∧
      strings.Contains err.Error e.Error = true ∧
      ((∀ o, Event.TerraformInitAndApply m.TerraformDir o none ∉ (m.Detonate w).w.calls) →
        (m.Detonate w).m.GetState = m.GetState) ∧
      ((∃ o, Event.TerraformInitAndApply m.TerraformDir o none ∈ (m.Detonate w).w.calls) →
        (m.Detonate w).m.GetState = AttackTechniqueStatusWarm) := by
  by_cases hg : m.GetState = AttackTechniqueStatusDetonated ∧
      m.Technique.IsIdempotent = false ∧ m.Options.Force = false
  · rw [Detonate_guard m w hg.1 hg.2.1 hg.2.2] at hcall
    simp [World.enter, hw] at hcall
  · obtain ⟨hnodet, hm⟩ := Detonate_resolve_summary m w _ rfl
    obtain ⟨hA, hB⟩ := Detonate_after_resolve m w _ hg rfl
    generalize (if m.GetState = AttackTechniqueStatusDetonated then
        (if m.Options.CustomTerraformDir ≠ "" then
          (⟨((w.enter Event.Detonate).call (m.TerraformManager.TerraformOutput m.TerraformDir)
              (fun r => Event.TerraformOutput m.TerraformDir r.1 r.2)).1, m,
            ((w.enter Event.Detonate).call (m.TerraformManager.TerraformOutput m.TerraformDir)
              (fun r => Event.TerraformOutput m.TerraformDir r.1 r.2)).2⟩ :
            Ret σ (Outputs × Option GoError))
        else
          ⟨((w.enter Event.Detonate).call m.StateManager.GetTerraformOutputs
              (fun r => Event.GetTerraformOutputs r.1 r.2)).1, m,
            ((w.enter Event.Detonate).call m.StateManager.GetTerraformOutputs
              (fun r => Event.GetTerraformOutputs r.1 r.2)).2⟩)
      else m.WarmUp (w.enter Event.Detonate)) = r at hnodet hm hA hB
    have hnodet' : ∀ o p e, Event.TechniqueDetonate o p e ∉ r.w.calls := by
      intro o p e h
      have := hnodet o p e h
      simp [hw] at this
    have hT : r.m.Technique = m.Technique := by
      rcases hm with ⟨h, -⟩ | ⟨h, -⟩ <;> rw [h]
    cases hv : r.val.2 with
    | some err =>
      rw [hA err hv] at hcall
      exact absurd hcall (hnodet' _ _ _)
    | none =>
      obtain ⟨hB1, hB2⟩ := hB hv
      cases hd : (r.m.Technique.Detonate r.val.1 r.m.ProviderFactory r.w.ext).1 with
      | none =>
        rw [hB2 hd] at hcall
        by_cases hc : r.m.Options.CustomTerraformDir = ""
        · simp [runnerImpl.setState, hc, World.call, hnodet'] at hcall
        · simp [runnerImpl.setState, hc, hnodet'] at hcall
      | some err =>
        rw [hB1 err hd] at hcall ⊢
        have he : e = err := by
          simp [hnodet'] at hcall
          exact hcall.2.2
        subst he
        refine ⟨_, rfl, by rw [hT], ?_, ?_, ?_, ?_⟩
        · simp only [errors.New]
          rw [String.append_assoc, hT]
          exact strings_Contains_mid _ _ _
        · exact strings_Contains_suffix _ _
        · intro hno
          rcases hm with ⟨h, -⟩ | ⟨-, o, ho⟩
          · simp [h]
          · exact absurd (List.mem_append_left _ ho) (hno o)
        · rintro ⟨o, ho⟩
          rcases hm with ⟨-, h⟩ | ⟨h, -⟩
          · simp at ho
            have := h o ho
            simp [hw] at this
          · simp [h, GetState_withWarm]

/-- C2 (amended) at explicit inputs: a WARM technique whose detonation
capability fails stays WARM, and the error names the technique and carries
the message `boom`. -/
theorem C2_failed_detonation_witness :
    ∃ err, ((demoRunner (scriptedTechnique false (some [1]) (some ⟨"boom", false⟩) none) "WARM"
        ⟨false, false, "", ""⟩ okTerraform).Detonate
        (demoWorld okTerraform ⟨"WARM", [("endpoint", "x")]⟩)).val = some err ∧
      err = errors.New ("Error while detonating attack technique " ++ "aws.demo.technique" ++
        ": " ++ "boom") ∧
      strings.Contains err.Error "aws.demo.technique" = true ∧
      strings.Contains err.Error "boom" = true ∧
      ((∀ o, Event.TerraformInitAndApply "/home/.stratus-red-team/aws.demo.technique" o none ∉
        ((demoRunner (scriptedTechnique false (some [1]) (some ⟨"boom", false⟩) none) "WARM"
          ⟨false, false, "", ""⟩ okTerraform).Detonate
          (demoWorld okTerraform ⟨"WARM", [("endpoint", "x")]⟩)).w.calls) →
        ((demoRunner (scriptedTechnique false (some [1]) (some ⟨"boom", false⟩) none) "WARM"
          ⟨false, false, "", ""⟩ okTerraform).Detonate
          (demoWorld okTerraform ⟨"WARM", [("endpoint", "x")]⟩)).m.GetState = "WARM") ∧
      ((∃ o, Event.TerraformInitAndApply "/home/.stratus-red-team/aws.demo.technique" o none ∈
        ((demoRunner (scriptedTechnique false (some [1]) (some ⟨"boom", false⟩) none) "WARM"
          ⟨false, false, "", ""⟩ okTerraform).Detonate
          (demoWorld okTerraform ⟨"WARM", [("endpoint", "x")]⟩)).w.calls) →
        ((demoRunner (scriptedTechnique false (some [1]) (some ⟨"boom", false⟩) none) "WARM"
          ⟨false, false, "", ""⟩ okTerraform).Detonate
          (demoWorld okTerraform ⟨"WARM", [("endpoint", "x")]⟩)).m.GetState =
          AttackTechniqueStatusWarm) :=
  C2_failed_detonation
    (demoRunner (scriptedTechnique false (some [1]) (some ⟨"boom", false⟩) none) "WARM"
      ⟨false, false, "", ""⟩ okTerraform)
    (demoWorld okTerraform ⟨"WARM", [("endpoint", "x")]⟩)
    [("endpoint", "x")] ⟨⟨[4, 2]⟩⟩ ⟨"boom", false⟩ rfl (by decide)

/-! ## C3 -/

/-- C3, the claim as stated fails: with force set and the state DETONATED,
`WarmUp` of a technique with prerequisite content makes no apply call; it
extracts the content, reads the outputs kept by persistence and returns
them. -/
theorem C3_counterexample :
    ((demoRunner (scriptedTechnique false (some [1]) none none) "DETONATED"
        ⟨true, false, "", ""⟩ okTerraform).WarmUp
        (demoWorld okTerraform ⟨"DETONATED", [("endpoint", "old")]⟩)).w.calls =
      [Event.WarmUp, Event.ExtractTechnique none,
        Event.GetTerraformOutputs [("endpoint", "old")] none] ∧
    ((demoRunner (scriptedTechnique false (some [1]) none none) "DETONATED"
        ⟨true, false, "", ""⟩ okTerraform).WarmUp
        (demoWorld okTerraform ⟨"DETONATED", [("endpoint", "old")]⟩)).val =
      ([("endpoint", "old")], none) := by
  decide

/-- C3 (amended): for a technique with prerequisite content or a custom
directory, with no-warmup unset and materialization succeeding, `WarmUp`
skips provisioning exactly when the state is WARM and force is not set, or
the state is DETONATED (whether or not force is set). When it skips, it
records its entry, the extraction (without a custom directory) and one
`GetTerraformOutputs` call whose result it returns, and the receiver is
unchanged; in every other case the next call it records is
`TerraformInitAndApply` on the working directory. -/
theorem C3_warmup_skips_iff {σ : Type} (m : runnerImpl σ) (w : World σ)
    (h1 : m.Technique.PrerequisitesTerraformCode ≠ none ∨ m.Options.CustomTerraformDir ≠ "")
    (h2 : m.Options.NoWarmup = false)
    (hx : m.Options.CustomTerraformDir = "" → (m.StateManager.ExtractTechnique w.ext).1 = none) :
    (((m.GetState = AttackTechniqueStatusWarm ∧ m.Options.Force = false) ∨
        m.GetState = AttackTechniqueStatusDetonated) →
      (m.WarmUp w).val =
        (m.StateManager.GetTerraformOutputs
          (if m.Options.CustomTerraformDir = "" then
            (m.StateManager.ExtractTechnique w.ext).2 else w.ext)).1 ∧
      (m.WarmUp w).m = m ∧
      (m.WarmUp w).w.calls = w.calls ++ Event.WarmUp ::
        ((if m.Options.CustomTerraformDir = "" then [Event.ExtractTechnique none] else []) ++
          [Event.GetTerraformOutputs (m.WarmUp w).val.1 (m.WarmUp w).val.2])) ∧
    (¬ ((m.GetState = AttackTechniqueStatusWarm ∧ m.Options.Force = false) ∨
        m.GetState = AttackTechniqueStatusDetonated) →
      ∃ rest, (m.WarmUp w).w.calls = w.calls ++ Event.WarmUp ::
        ((if m.Options.CustomTerraformDir = "" then [Event.ExtractTechnique none] else []) ++
          Event.TerraformInitAndApply m.TerraformDir
            (m.TerraformManager.TerraformInitAndApply m.TerraformDir
              (if m.Options.CustomTerraformDir = "" then
                (m.StateManager.ExtractTechnique w.ext).2 else w.ext)).1.1
            (m.TerraformManager.TerraformInitAndApply m.TerraformDir
              (if m.Options.CustomTerraformDir = "" then
                (m.StateManager.ExtractTechnique w.ext).2 else w.ext)).1.2 :: rest)) := by
  have h1' : ¬ (m.Technique.PrerequisitesTerraformCode = none ∧
      m.Options.CustomTerraformDir = "") := by
    rintro ⟨ha, hb⟩
    rcases h1 with h | h
    · exact h ha
    · exact h hb
  have hw1 := WarmUp_extract_world m w hx
  rw [GetState_eq_warm_iff, GetState_eq_detonated_iff]
  constructor
  · intro hs
    rw [WarmUp_skip m w _ h1' h2 hw1 hs]
    by_cases hc : m.Options.CustomTerraformDir = "" <;> simp [World.call, hc]
  · intro hs
    have hs1 : ¬ (m.TechniqueState = AttackTechniqueStatusWarm ∧ m.Options.Force = false) :=
      fun h => hs (Or.inl h)
    have hd : m.TechniqueState ≠ AttackTechniqueStatusDetonated := fun h => hs (Or.inr h)
    cases ha : (m.TerraformManager.TerraformInitAndApply m.TerraformDir
        (if m.Options.CustomTerraformDir = "" then
          (m.StateManager.ExtractTechnique w.ext).2 else w.ext)).1.2 with
    | some err =>
      rw [WarmUp_apply_fail m w _ err h1' h2 hw1 hs1 hd ha]
      refine ⟨[Event.TerraformDestroy m.TerraformDir
        (m.TerraformManager.TerraformDestroy m.TerraformDir
          (m.TerraformManager.TerraformInitAndApply m.TerraformDir
            (if m.Options.CustomTerraformDir = "" then
              (m.StateManager.ExtractTechnique w.ext).2 else w.ext)).2).1], ?_⟩
      by_cases hc : m.Options.CustomTerraformDir = "" <;> simp [hc]
    | none =>
      obtain ⟨-, -, -, hcalls⟩ := WarmUp_apply_ok m w _ h1' h2 hw1 hs1 hd ha
      rw [hcalls]
      refine ⟨(if m.Options.CustomTerraformDir = "" then
        [Event.WriteTerraformOutputs
          (m.TerraformManager.TerraformInitAndApply m.TerraformDir
            (m.StateManager.ExtractTechnique w.ext).2).1.1
          (m.StateManager.WriteTerraformOutputs
            (m.TerraformManager.TerraformInitAndApply m.TerraformDir
              (m.StateManager.ExtractTechnique w.ext).2).1.1
            (m.TerraformManager.TerraformInitAndApply m.TerraformDir
              (m.StateManager.ExtractTechnique w.ext).2).2).1,
         Event.SetTechniqueState AttackTechniqueStatusWarm
          (m.StateManager.SetTechniqueState AttackTechniqueStatusWarm
            (m.StateManager.WriteTerraformOutputs
              (m.TerraformManager.TerraformInitAndApply m.TerraformDir
                (m.StateManager.ExtractTechnique w.ext).2).1.1
              (m.TerraformManager.TerraformInitAndApply m.TerraformDir
                (m.StateManager.ExtractTechnique w.ext).2).2).2).1]
      else []), ?_⟩
      by_cases hc : m.Options.CustomTerraformDir = "" <;> simp [hc]

/-- C3 (amended) at explicit inputs: a COLD technique with prerequisite
content is provisioned (the apply call follows the extraction). -/
theorem C3_warmup_skips_iff_witness :
    ∃ rest, ((demoRunner (scriptedTechnique false (some [1]) none none) "COLD"
        ⟨false, false, "", ""⟩ okTerraform).WarmUp
        (demoWorld okTerraform ⟨"COLD", []⟩)).w.calls =
      [] ++ Event.WarmUp :: ([Event.ExtractTechnique none] ++
        Event.TerraformInitAndApply "/home/.stratus-red-team/aws.demo.technique"
          [("endpoint", "x")] none :: rest) :=
  (C3_warmup_skips_iff
    (demoRunner (scriptedTechnique false (some [1]) none none) "COLD"
      ⟨false, false, "", ""⟩ okTerraform)
    (demoWorld okTerraform ⟨"COLD", []⟩) (Or.inl (by decide)) rfl (fun _ => rfl)).2 (by decide)

/-! ## C4 -/

/-- C4, the claim as stated fails, in two places. (1) `WarmUp`: apply fails
with an ordinary error and the best-effort destroy that follows returns
`context.Canceled`; `WarmUp` drops the result of that destroy and returns the
provisioning error. (2) `Revert` with a custom directory: `TerraformOutput`
returns `context.Canceled`; `Revert` returns a new error built from its
message, which is not a cancellation. -/
theorem C4_counterexample :
    (Event.TerraformDestroy "/home/.stratus-red-team/aws.demo.technique"
        (some context.Canceled) ∈
      ((demoRunner (scriptedTechnique false (some [1]) none none) "COLD" ⟨false, false, "", ""⟩
        (scriptedTerraform ([], some ⟨"boom", false⟩) (some context.Canceled) ([], none))).WarmUp
        (demoWorld okTerraform ⟨"COLD", []⟩)).w.calls ∧
     ((demoRunner (scriptedTechnique false (some [1]) none none) "COLD" ⟨false, false, "", ""⟩
        (scriptedTerraform ([], some ⟨"boom", false⟩) (some context.Canceled) ([], none))).WarmUp
        (demoWorld okTerraform ⟨"COLD", []⟩)).val.2 =
      some (errors.New "unable to run terraform apply on prerequisite: boom")) ∧
    (Event.TerraformOutput "/tmp/tf" [] (some context.Canceled) ∈
      ((demoRunner (scriptedTechnique false none none (some none)) "DETONATED"
        ⟨false, false, "", "/tmp/tf"⟩
        (scriptedTerraform ([], none) none ([], some context.Canceled))).Revert
        (demoWorld okTerraform ⟨"", []⟩)).w.calls ∧
     ((demoRunner (scriptedTechnique false none none (some none)) "DETONATED"
        ⟨false, false, "", "/tmp/tf"⟩
        (scriptedTerraform ([], none) none ([], some context.Canceled))).Revert
        (demoWorld okTerraform ⟨"", []⟩)).val =
      some (errors.New "unable to retrieve outputs of aws.demo.technique: context canceled") ∧
     errors.Is (errors.New "unable to retrieve outputs of aws.demo.technique: context canceled")
        context.Canceled = false) := by
  decide

/-- C4 (amended): starting from an empty call record, let `err` be a
cancellation error. If the apply call made by `WarmUp` returns `err`, `WarmUp`
returns `err` itself; if the apply call made during `Detonate` (through
`WarmUp`) or the `TerraformOutput` call made by `Detonate` returns `err`,
`Detonate` returns `err` itself; if the `TerraformDestroy` call made by
`CleanUp` returns `err`, `CleanUp` returns `err` itself. -/
theorem C4_cancellation_propagated {σ : Type} (m : runnerImpl σ) (w : World σ) (err : GoError)
    (hw : w.calls = [])
    (hcan : errors.Is err context.Canceled = true) :
    (∀ o, Event.TerraformInitAndApply m.TerraformDir o (some err) ∈ (m.WarmUp w).w.calls →
      (m.WarmUp w).val.2 = some err) ∧
    (∀ o, Event.TerraformInitAndApply m.TerraformDir o (some err) ∈ (m.Detonate w).w.calls →
      (m.Detonate w).val = some err) ∧
    (∀ o, Event.TerraformOutput m.TerraformDir o (some err) ∈ (m.Detonate w).w.calls →
      (m.Detonate w).val = some err) ∧
    (Event.TerraformDestroy m.TerraformDir (some err) ∈ (m.CleanUp w).w.calls →
      (m.CleanUp w).val = some err) := by
  have hdet : ¬ (m.GetState = AttackTechniqueStatusDetonated ∧
        m.Technique.IsIdempotent = false ∧ m.Options.Force = false) →
      ∀ ev : Event, ev ∈ (m.Detonate w).w.calls →
        (∀ o p e, ev ≠ Event.TechniqueDetonate o p e) →
        (∀ e, ev ≠ Event.SetTechniqueState AttackTechniqueStatusDetonated e) →
        ev ≠ Event.Detonate →
        (m.GetState = AttackTechniqueStatusDetonated →
          (∀ e, (if m.Options.CustomTerraformDir ≠ "" then
              m.TerraformManager.TerraformOutput m.TerraformDir w.ext
            else m.StateManager.GetTerraformOutputs w.ext).1.2 = some e →
            (m.Detonate w).val = some e) ∧
          ev = (if m.Options.CustomTerraformDir ≠ "" then
            Event.TerraformOutput m.TerraformDir
              (m.TerraformManager.TerraformOutput m.TerraformDir w.ext).1.1
              (m.TerraformManager.TerraformOutput m.TerraformDir w.ext).1.2
          else
            Event.GetTerraformOutputs (m.StateManager.GetTerraformOutputs w.ext).1.1
              (m.StateManager.GetTerraformOutputs w.ext).1.2)) ∧
        (m.GetState ≠ AttackTechniqueStatusDetonated →
          (∀ e, (m.WarmUp (w.enter Event.Detonate)).val.2 = some e →
            (m.Detonate w).val = some e) ∧
          ev ∈ (m.WarmUp (w.enter Event.Detonate)).w.calls) := by
    intro hg ev hmem h1 h2 h3
    obtain ⟨hA, tail, hcalls, htail⟩ := Detonate_tail_calls m w _ hg rfl
    rw [hcalls] at hmem
    have hmem' := (List.mem_append.1 hmem).resolve_right (by
      intro h
      rcases htail ev h with ⟨o, p, e, rfl⟩ | ⟨e, rfl⟩
      · exact h1 _ _ _ rfl
      · exact h2 _ rfl)
    refine ⟨?_, ?_⟩
    · intro hs
      simp only [hs, if_true] at hA hmem'
      by_cases hc : m.Options.CustomTerraformDir = ""
      · simp only [hc, ne_eq, not_true_eq_false, if_false] at hA hmem' ⊢
        refine ⟨fun e he => hA e (by simpa [World.call, World.enter] using he), ?_⟩
        simp only [World.call, World.enter, hw, List.nil_append, List.cons_append,
          List.mem_cons, List.not_mem_nil, or_false] at hmem'
        exact hmem'.resolve_left h3
      · simp only [hc, ne_eq, not_false_eq_true, if_true] at hA hmem' ⊢
        refine ⟨fun e he => hA e (by simpa [World.call, World.enter] using he), ?_⟩
        simp only [World.call, World.enter, hw, List.nil_append, List.cons_append,
          List.mem_cons, List.not_mem_nil, or_false] at hmem'
        exact hmem'.resolve_left h3
    · intro hs
      simp only [hs, if_false] at hA hmem'
      exact ⟨hA, hmem'⟩
  refine ⟨?_, ?_, ?_, ?_⟩
  · intro o hmem
    obtain ⟨evs, hcalls, -, hfail⟩ := WarmUp_events m w
    rw [hcalls, hw] at hmem
    simp only [List.nil_append, List.mem_cons] at hmem
    rcases hmem with h | h
    · exact Event.noConfusion h
    · rw [hfail o err h, if_pos hcan]
  · intro o hmem
    by_cases hg : m.GetState = AttackTechniqueStatusDetonated ∧
        m.Technique.IsIdempotent = false ∧ m.Options.Force = false
    · rw [Detonate_guard m w hg.1 hg.2.1 hg.2.2] at hmem
      simp [World.enter, hw] at hmem
    · obtain ⟨hD, hW⟩ := hdet hg _ hmem (by simp) (by simp) (by simp)
      by_cases hs : m.GetState = AttackTechniqueStatusDetonated
      · obtain ⟨-, hev⟩ := hD hs
        by_cases hc : m.Options.CustomTerraformDir = "" <;> simp [hc] at hev
      · obtain ⟨hA, hin⟩ := hW hs
        obtain ⟨evs, hcalls, -, hfail⟩ := WarmUp_events m (w.enter Event.Detonate)
        rw [hcalls] at hin
        have hin' : Event.TerraformInitAndApply m.TerraformDir o (some err) ∈ evs := by
          simpa [World.enter, hw] using hin
        have hv := hfail o err hin'
        rw [if_pos hcan] at hv
        exact hA err hv
  · intro o hmem
    by_cases hg : m.GetState = AttackTechniqueStatusDetonated ∧
        m.Technique.IsIdempotent = false ∧ m.Options.Force = false
    · rw [Detonate_guard m w hg.1 hg.2.1 hg.2.2] at hmem
      simp [World.enter, hw] at hmem
    · obtain ⟨hD, hW⟩ := hdet hg _ hmem (by simp) (by simp) (by simp)
      by_cases hs : m.GetState = AttackTechniqueStatusDetonated
      · obtain ⟨hA, hev⟩ := hD hs
        by_cases hc : m.Options.CustomTerraformDir = ""
        · simp [hc] at hev
        · simp only [hc, ne_eq, not_false_eq_true, if_true] at hev hA
          have he := (Event.TerraformOutput.inj hev).2.2
          exact hA err he.symm
      · obtain ⟨-, hin⟩ := hW hs
        obtain ⟨evs, hcalls, hby, -⟩ := WarmUp_events m (w.enter Event.Detonate)
        rw [hcalls] at hin
        have hin' : Event.TerraformOutput m.TerraformDir o (some err) ∈ evs := by
          simpa [World.enter, hw] using hin
        have := hby _ hin'
        simp [Event.byWarmUp] at this
  · intro hmem
    by_cases hg : m.TechniqueState = AttackTechniqueStatusCold ∧ m.Options.Force = false
    · rw [CleanUp_guard m w hg.1 hg.2] at hmem
      simp [World.enter, hw] at hmem
    · obtain ⟨-, hT, hO, hD, hTM, hSM, evs, hcalls, hevs⟩ := CleanUp_revert_step m w _ rfl
      have hnot : Event.TerraformDestroy m.TerraformDir (some err) ∉
          (if (m.Technique.Revert.isSome &&
              (decide (m.GetState = AttackTechniqueStatusDetonated) ||
                decide (m.Options.CustomTerraformDir ≠ ""))) = true
            then m.Revert (w.enter Event.CleanUp)
            else ⟨none, m, w.enter Event.CleanUp⟩).w.calls := by
        rw [hcalls, hw]
        rcases hevs with ⟨-, -, evs', rfl, hby⟩ | ⟨-, -, rfl⟩
        · intro h
          simp only [List.nil_append, List.mem_cons] at h
          rcases h with h | h | h
          · exact Event.noConfusion h
          · exact Event.noConfusion h
          · have := hby _ h
            simp [Event.byRevert] at this
        · simp
      have hA := fun e => CleanUp_revert_abort m w _ e hg rfl
      have hB := fun e => CleanUp_destroy_fail m w _ e hg rfl
      have hC := fun w1 => CleanUp_after_destroy m w w1 _ hg rfl
      generalize (if (m.Technique.Revert.isSome &&
              (decide (m.GetState = AttackTechniqueStatusDetonated) ||
                decide (m.Options.CustomTerraformDir ≠ ""))) = true
            then m.Revert (w.enter Event.CleanUp)
            else ⟨none, m, w.enter Event.CleanUp⟩) = r at hT hO hD hTM hSM hcalls hnot hA hB hC
      by_cases hpass : r.val = none ∨ r.m.Options.Force = true
      · by_cases hneed : (r.m.Technique.PrerequisitesTerraformCode ≠ none ∨
            r.m.Options.CustomTerraformDir ≠ "") ∧ r.m.Options.NoWarmup = false
        · cases hd : (r.m.TerraformManager.TerraformDestroy r.m.TerraformDir r.w.ext).1 with
          | some e1 =>
            rw [hB e1 hpass hneed hd] at hmem ⊢
            simp only [List.mem_append, List.mem_singleton] at hmem
            rcases hmem with h | h
            · exact absurd h hnot
            · have he : err = e1 := by
                have := (Event.TerraformDestroy.inj h).2
                exact Option.some.inj this
              subst he
              simp [hcan]
          | none =>
            exfalso
            obtain ⟨-, h1, h2⟩ := hC
              { os := r.w.os
                ext := (r.m.TerraformManager.TerraformDestroy r.m.TerraformDir r.w.ext).2
                calls := r.w.calls ++ [Event.TerraformDestroy r.m.TerraformDir none] } hpass
              (by simp only [hneed, and_self, if_true, World.call, hd])
            by_cases hc : r.m.Options.CustomTerraformDir = ""
            · rw [(h1 hc).1] at hmem
              simp [hnot] at hmem
            · rw [(h2 hc).1] at hmem
              simp [hnot] at hmem
        · exfalso
          obtain ⟨-, h1, h2⟩ := hC r.w hpass (by simp only [hneed, if_false])
          by_cases hc : r.m.Options.CustomTerraformDir = ""
          · rw [(h1 hc).1] at hmem
            simp [hnot] at hmem
          · rw [(h2 hc).1] at hmem
            exact hnot hmem
      · exfalso
        have hf : r.m.Options.Force = false := by
          cases h : r.m.Options.Force
          · rfl
          · exact absurd (Or.inr h) hpass
        cases hv : r.val with
        | none => exact hpass (Or.inl hv)
        | some e1 =>
          rw [hA e1 hv hf] at hmem
          exact hnot hmem

/-- C4 (amended) at explicit inputs: apply is cancelled during the warm-up of
a COLD technique; `WarmUp` returns `context.Canceled` itself. -/
theorem C4_cancellation_propagated_witness :
    ((demoRunner (scriptedTechnique false (some [1]) none none) "COLD" ⟨false, false, "", ""⟩
        (scriptedTerraform ([], some context.Canceled) none ([], none))).WarmUp
        (demoWorld okTerraform ⟨"COLD", []⟩)).val.2 = some context.Canceled :=
  (C4_cancellation_propagated
    (demoRunner (scriptedTechnique false (some [1]) none none) "COLD" ⟨false, false, "", ""⟩
        (scriptedTerraform ([], some context.Canceled) none ([], none)))
    (demoWorld okTerraform ⟨"COLD", []⟩) context.Canceled rfl (by decide)).1 [] (by decide)

/-! ## C5 -/

/-- C5: when `WarmUp` reaches the apply call and apply returns the error
`err`, the calls recorded are the entry, the extraction (without a custom
directory), the apply and then exactly one `TerraformDestroy` on the same
working directory, and nothing else (no `WriteTerraformOutputs`, no
`SetTechniqueState`); the receiver is unchanged; the error returned is `err`
itself when `err` is a cancellation, and otherwise a new error whose message
contains the message of `err`. The value returned does not depend on the
result of the destroy call. -/
theorem C5_warmup_apply_failure {σ : Type} (m : runnerImpl σ) (w : World σ) (err : GoError)
    (h1 : m.Technique.PrerequisitesTerraformCode ≠ none ∨ m.Options.CustomTerraformDir ≠ "")
    (h2 : m.Options.NoWarmup = false)
    (hx : m.Options.CustomTerraformDir = "" → (m.StateManager.ExtractTechnique w.ext).1 = none)
    (hs : ¬ (m.GetState = AttackTechniqueStatusWarm ∧ m.Options.Force = false))
    (hd : m.GetState ≠ AttackTechniqueStatusDetonated)
    (ha : (m.TerraformManager.TerraformInitAndApply m.TerraformDir
        (if m.Options.CustomTerraformDir = "" then
          (m.StateManager.ExtractTechnique w.ext).2 else w.ext)).1.2 = some err) :
    (m.WarmUp w).w.calls = w.calls ++ Event.WarmUp ::
      ((if m.Options.CustomTerraformDir = "" then [Event.ExtractTechnique none] else []) ++
        [Event.TerraformInitAndApply m.TerraformDir
          (m.TerraformManager.TerraformInitAndApply m.TerraformDir
            (if m.Options.CustomTerraformDir = "" then
              (m.StateManager.ExtractTechnique w.ext).2 else w.ext)).1.1 (some err),
         Event.TerraformDestroy m.TerraformDir
          (m.TerraformManager.TerraformDestroy m.TerraformDir
            (m.TerraformManager.TerraformInitAndApply m.TerraformDir
              (if m.Options.CustomTerraformDir = "" then
                (m.StateManager.ExtractTechnique w.ext).2 else w.ext)).2).1]) ∧
    (m.WarmUp w).m = m ∧
    (m.WarmUp w).m.GetState = m.GetState ∧
    (m.WarmUp w).val.1 = [] ∧
    (errors.Is err context.Canceled = true → (m.WarmUp w).val.2 = some err) ∧
    (errors.Is err context.Canceled = false →
      (m.WarmUp w).val.2 = some (errors.New ("unable to run terraform apply on prerequisite: " ++
        errorMessageFromTerraformError err)) ∧
      strings.Contains ("unable to run terraform apply on prerequisite: " ++
        errorMessageFromTerraformError err) err.Error = true) := by
  have h1' : ¬ (m.Technique.PrerequisitesTerraformCode = none ∧
      m.Options.CustomTerraformDir = "") := by
    rintro ⟨ha, hb⟩
    rcases h1 with h | h
    · exact h ha
    · exact h hb
  have hw1 := WarmUp_extract_world m w hx
  rw [GetState_eq_warm_iff] at hs
  rw [Ne, GetState_eq_detonated_iff] at hd
  rw [WarmUp_apply_fail m w _ err h1' h2 hw1 hs hd ha]
  refine ⟨?_, rfl, rfl, rfl, ?_, ?_⟩
  · by_cases hc : m.Options.CustomTerraformDir = "" <;> simp [hc]
  · intro hcan
    simp [hcan]
  · intro hcan
    exact ⟨by simp [hcan], strings_Contains_terraform_message _ _⟩

/-- C5 at explicit inputs: apply fails with `boom` for a COLD technique;
destroy follows once on the same directory and its own failure is not what
`WarmUp` returns. -/
theorem C5_warmup_apply_failure_witness :
    ((demoRunner (scriptedTechnique false (some [1]) none none) "COLD" ⟨false, false, "", ""⟩
        (scriptedTerraform ([], some ⟨"boom", false⟩) (some ⟨"destroy failed", false⟩)
          ([], none))).WarmUp
        (demoWorld okTerraform ⟨"COLD", []⟩)).w.calls =
      [Event.WarmUp, Event.ExtractTechnique none,
        Event.TerraformInitAndApply "/home/.stratus-red-team/aws.demo.technique" []
          (some ⟨"boom", false⟩),
        Event.TerraformDestroy "/home/.stratus-red-team/aws.demo.technique"
          (some ⟨"destroy failed", false⟩)] ∧
    ((demoRunner (scriptedTechnique false (some [1]) none none) "COLD" ⟨false, false, "", ""⟩
        (scriptedTerraform ([], some ⟨"boom", false⟩) (some ⟨"destroy failed", false⟩)
          ([], none))).WarmUp
        (demoWorld okTerraform ⟨"COLD", []⟩)).val.2 =
      some (errors.New ("unable to run terraform apply on prerequisite: " ++
        errorMessageFromTerraformError ⟨"boom", false⟩)) :=
  ⟨(C5_warmup_apply_failure
      (demoRunner (scriptedTechnique false (some [1]) none none) "COLD" ⟨false, false, "", ""⟩
        (scriptedTerraform ([], some ⟨"boom", false⟩) (some ⟨"destroy failed", false⟩)
          ([], none)))
      (demoWorld okTerraform ⟨"COLD", []⟩) ⟨"boom", false⟩ (Or.inl (by decide)) rfl
      (fun _ => rfl) (by decide) (by decide) rfl).1,
   ((C5_warmup_apply_failure
      (demoRunner (scriptedTechnique false (some [1]) none none) "COLD" ⟨false, false, "", ""⟩
        (scriptedTerraform ([], some ⟨"boom", false⟩) (some ⟨"destroy failed", false⟩)
          ([], none)))
      (demoWorld okTerraform ⟨"COLD", []⟩) ⟨"boom", false⟩ (Or.inl (by decide)) rfl
      (fun _ => rfl) (by decide) (by decide) rfl).2.2.2.2.2 (by decide)).1⟩

/-! ## C6 -/

/-- C6: without force, after a `CleanUp` that returned no error, (a) a second
`CleanUp` on the same runner returns the guard-violation error, records
nothing but its own entry (no `Revert`, no `TerraformDestroy`, no persistence
write), leaves the outside state alone and the state COLD; (b) when no custom
directory is set, the first `CleanUp` passed COLD to `SetTechniqueState`, and
a runner newly built for the same technique and options whose
`GetTechniqueState` call returns that COLD (or no state at all) behaves in
the same way. -/
theorem C6_cleanup_after_cleanup {σ : Type} (m : runnerImpl σ) (w : World σ)
    (hf : m.Options.Force = false) (hok : (m.CleanUp w).val = none) :
    (((m.CleanUp w).m.CleanUp (m.CleanUp w).w).val =
        some (errors.New (m.Technique.ID ++
          " is already COLD and should already be clean, use --force to force cleanup")) ∧
      ((m.CleanUp w).m.CleanUp (m.CleanUp w).w).w.calls =
        (m.CleanUp w).w.calls ++ [Event.CleanUp] ∧
      ((m.CleanUp w).m.CleanUp (m.CleanUp w).w).w.ext = (m.CleanUp w).w.ext ∧
      ((m.CleanUp w).m.CleanUp (m.CleanUp w).w).m.GetState = AttackTechniqueStatusCold) ∧
    (m.Options.CustomTerraformDir = "" →
      (∃ e, Event.SetTechniqueState AttackTechniqueStatusCold e ∈ (m.CleanUp w).w.calls) ∧
      ∀ w2 : World σ, w2.calls = [] →
        (Event.GetTechniqueState AttackTechniqueStatusCold ∈
            (NewRunnerWithContext m.Technique m.Options w2).w.calls ∨
          Event.GetTechniqueState "" ∈
            (NewRunnerWithContext m.Technique m.Options w2).w.calls) →
        ((NewRunnerWithContext m.Technique m.Options w2).m.CleanUp
            (NewRunnerWithContext m.Technique m.Options w2).w).val =
          some (errors.New (m.Technique.ID ++
            " is already COLD and should already be clean, use --force to force cleanup")) ∧
        ((NewRunnerWithContext m.Technique m.Options w2).m.CleanUp
            (NewRunnerWithContext m.Technique m.Options w2).w).w.calls =
          (NewRunnerWithContext m.Technique m.Options w2).w.calls ++ [Event.CleanUp] ∧
        ((NewRunnerWithContext m.Technique m.Options w2).m.CleanUp
            (NewRunnerWithContext m.Technique m.Options w2).w).w.ext =
          (NewRunnerWithContext m.Technique m.Options w2).w.ext ∧
        ((NewRunnerWithContext m.Technique m.Options w2).m.CleanUp
            (NewRunnerWithContext m.Technique m.Options w2).w).m.GetState =
          AttackTechniqueStatusCold) := by
  obtain ⟨hm, hset⟩ := CleanUp_ok m w hok
  have hguard : ∀ (n : runnerImpl σ) (v : World σ),
      n.TechniqueState = AttackTechniqueStatusCold → n.Options = m.Options →
      n.Technique = m.Technique →
      (n.CleanUp v).val = some (errors.New (m.Technique.ID ++
          " is already COLD and should already be clean, use --force to force cleanup")) ∧
      (n.CleanUp v).w.calls = v.calls ++ [Event.CleanUp] ∧
      (n.CleanUp v).w.ext = v.ext ∧
      (n.CleanUp v).m.GetState = AttackTechniqueStatusCold := by
    intro n v hs hO hT
    rw [CleanUp_guard n v hs (by rw [hO]; exact hf), hT]
    refine ⟨rfl, rfl, rfl, ?_⟩
    by_cases hc : n.Options.CustomTerraformDir = "" <;>
      simp [runnerImpl.GetState, hc, hs, AttackTechniqueStatusCold]
  refine ⟨hguard _ _ (by rw [hm]) (by rw [hm]) (by rw [hm]), ?_⟩
  intro hc
  refine ⟨hset hc, ?_⟩
  intro w2 hw2 hread
  obtain ⟨hO, hT, d1, d2, s, hcalls, hst⟩ :=
    NewRunnerWithContext_state m.Technique m.Options w2 hc hw2
  refine hguard _ _ ?_ hO hT
  rw [hst]
  rw [hcalls] at hread
  rcases hread with h | h
  · have hs : s = AttackTechniqueStatusCold := by
      simp at h
      exact h.symm
    simp [hs, AttackTechniqueStatusCold]
  · have hs : s = "" := by
      simp at h
      exact h.symm
    simp [hs]

/-- C6 at explicit inputs: a detonated technique is cleaned up, and the
second `CleanUp` on the same runner is refused with only its entry
recorded. -/
theorem C6_cleanup_after_cleanup_witness :
    (((demoRunner (scriptedTechnique true (some [1]) none none) "DETONATED"
        ⟨false, false, "", ""⟩ okTerraform).CleanUp
        (demoWorld okTerraform ⟨"DETONATED", []⟩)).m.CleanUp
      ((demoRunner (scriptedTechnique true (some [1]) none none) "DETONATED"
        ⟨false, false, "", ""⟩ okTerraform).CleanUp
        (demoWorld okTerraform ⟨"DETONATED", []⟩)).w).w.calls =
      ((demoRunner (scriptedTechnique true (some [1]) none none) "DETONATED"
        ⟨false, false, "", ""⟩ okTerraform).CleanUp
        (demoWorld okTerraform ⟨"DETONATED", []⟩)).w.calls ++ [Event.CleanUp] :=
  (C6_cleanup_after_cleanup
    (demoRunner (scriptedTechnique true (some [1]) none none) "DETONATED"
      ⟨false, false, "", ""⟩ okTerraform)
    (demoWorld okTerraform ⟨"DETONATED", []⟩) rfl (by decide)).1.2.1

/-! ## C7 -/

/-- C7: let `r` be what the revert step of `CleanUp` leaves (the result of
`Revert` when it is invoked) and suppose `CleanUp` passes its guard and that
step (`Revert` not invoked, or successful, or force set). Then (a) when the
technique has prerequisite content or a custom directory is set, and
no-warmup is not set, `CleanUp` records exactly one more `TerraformDestroy`,
on the working directory; (b) otherwise it records none; (c) if that destroy
returns an error, `CleanUp` returns an error, the receiver is as the revert
step left it, the destroy is the last call recorded, and neither
`SetTechniqueState` to COLD nor `CleanupTechnique` is called, whatever force
is; (d) whenever `CleanUp` returns no error the state is COLD. -/
theorem C7_cleanup_destroy {σ : Type} (m : runnerImpl σ) (w : World σ)
    (r : Ret σ (Option GoError))
    (hr : r = (if (m.Technique.Revert.isSome &&
          (decide (m.GetState = AttackTechniqueStatusDetonated) ||
            decide (m.Options.CustomTerraformDir ≠ ""))) = true
        then m.Revert (w.enter Event.CleanUp) else ⟨none, m, w.enter Event.CleanUp⟩))
    (hg : ¬ (m.TechniqueState = AttackTechniqueStatusCold ∧ m.Options.Force = false))
    (hpass : r.val = none ∨ m.Options.Force = true) :
    ((m.Technique.PrerequisitesTerraformCode ≠ none ∨ m.Options.CustomTerraformDir ≠ "") ∧
        m.Options.NoWarmup = false →
      (m.CleanUp w).w.calls.countP Event.isTerraformDestroy =
        w.calls.countP Event.isTerraformDestroy + 1 ∧
      Event.TerraformDestroy m.TerraformDir
        (m.TerraformManager.TerraformDestroy m.TerraformDir r.w.ext).1 ∈ (m.CleanUp w).w.calls) ∧
    (¬ ((m.Technique.PrerequisitesTerraformCode ≠ none ∨ m.Options.CustomTerraformDir ≠ "") ∧
        m.Options.NoWarmup = false) →
      (m.CleanUp w).w.calls.countP Event.isTerraformDestroy =
        w.calls.countP Event.isTerraformDestroy) ∧
    ((m.Technique.PrerequisitesTerraformCode ≠ none ∨ m.Options.CustomTerraformDir ≠ "") ∧
        m.Options.NoWarmup = false →
      ∀ err, (m.TerraformManager.TerraformDestroy m.TerraformDir r.w.ext).1 = some err →
        (m.CleanUp w).val = some (if errors.Is err context.Canceled then err
          else errors.New ("unable to cleanup TTP prerequisites: " ++
            errorMessageFromTerraformError err)) ∧
        (m.CleanUp w).m = r.m ∧
        (m.CleanUp w).w.calls = r.w.calls ++ [Event.TerraformDestroy m.TerraformDir (some err)] ∧
        (∀ e, Event.SetTechniqueState AttackTechniqueStatusCold e ∈ (m.CleanUp w).w.calls →
          Event.SetTechniqueState AttackTechniqueStatusCold e ∈ w.calls) ∧
        (∀ e, Event.CleanupTechnique e ∈ (m.CleanUp w).w.calls →
          Event.CleanupTechnique e ∈ w.calls)) ∧
    ((m.CleanUp w).val = none → (m.CleanUp w).m.GetState = AttackTechniqueStatusCold) := by
  have hr' := hr.symm
  obtain ⟨-, hT, hO, hD, hTM, hSM, -⟩ := CleanUp_revert_step m w r hr'
  obtain ⟨hcount, hnoclean, hnocold⟩ := CleanUp_revert_step_calls m w r hr'
  have hpass' : r.val = none ∨ r.m.Options.Force = true := by rw [hO]; exact hpass
  have hB := fun e => CleanUp_destroy_fail m w r e hg hr' hpass'
  have hC := fun w1 => CleanUp_after_destroy m w w1 r hg hr' hpass'
  simp only [hT, hO, hD, hTM, hSM] at hB hC
  have hlast : (m.CleanUp w).val = none →
      (m.CleanUp w).m.GetState = AttackTechniqueStatusCold := by
    intro hv
    rw [(CleanUp_ok m w hv).1]
    by_cases hc : m.Options.CustomTerraformDir = "" <;>
      simp [runnerImpl.GetState, hc, AttackTechniqueStatusCold]
  refine ⟨?_, ?_, ?_, hlast⟩
  · intro hneed
    cases hd : (m.TerraformManager.TerraformDestroy m.TerraformDir r.w.ext).1 with
    | some e1 =>
      rw [hB e1 hneed hd]
      simp [List.countP_append, hcount, Event.isTerraformDestroy]
    | none =>
      obtain ⟨-, h1, h2⟩ := hC
        { os := r.w.os
          ext := (m.TerraformManager.TerraformDestroy m.TerraformDir r.w.ext).2
          calls := r.w.calls ++ [Event.TerraformDestroy m.TerraformDir none] }
        (by simp only [hneed, and_self, if_true, World.call, hd])
      by_cases hc : m.Options.CustomTerraformDir = ""
      · rw [(h1 hc).1]
        simp [List.countP_append, hcount, Event.isTerraformDestroy]
      · rw [(h2 hc).1]
        simp [List.countP_append, hcount, Event.isTerraformDestroy]
  · intro hneed
    obtain ⟨-, h1, h2⟩ := hC r.w (by simp only [hneed, if_false])
    by_cases hc : m.Options.CustomTerraformDir = ""
    · rw [(h1 hc).1]
      simp [List.countP_append, hcount, Event.isTerraformDestroy]
    · rw [(h2 hc).1]
      exact hcount
  · intro hneed err hd
    rw [hB err hneed hd]
    refine ⟨rfl, rfl, rfl, ?_, ?_⟩
    · intro e h
      simp only [List.mem_append, List.mem_singleton] at h
      rcases h with h | h
      · exact hnocold e h
      · exact Event.noConfusion h
    · intro e h
      simp only [List.mem_append, List.mem_singleton] at h
      rcases h with h | h
      · exact hnoclean e h
      · exact Event.noConfusion h

/-- C7 at explicit inputs: the forced clean-up of a WARM technique whose
destroy fails returns the provisioning error and leaves the state WARM. -/
theorem C7_cleanup_destroy_witness :
    ((demoRunner (scriptedTechnique true (some [1]) none none) "WARM" ⟨true, false, "", ""⟩
        (scriptedTerraform ([], none) (some ⟨"boom", false⟩) ([], none))).CleanUp
        (demoWorld okTerraform ⟨"WARM", []⟩)).val =
      some (if errors.Is ⟨"boom", false⟩ context.Canceled then ⟨"boom", false⟩
        else errors.New ("unable to cleanup TTP prerequisites: " ++
          errorMessageFromTerraformError ⟨"boom", false⟩)) ∧
    ((demoRunner (scriptedTechnique true (some [1]) none none) "WARM" ⟨true, false, "", ""⟩
        (scriptedTerraform ([], none) (some ⟨"boom", false⟩) ([], none))).CleanUp
        (demoWorld okTerraform ⟨"WARM", []⟩)).m.TechniqueState = "WARM" :=
  ⟨((C7_cleanup_destroy
      (demoRunner (scriptedTechnique true (some [1]) none none) "WARM" ⟨true, false, "", ""⟩
        (scriptedTerraform ([], none) (some ⟨"boom", false⟩) ([], none)))
      (demoWorld okTerraform ⟨"WARM", []⟩) _ rfl (by decide) (Or.inr rfl)).2.2.1
        ⟨Or.inl (by decide), rfl⟩ ⟨"boom", false⟩ (by decide)).1,
   congrArg runnerImpl.TechniqueState
    ((C7_cleanup_destroy
      (demoRunner (scriptedTechnique true (some [1]) none none) "WARM" ⟨true, false, "", ""⟩
        (scriptedTerraform ([], none) (some ⟨"boom", false⟩) ([], none)))
      (demoWorld okTerraform ⟨"WARM", []⟩) _ rfl (by decide) (Or.inr rfl)).2.2.1
        ⟨Or.inl (by decide), rfl⟩ ⟨"boom", false⟩ (by decide)).2.1⟩

/-! ## C8 -/

/-- C8: for a `CleanUp` that passes its guard, starting from an empty call
record, (a) `Revert` is entered exactly when the technique has a revert
capability and the state is DETONATED or a custom directory is set; (b) if
that `Revert` returns an error and force is not set, `CleanUp` returns an
error built from it and stops: receiver and world are the ones `Revert` left,
the receiver being unchanged, so there is no `TerraformDestroy`, no
`CleanupTechnique` and no `SetTechniqueState` to COLD; (c) if that `Revert`
returns an error and force is set, `CleanUp` goes on: when the destroy step
applies, `TerraformDestroy` is called once on the working directory in the
world `Revert` left, and when destroy succeeds or does not apply the state
becomes COLD, the error of `Revert` being dropped. What `CleanUp` then
returns is what it returns after a `Revert` that succeeded: the error of a
failed destroy (itself when cancelled, wrapped otherwise); else, with a custom
directory, no error; else `SetTechniqueState` to COLD and `CleanupTechnique`
are called and the result is no error when `CleanupTechnique` succeeds and the
error built from its error otherwise. -/
theorem C8_cleanup_revert_step {σ : Type} (m : runnerImpl σ) (w : World σ)
    (hw : w.calls = [])
    (hg : ¬ (m.TechniqueState = AttackTechniqueStatusCold ∧ m.Options.Force = false)) :
    (Event.Revert ∈ (m.CleanUp w).w.calls ↔
      (m.Technique.Revert ≠ none ∧
        (m.GetState = AttackTechniqueStatusDetonated ∨ m.Options.CustomTerraformDir ≠ ""))) ∧
    (m.Technique.Revert ≠ none ∧
        (m.GetState = AttackTechniqueStatusDetonated ∨ m.Options.CustomTerraformDir ≠ "") →
      ∀ e, (m.Revert (w.enter Event.CleanUp)).val = some e →
        (m.Options.Force = false →
          (m.CleanUp w).val = some (errors.New ("unable to revert detonation of " ++
            m.Technique.ID ++ " before cleaning up (use --force to cleanup anyway): " ++
            e.Error)) ∧
          (m.CleanUp w).m = m ∧
          (m.CleanUp w).w = (m.Revert (w.enter Event.CleanUp)).w ∧
          (m.CleanUp w).w.calls.countP Event.isTerraformDestroy = 0 ∧
          (∀ e', Event.CleanupTechnique e' ∉ (m.CleanUp w).w.calls) ∧
          (∀ e', Event.SetTechniqueState AttackTechniqueStatusCold e' ∉
            (m.CleanUp w).w.calls)) ∧
        (m.Options.Force = true →
          ((m.Technique.PrerequisitesTerraformCode ≠ none ∨
              m.Options.CustomTerraformDir ≠ "") ∧ m.Options.NoWarmup = false →
            (m.CleanUp w).w.calls.countP Event.isTerraformDestroy = 1 ∧
            Event.TerraformDestroy m.TerraformDir
              (m.TerraformManager.TerraformDestroy m.TerraformDir
                (m.Revert (w.enter Event.CleanUp)).w.ext).1 ∈ (m.CleanUp w).w.calls) ∧
          (¬ ((m.Technique.PrerequisitesTerraformCode ≠ none ∨
                m.Options.CustomTerraformDir ≠ "") ∧ m.Options.NoWarmup = false) ∨
              (m.TerraformManager.TerraformDestroy m.TerraformDir
                (m.Revert (w.enter Event.CleanUp)).w.ext).1 = none →
            (m.CleanUp w).m.GetState = AttackTechniqueStatusCold ∧
            (m.Options.CustomTerraformDir ≠ "" → (m.CleanUp w).val = none) ∧
            (m.Options.CustomTerraformDir = "" →
              (m.CleanUp w).val =
                (match (m.StateManager.CleanupTechnique
                    (m.StateManager.SetTechniqueState AttackTechniqueStatusCold
                      (if (m.Technique.PrerequisitesTerraformCode ≠ none ∨
                          m.Options.CustomTerraformDir ≠ "") ∧ m.Options.NoWarmup = false then
                        (m.TerraformManager.TerraformDestroy m.TerraformDir
                          (m.Revert (w.enter Event.CleanUp)).w.ext).2
                      else (m.Revert (w.enter Event.CleanUp)).w.ext)).2).1 with
                | some err => some (errors.New ("unable to remove technique directory " ++
                    m.TerraformDir ++ ": " ++ err.Error))
                | none => none) ∧
              Event.SetTechniqueState AttackTechniqueStatusCold
                (m.StateManager.SetTechniqueState AttackTechniqueStatusCold
                  (if (m.Technique.PrerequisitesTerraformCode ≠ none ∨
                      m.Options.CustomTerraformDir ≠ "") ∧ m.Options.NoWarmup = false then
                    (m.TerraformManager.TerraformDestroy m.TerraformDir
                      (m.Revert (w.enter Event.CleanUp)).w.ext).2
                  else (m.Revert (w.enter Event.CleanUp)).w.ext)).1 ∈ (m.CleanUp w).w.calls ∧
              Event.CleanupTechnique
                (m.StateManager.CleanupTechnique
                  (m.StateManager.SetTechniqueState AttackTechniqueStatusCold
                    (if (m.Technique.PrerequisitesTerraformCode ≠ none ∨
                        m.Options.CustomTerraformDir ≠ "") ∧ m.Options.NoWarmup = false then
                      (m.TerraformManager.TerraformDestroy m.TerraformDir
                        (m.Revert (w.enter Event.CleanUp)).w.ext).2
                    else (m.Revert (w.enter Event.CleanUp)).w.ext)).2).1 ∈
                (m.CleanUp w).w.calls)) ∧
          (∀ e1, (m.Technique.PrerequisitesTerraformCode ≠ none ∨
                m.Options.CustomTerraformDir ≠ "") ∧ m.Options.NoWarmup = false →
              (m.TerraformManager.TerraformDestroy m.TerraformDir
                (m.Revert (w.enter Event.CleanUp)).w.ext).1 = some e1 →
            (m.CleanUp w).val = some (if errors.Is e1 context.Canceled then e1
              else errors.New ("unable to cleanup TTP prerequisites: " ++
                errorMessageFromTerraformError e1))))) := by
  have hsr : (m.Technique.Revert.isSome &&
        (decide (m.GetState = AttackTechniqueStatusDetonated) ||
          decide (m.Options.CustomTerraformDir ≠ ""))) = true ↔
      (m.Technique.Revert ≠ none ∧
        (m.GetState = AttackTechniqueStatusDetonated ∨ m.Options.CustomTerraformDir ≠ "")) := by
    cases m.Technique.Revert <;> simp
  obtain ⟨hfr, hT, hO, hD, hTM, hSM, evs, hcalls, hevs⟩ := CleanUp_revert_step m w _ rfl
  obtain ⟨hcount, hnoclean, hnocold⟩ := CleanUp_revert_step_calls m w _ rfl
  have hA := fun e => CleanUp_revert_abort m w _ e hg rfl
  have hB := fun e => CleanUp_destroy_fail m w _ e hg rfl
  have hC := fun w1 => CleanUp_after_destroy m w w1 _ hg rfl
  generalize hrdef : (if (m.Technique.Revert.isSome &&
          (decide (m.GetState = AttackTechniqueStatusDetonated) ||
            decide (m.Options.CustomTerraformDir ≠ ""))) = true
        then m.Revert (w.enter Event.CleanUp)
        else ⟨none, m, w.enter Event.CleanUp⟩) = r
    at hfr hT hO hD hTM hSM hcalls hevs hcount hnoclean hnocold hA hB hC
  simp only [hT, hO, hD, hTM, hSM] at hA hB hC
  rw [hw] at hcount hnoclean hnocold hcalls
  simp only [List.countP_nil] at hcount
  simp only [List.not_mem_nil, imp_false] at hnoclean hnocold
  simp only [List.nil_append] at hcalls
  -- membership of events in the calls of `CleanUp`, through those of the revert step
  have htail : ∀ ev : Event, ev ∈ (m.CleanUp w).w.calls → ev ∈ r.w.calls ∨
      (∃ e', ev = Event.TerraformDestroy m.TerraformDir e') ∨
      (∃ e', ev = Event.SetTechniqueState AttackTechniqueStatusCold e') ∨
      (∃ e', ev = Event.CleanupTechnique e') := by
    intro ev hev
    by_cases hpass : r.val = none ∨ m.Options.Force = true
    · have key : ∀ w1 : World σ,
          (∀ ev ∈ w1.calls, ev ∈ r.w.calls ∨
            ∃ e', ev = Event.TerraformDestroy m.TerraformDir e') →
          (if (m.Technique.PrerequisitesTerraformCode ≠ none ∨
              m.Options.CustomTerraformDir ≠ "") ∧ m.Options.NoWarmup = false then
            r.w.call (m.TerraformManager.TerraformDestroy m.TerraformDir)
              (Event.TerraformDestroy m.TerraformDir)
          else (none, r.w)) = (none, w1) →
          ev ∈ r.w.calls ∨
            (∃ e', ev = Event.TerraformDestroy m.TerraformDir e') ∨
            (∃ e', ev = Event.SetTechniqueState AttackTechniqueStatusCold e') ∨
            (∃ e', ev = Event.CleanupTechnique e') := by
        intro w1 hw1 hd
        obtain ⟨-, h1, h2⟩ := hC w1 hpass hd
        by_cases hc : m.Options.CustomTerraformDir = ""
        · rw [(h1 hc).1] at hev
          simp only [List.mem_append, List.mem_cons, List.not_mem_nil, or_false] at hev
          rcases hev with h | h | h
          · rcases hw1 ev h with h' | h'
            · exact Or.inl h'
            · exact Or.inr (Or.inl h')
          · exact Or.inr (Or.inr (Or.inl ⟨_, h⟩))
          · exact Or.inr (Or.inr (Or.inr ⟨_, h⟩))
        · rw [(h2 hc).1] at hev
          rcases hw1 ev hev with h' | h'
          · exact Or.inl h'
          · exact Or.inr (Or.inl h')
      by_cases hneed : (m.Technique.PrerequisitesTerraformCode ≠ none ∨
          m.Options.CustomTerraformDir ≠ "") ∧ m.Options.NoWarmup = false
      · cases hd : (m.TerraformManager.TerraformDestroy m.TerraformDir r.w.ext).1 with
        | some e1 =>
          rw [hB e1 hpass hneed hd] at hev
          simp only [List.mem_append, List.mem_singleton] at hev
          rcases hev with h | h
          · exact Or.inl h
          · exact Or.inr (Or.inl ⟨_, h⟩)
        | none =>
          refine key
            { os := r.w.os
              ext := (m.TerraformManager.TerraformDestroy m.TerraformDir r.w.ext).2
              calls := r.w.calls ++ [Event.TerraformDestroy m.TerraformDir none] } ?_
            (by simp only [hneed, and_self, if_true, World.call, hd])
          intro ev' hev'
          simp only [List.mem_append, List.mem_singleton] at hev'
          rcases hev' with h | h
          · exact Or.inl h
          · exact Or.inr ⟨_, h⟩
      · exact key r.w (fun ev' h => Or.inl h) (by simp only [hneed, if_false])
    · have hf : m.Options.Force = false := by
        cases h' : m.Options.Force
        · rfl
        · exact absurd (Or.inr h') hpass
      cases hv : r.val with
      | none => exact absurd (Or.inl hv) hpass
      | some e1 =>
        rw [hA e1 hv hf] at hev
        exact Or.inl hev
  have hsub : ∀ ev ∈ r.w.calls, ev ∈ (m.CleanUp w).w.calls := by
    intro ev hev
    by_cases hpass : r.val = none ∨ m.Options.Force = true
    · have key : ∀ w1 : World σ, (∀ ev ∈ r.w.calls, ev ∈ w1.calls) →
          (if (m.Technique.PrerequisitesTerraformCode ≠ none ∨
              m.Options.CustomTerraformDir ≠ "") ∧ m.Options.NoWarmup = false then
            r.w.call (m.TerraformManager.TerraformDestroy m.TerraformDir)
              (Event.TerraformDestroy m.TerraformDir)
          else (none, r.w)) = (none, w1) → ev ∈ (m.CleanUp w).w.calls := by
        intro w1 hw1 hd
        obtain ⟨-, h1, h2⟩ := hC w1 hpass hd
        by_cases hc : m.Options.CustomTerraformDir = ""
        · rw [(h1 hc).1]
          exact List.mem_append_left _ (hw1 ev hev)
        · rw [(h2 hc).1]
          exact hw1 ev hev
      by_cases hneed : (m.Technique.PrerequisitesTerraformCode ≠ none ∨
          m.Options.CustomTerraformDir ≠ "") ∧ m.Options.NoWarmup = false
      · cases hd : (m.TerraformManager.TerraformDestroy m.TerraformDir r.w.ext).1 with
        | some e1 =>
          rw [hB e1 hpass hneed hd]
          exact List.mem_append_left _ hev
        | none =>
          exact key
            { os := r.w.os
              ext := (m.TerraformManager.TerraformDestroy m.TerraformDir r.w.ext).2
              calls := r.w.calls ++ [Event.TerraformDestroy m.TerraformDir none] }
            (fun ev' h => List.mem_append_left _ h)
            (by simp only [hneed, and_self, if_true, World.call, hd])
      · exact key r.w (fun ev' h => h) (by simp only [hneed, if_false])
    · have hf : m.Options.Force = false := by
        cases h' : m.Options.Force
        · rfl
        · exact absurd (Or.inr h') hpass
      cases hv : r.val with
      | none => exact absurd (Or.inl hv) hpass
      | some e1 =>
        rw [hA e1 hv hf]
        exact hev
  refine ⟨?_, ?_⟩
  · rw [← hsr]
    constructor
    · intro hmem
      rcases htail _ hmem with h | ⟨_, h⟩ | ⟨_, h⟩ | ⟨_, h⟩
      · rcases hevs with ⟨h1, -, -⟩ | ⟨-, -, rfl⟩
        · exact h1
        · rw [hcalls] at h
          simp at h
      · exact Event.noConfusion h
      · exact Event.noConfusion h
      · exact Event.noConfusion h
    · intro hs
      rcases hevs with ⟨-, -, evs', rfl, -⟩ | ⟨h1, -, -⟩
      · exact hsub _ (by rw [hcalls]; simp)
      · rw [hs] at h1
        exact Bool.noConfusion h1
  · intro hs e he
    have hs' := hsr.2 hs
    rw [if_pos hs'] at hrdef
    subst hrdef
    have hm : (m.Revert (w.enter Event.CleanUp)).m = m := by
      rcases hfr with h | ⟨h, -⟩
      · exact h
      · rw [he] at h
        exact Option.noConfusion h
    refine ⟨?_, ?_⟩
    · intro hf
      rw [hA e he hf]
      refine ⟨rfl, hm, rfl, hcount, hnoclean, hnocold⟩
    · intro hf
      have hpass : (m.Revert (w.enter Event.CleanUp)).val = none ∨ m.Options.Force = true :=
        Or.inr hf
      have hcold : ∀ n : runnerImpl σ, n.Options = m.Options →
          ({ n with TechniqueState := AttackTechniqueStatusCold } : runnerImpl σ).GetState =
            AttackTechniqueStatusCold := by
        intro n hn
        by_cases hc : n.Options.CustomTerraformDir = "" <;>
          simp [runnerImpl.GetState, hc, AttackTechniqueStatusCold]
      refine ⟨?_, ?_, ?_⟩
      · intro hneed
        cases hd : (m.TerraformManager.TerraformDestroy m.TerraformDir
            (m.Revert (w.enter Event.CleanUp)).w.ext).1 with
        | some e1 =>
          rw [hB e1 hpass hneed hd]
          simp [List.countP_append, hcount, Event.isTerraformDestroy]
        | none =>
          obtain ⟨-, h1, h2⟩ := hC
            { os := (m.Revert (w.enter Event.CleanUp)).w.os
              ext := (m.TerraformManager.TerraformDestroy m.TerraformDir
                (m.Revert (w.enter Event.CleanUp)).w.ext).2
              calls := (m.Revert (w.enter Event.CleanUp)).w.calls ++
                [Event.TerraformDestroy m.TerraformDir none] } hpass
            (by simp only [hneed, and_self, if_true, World.call, hd])
          by_cases hc : m.Options.CustomTerraformDir = ""
          · rw [(h1 hc).1]
            simp [List.countP_append, hcount, Event.isTerraformDestroy]
          · rw [(h2 hc).1]
            simp [List.countP_append, hcount, Event.isTerraformDestroy]
      · intro hor
        by_cases hneed : (m.Technique.PrerequisitesTerraformCode ≠ none ∨
            m.Options.CustomTerraformDir ≠ "") ∧ m.Options.NoWarmup = false
        · have hd := hor.resolve_left (fun h => h hneed)
          obtain ⟨h0, h1, h2⟩ := hC
            { os := (m.Revert (w.enter Event.CleanUp)).w.os
              ext := (m.TerraformManager.TerraformDestroy m.TerraformDir
                (m.Revert (w.enter Event.CleanUp)).w.ext).2
              calls := (m.Revert (w.enter Event.CleanUp)).w.calls ++
                [Event.TerraformDestroy m.TerraformDir none] } hpass
            (by simp only [hneed, and_self, if_true, World.call, hd])
          refine ⟨by rw [h0]; exact hcold m rfl, fun hc => (h2 hc).2, fun hc => ?_⟩
          rw [if_pos hneed]
          obtain ⟨hcs, hval⟩ := h1 hc
          refine ⟨hval, ?_, ?_⟩
          · rw [hcs]
            exact List.mem_append_right _ (List.mem_cons_self _ _)
          · rw [hcs]
            exact List.mem_append_right _
              (List.mem_cons_of_mem _ (List.mem_singleton.2 rfl))
        · obtain ⟨h0, h1, h2⟩ := hC (m.Revert (w.enter Event.CleanUp)).w hpass
            (by simp only [hneed, if_false])
          refine ⟨by rw [h0]; exact hcold m rfl, fun hc => (h2 hc).2, fun hc => ?_⟩
          rw [if_neg hneed]
          obtain ⟨hcs, hval⟩ := h1 hc
          refine ⟨hval, ?_, ?_⟩
          · rw [hcs]
            exact List.mem_append_right _ (List.mem_cons_self _ _)
          · rw [hcs]
            exact List.mem_append_right _
              (List.mem_cons_of_mem _ (List.mem_singleton.2 rfl))
      · intro e1 hneed hd
        rw [hB e1 hpass hneed hd]

/-- C8 at explicit inputs: a detonated technique whose revert capability
fails with `boom`. Without force `CleanUp` returns the error built from the
error of `Revert` and records no `TerraformDestroy`; with force it returns no
error. -/
theorem C8_cleanup_revert_step_witness :
    ((demoRunner (scriptedTechnique false (some [1]) none (some (some ⟨"boom", false⟩)))
        "DETONATED" ⟨false, false, "", ""⟩ okTerraform).CleanUp
        (demoWorld okTerraform ⟨"DETONATED", []⟩)).val =
      some (errors.New ("unable to revert detonation of " ++ "aws.demo.technique" ++
        " before cleaning up (use --force to cleanup anyway): " ++
        "unable to revert detonation of aws.demo.technique: boom")) ∧
    ((demoRunner (scriptedTechnique false (some [1]) none (some (some ⟨"boom", false⟩)))
        "DETONATED" ⟨false, false, "", ""⟩ okTerraform).CleanUp
        (demoWorld okTerraform ⟨"DETONATED", []⟩)).w.calls.countP Event.isTerraformDestroy = 0 ∧
    ((demoRunner (scriptedTechnique false (some [1]) none (some (some ⟨"boom", false⟩)))
        "DETONATED" ⟨true, false, "", ""⟩ okTerraform).CleanUp
        (demoWorld okTerraform ⟨"DETONATED", []⟩)).val = none :=
  ⟨(((C8_cleanup_revert_step
      (demoRunner (scriptedTechnique false (some [1]) none (some (some ⟨"boom", false⟩)))
        "DETONATED" ⟨false, false, "", ""⟩ okTerraform)
      (demoWorld okTerraform ⟨"DETONATED", []⟩) rfl (by decide)).2
        ⟨by simp [demoRunner, scriptedTechnique], Or.inl (by decide)⟩
        (errors.New "unable to revert detonation of aws.demo.technique: boom")
        (by decide)).1 rfl).1,
   (((C8_cleanup_revert_step
      (demoRunner (scriptedTechnique false (some [1]) none (some (some ⟨"boom", false⟩)))
        "DETONATED" ⟨false, false, "", ""⟩ okTerraform)
      (demoWorld okTerraform ⟨"DETONATED", []⟩) rfl (by decide)).2
        ⟨by simp [demoRunner, scriptedTechnique], Or.inl (by decide)⟩
        (errors.New "unable to revert detonation of aws.demo.technique: boom")
        (by decide)).1 rfl).2.2.2.1,
   ((((((C8_cleanup_revert_step
      (demoRunner (scriptedTechnique false (some [1]) none (some (some ⟨"boom", false⟩)))
        "DETONATED" ⟨true, false, "", ""⟩ okTerraform)
      (demoWorld okTerraform ⟨"DETONATED", []⟩) rfl (by decide)).2
        ⟨by simp [demoRunner, scriptedTechnique], Or.inl (by decide)⟩
        (errors.New "unable to revert detonation of aws.demo.technique: boom")
        (by decide)).2 rfl).2.1 (Or.inr (by decide))).2.2 rfl).1).trans (by decide)⟩

/-! ## C9 -/

/-- C9: `Revert` returns no error if and only if the state is DETONATED or
force is set, the outputs are read without error (`TerraformOutput` on the
working directory with a custom directory, `GetTerraformOutputs` otherwise)
and the technique has no revert capability or its revert capability, called
with those outputs, returns no error. When `Revert` returns no error the
state afterwards is WARM; when it returns an error the receiver, hence the
state, is unchanged; and when the guard fails it records nothing but its own
entry, so the revert capability is not invoked. -/
theorem C9_revert {σ : Type} (m : runnerImpl σ) (w : World σ) :
    ((m.Revert w).val = none ↔
      ((m.GetState = AttackTechniqueStatusDetonated ∨ m.Options.Force = true) ∧
        (if m.Options.CustomTerraformDir ≠ "" then
            m.TerraformManager.TerraformOutput m.TerraformDir w.ext
          else m.StateManager.GetTerraformOutputs w.ext).1.2 = none ∧
        ∀ revert, m.Technique.Revert = some revert →
          (revert
            (if m.Options.CustomTerraformDir ≠ "" then
              m.TerraformManager.TerraformOutput m.TerraformDir w.ext
            else m.StateManager.GetTerraformOutputs w.ext).1.1
            m.ProviderFactory
            (if m.Options.CustomTerraformDir ≠ "" then
              m.TerraformManager.TerraformOutput m.TerraformDir w.ext
            else m.StateManager.GetTerraformOutputs w.ext).2).1 = none)) ∧
    ((m.Revert w).val = none → (m.Revert w).m.GetState = AttackTechniqueStatusWarm) ∧
    ((m.Revert w).val ≠ none →
      (m.Revert w).m = m ∧ (m.Revert w).m.GetState = m.GetState) ∧
    (¬ (m.GetState = AttackTechniqueStatusDetonated ∨ m.Options.Force = true) →
      (m.Revert w).w.calls = w.calls ++ [Event.Revert] ∧ (m.Revert w).w.ext = w.ext) := by
  have hsum := Revert_events m w
  obtain ⟨-, -, -, hm⟩ := hsum
  have hwarm : (m.Revert w).val = none →
      (m.Revert w).m.GetState = AttackTechniqueStatusWarm := by
    intro hv
    rcases hm with ⟨-, h⟩ | ⟨h, -⟩
    · rw [h]
      exact GetState_withWarm m
    · exact absurd hv h
  have hsame : (m.Revert w).val ≠ none →
      (m.Revert w).m = m ∧ (m.Revert w).m.GetState = m.GetState := by
    intro hv
    rcases hm with ⟨h, -⟩ | ⟨-, h⟩
    · exact absurd h hv
    · exact ⟨h, by rw [h]⟩
  refine ⟨?_, hwarm, hsame, ?_⟩
  · by_cases hg : m.GetState = AttackTechniqueStatusDetonated ∨ m.Options.Force = true
    · obtain ⟨hA, hB⟩ := Revert_after_outputs m w _ hg rfl
      have ho1 : (if m.Options.CustomTerraformDir ≠ "" then
            (w.enter Event.Revert).call (m.TerraformManager.TerraformOutput m.TerraformDir)
              (fun r => Event.TerraformOutput m.TerraformDir r.1 r.2)
          else
            (w.enter Event.Revert).call m.StateManager.GetTerraformOutputs
              (fun r => Event.GetTerraformOutputs r.1 r.2)).1 =
          (if m.Options.CustomTerraformDir ≠ "" then
            m.TerraformManager.TerraformOutput m.TerraformDir w.ext
          else m.StateManager.GetTerraformOutputs w.ext).1 := by
        by_cases hc : m.Options.CustomTerraformDir = "" <;> simp [hc, World.call, World.enter]
      have ho2 : (if m.Options.CustomTerraformDir ≠ "" then
            (w.enter Event.Revert).call (m.TerraformManager.TerraformOutput m.TerraformDir)
              (fun r => Event.TerraformOutput m.TerraformDir r.1 r.2)
          else
            (w.enter Event.Revert).call m.StateManager.GetTerraformOutputs
              (fun r => Event.GetTerraformOutputs r.1 r.2)).2.ext =
          (if m.Options.CustomTerraformDir ≠ "" then
            m.TerraformManager.TerraformOutput m.TerraformDir w.ext
          else m.StateManager.GetTerraformOutputs w.ext).2 := by
        by_cases hc : m.Options.CustomTerraformDir = "" <;> simp [hc, World.call, World.enter]
      simp only [ho1, ho2] at hA hB
      generalize (if m.Options.CustomTerraformDir ≠ "" then
            m.TerraformManager.TerraformOutput m.TerraformDir w.ext
          else m.StateManager.GetTerraformOutputs w.ext) = o at hA hB
      cases ho : o.1.2 with
      | some e1 =>
        rw [hA e1 ho]
        exact ⟨fun h => Option.noConfusion h, fun h => Option.noConfusion h.2.1⟩
      | none =>
        obtain ⟨hB1, hB2⟩ := hB ho
        cases hrev : m.Technique.Revert with
        | none =>
          rw [hB2 hrev]
          exact ⟨fun _ => ⟨hg, rfl, fun _ h => Option.noConfusion h⟩, fun _ => rfl⟩
        | some revert =>
          obtain ⟨hC1, hC2⟩ := hB1 revert hrev
          cases hv : (revert o.1.1 m.ProviderFactory o.2).1 with
          | some e2 =>
            rw [hC1 e2 hv]
            refine ⟨fun h => Option.noConfusion h, fun h => ?_⟩
            have := h.2.2 revert rfl
            rw [hv] at this
            exact Option.noConfusion this
          | none =>
            rw [hC2 hv]
            refine ⟨fun _ => ⟨hg, rfl, fun r' h => ?_⟩, fun _ => rfl⟩
            cases h
            exact hv
    · have hs : m.GetState ≠ AttackTechniqueStatusDetonated := fun h => hg (Or.inl h)
      have hf : m.Options.Force = false := by
        cases h : m.Options.Force
        · rfl
        · exact absurd (Or.inr h) hg
      rw [Revert_guard m w hs hf]
      exact ⟨fun h => Option.noConfusion h, fun h => absurd h.1 hg⟩
  · intro hg
    have hs : m.GetState ≠ AttackTechniqueStatusDetonated := fun h => hg (Or.inl h)
    have hf : m.Options.Force = false := by
      cases h : m.Options.Force
      · rfl
      · exact absurd (Or.inr h) hg
    rw [Revert_guard m w hs hf]
    exact ⟨rfl, rfl⟩

/-! ## C10 -/

/-- C10, the claim as stated fails, in two places. (1) A WARM technique
without prerequisite content and without a custom directory: `WarmUp` returns
the empty mapping, so the capability receives `[]` and `GetTerraformOutputs`
is never called, although persistence holds `endpoint = x`. (2) A WARM runner
with a custom directory: `Detonate` goes through `WarmUp`, which reads
`GetTerraformOutputs`; the capability receives what persistence holds
(`endpoint = stale`), `TerraformOutput` is never called. -/
theorem C10_counterexample :
    ((demoRunner (scriptedTechnique false none none none) "WARM"
        ⟨false, false, "", ""⟩ okTerraform).Detonate
        (demoWorld okTerraform ⟨"WARM", [("endpoint", "x")]⟩)).w.calls =
      [Event.Detonate, Event.WarmUp, Event.TechniqueDetonate [] ⟨⟨[4, 2]⟩⟩ none,
        Event.SetTechniqueState "DETONATED" none] ∧
    ((demoRunner (scriptedTechnique false none none none) "WARM"
        ⟨false, false, "", "/tmp/tf"⟩ okTerraform).Detonate
        (demoWorld okTerraform ⟨"", [("endpoint", "stale")]⟩)).w.calls =
      [Event.Detonate, Event.WarmUp, Event.GetTerraformOutputs [("endpoint", "stale")] none,
        Event.TechniqueDetonate [("endpoint", "stale")] ⟨⟨[4, 2]⟩⟩ none] ∧
    (okTerraform.TerraformOutput "/tmp/tf" ⟨"", [("endpoint", "stale")]⟩).1 =
      ([("endpoint", "x")], none) := by
  decide

/-- C10 (amended): for a runner whose state is WARM or DETONATED, with force
not set and the `Detonate` guard satisfied, starting from an empty call
record: (a) `Detonate` records no `TerraformInitAndApply`; (b) in state
DETONATED the outputs passed to the detonation capability are the ones
returned by `TerraformOutput` on the working directory when a custom
directory is set and by `GetTerraformOutputs` otherwise; (c) in state WARM
without a custom directory, with prerequisite content, no-warmup unset and
materialization succeeding, they are the ones returned by
`GetTerraformOutputs` after the extraction; (d) in state WARM without a
custom directory and without prerequisite content they are the empty
mapping; (e) if the capability succeeds, `Detonate` returns no error and the
state is DETONATED. -/
theorem C10_detonate_reads_outputs {σ : Type} (m : runnerImpl σ) (w : World σ)
    (hw : w.calls = [])
    (hf : m.Options.Force = false)
    (hs : m.GetState = AttackTechniqueStatusWarm ∨ m.GetState = AttackTechniqueStatusDetonated)
    (hguard : m.GetState = AttackTechniqueStatusDetonated → m.Technique.IsIdempotent = true) :
    (∀ d o e, Event.TerraformInitAndApply d o e ∉ (m.Detonate w).w.calls) ∧
    (m.GetState = AttackTechniqueStatusDetonated →
      ∀ o p e, Event.TechniqueDetonate o p e ∈ (m.Detonate w).w.calls →
        o = (if m.Options.CustomTerraformDir ≠ "" then
            m.TerraformManager.TerraformOutput m.TerraformDir w.ext
          else m.StateManager.GetTerraformOutputs w.ext).1.1) ∧
    (m.GetState = AttackTechniqueStatusWarm → m.Options.CustomTerraformDir = "" →
      m.Technique.PrerequisitesTerraformCode ≠ none → m.Options.NoWarmup = false →
      (m.StateManager.ExtractTechnique w.ext).1 = none →
      ∀ o p e, Event.TechniqueDetonate o p e ∈ (m.Detonate w).w.calls →
        o = (m.StateManager.GetTerraformOutputs (m.StateManager.ExtractTechnique w.ext).2).1.1) ∧
    (m.GetState = AttackTechniqueStatusWarm → m.Options.CustomTerraformDir = "" →
      m.Technique.PrerequisitesTerraformCode = none →
      ∀ o p e, Event.TechniqueDetonate o p e ∈ (m.Detonate w).w.calls → o = []) ∧
    (∀ o p, Event.TechniqueDetonate o p none ∈ (m.Detonate w).w.calls →
      (m.Detonate w).val = none ∧
      (m.Detonate w).m.GetState = AttackTechniqueStatusDetonated) := by
  have hg : ¬ (m.GetState = AttackTechniqueStatusDetonated ∧
      m.Technique.IsIdempotent = false ∧ m.Options.Force = false) := by
    rintro ⟨h1, h2, -⟩
    rw [hguard h1] at h2
    exact Bool.noConfusion h2
  have hev := Detonate_capability_event m w _ hw rfl
  refine ⟨?_, ?_, ?_, ?_, ?_⟩
  · intro d o e hmem
    obtain ⟨-, tail, hcalls, htail⟩ := Detonate_tail_calls m w _ hg rfl
    rw [hcalls] at hmem
    have hmem' := (List.mem_append.1 hmem).resolve_right (by
      intro h
      rcases htail _ h with ⟨_, _, _, h'⟩ | ⟨_, h'⟩ <;> exact Event.noConfusion h')
    by_cases hd : m.GetState = AttackTechniqueStatusDetonated
    · simp only [hd, if_true] at hmem'
      by_cases hc : m.Options.CustomTerraformDir = "" <;>
        simp [hc, World.call, World.enter, hw] at hmem'
    · simp only [hd, if_false] at hmem'
      have hwarm := hs.resolve_right hd
      rw [GetState_eq_warm_iff] at hwarm
      have := WarmUp_no_apply m (w.enter Event.Detonate) (Or.inl ⟨hwarm, hf⟩) d o e hmem'
      simp [World.enter, hw] at this
  · intro hd o p e hmem
    have h := (hev o p e hmem).1
    simp only [hd, if_true] at h
    by_cases hc : m.Options.CustomTerraformDir = ""
    · simpa [hc, World.call, World.enter] using h
    · simpa [hc, World.call, World.enter] using h
  · intro hwarm hc hcode hnw hx o p e hmem
    have hd : ¬ m.GetState = AttackTechniqueStatusDetonated := by
      rw [hwarm]
      decide
    have h := (hev o p e hmem).1
    simp only [hd, if_false] at h
    have h1 : ¬ (m.Technique.PrerequisitesTerraformCode = none ∧
        m.Options.CustomTerraformDir = "") := fun h' => hcode h'.1
    have hw1 := WarmUp_extract_world m (w.enter Event.Detonate) (fun _ => hx)
    rw [GetState_eq_warm_iff] at hwarm
    rw [WarmUp_skip m (w.enter Event.Detonate) _ h1 hnw hw1 (Or.inl ⟨hwarm, hf⟩)] at h
    simpa [hc, World.call, World.enter] using h
  · intro hwarm hc hcode o p e hmem
    have hd : ¬ m.GetState = AttackTechniqueStatusDetonated := by
      rw [hwarm]
      decide
    have h := (hev o p e hmem).1
    simp only [hd, if_false] at h
    rw [WarmUp_noop m (w.enter Event.Detonate) ⟨hcode, hc⟩] at h
    exact h
  · intro o p hmem
    obtain ⟨-, -, h⟩ := hev o p none hmem
    obtain ⟨hv, hm⟩ := h rfl
    refine ⟨hv, ?_⟩
    rw [hm, GetState_eq_detonated_iff]

/-- C10 (amended) at explicit inputs: a WARM technique with prerequisite
content and no custom directory is detonated with the outputs kept by
persistence, and ends DETONATED. -/
theorem C10_detonate_reads_outputs_witness :
    ((demoRunner (scriptedTechnique false (some [1]) none none) "WARM"
        ⟨false, false, "", ""⟩ okTerraform).Detonate
        (demoWorld okTerraform ⟨"WARM", [("endpoint", "x")]⟩)).val = none ∧
    ((demoRunner (scriptedTechnique false (some [1]) none none) "WARM"
        ⟨false, false, "", ""⟩ okTerraform).Detonate
        (demoWorld okTerraform ⟨"WARM", [("endpoint", "x")]⟩)).m.GetState =
      AttackTechniqueStatusDetonated :=
  (C10_detonate_reads_outputs
    (demoRunner (scriptedTechnique false (some [1]) none none) "WARM"
      ⟨false, false, "", ""⟩ okTerraform)
    (demoWorld okTerraform ⟨"WARM", [("endpoint", "x")]⟩) rfl rfl (Or.inl (by decide))
    (fun h => absurd h (by decide))).2.2.2.2 [("endpoint", "x")] ⟨⟨[4, 2]⟩⟩ (by decide)

/-! ## C11 -/

/-- C11: for a technique with no prerequisite content and options with no
custom directory, whatever force, no-warmup, the outputs path and the current
state are, `WarmUp` returns the empty outputs mapping and no error, leaves the
receiver (hence the state) and the outside state unchanged, and records
nothing but its own entry: no gateway call and no persistence call. -/
theorem C11_warmup_without_prerequisites {σ : Type} (m : runnerImpl σ) (w : World σ)
    (hcode : m.Technique.PrerequisitesTerraformCode = none)
    (hc : m.Options.CustomTerraformDir = "") :
    (m.WarmUp w).val = ([], none) ∧
    (m.WarmUp w).m = m ∧
    (m.WarmUp w).m.GetState = m.GetState ∧
    (m.WarmUp w).w.ext = w.ext ∧
    (m.WarmUp w).w.calls = w.calls ++ [Event.WarmUp] := by
  rw [WarmUp_noop m w ⟨hcode, hc⟩]
  exact ⟨rfl, rfl, rfl, rfl, rfl⟩

/-- C11 at explicit inputs: a DETONATED technique without prerequisite
content, with force and no-warmup set: the only call recorded is the entry. -/
theorem C11_warmup_without_prerequisites_witness :
    ((demoRunner (scriptedTechnique false none none none) "DETONATED"
        ⟨true, true, "outputs.json", ""⟩ okTerraform).WarmUp
        (demoWorld okTerraform ⟨"DETONATED", [("endpoint", "x")]⟩)).val = ([], none) ∧
    ((demoRunner (scriptedTechnique false none none none) "DETONATED"
        ⟨true, true, "outputs.json", ""⟩ okTerraform).WarmUp
        (demoWorld okTerraform ⟨"DETONATED", [("endpoint", "x")]⟩)).w.calls =
      [] ++ [Event.WarmUp] :=
  ⟨(C11_warmup_without_prerequisites
      (demoRunner (scriptedTechnique false none none none) "DETONATED"
        ⟨true, true, "outputs.json", ""⟩ okTerraform)
      (demoWorld okTerraform ⟨"DETONATED", [("endpoint", "x")]⟩) rfl rfl).1,
   (C11_warmup_without_prerequisites
      (demoRunner (scriptedTechnique false none none none) "DETONATED"
        ⟨true, true, "outputs.json", ""⟩ okTerraform)
      (demoWorld okTerraform ⟨"DETONATED", [("endpoint", "x")]⟩) rfl rfl).2.2.2.2⟩

/-! ## C12 -/

/-- C12: in a run without a custom directory whose persistence is a store of
outputs, starting from an empty call record, suppose `WarmUp` calls
`TerraformInitAndApply` and returns the outputs `o` with no error. Then
`GetTerraformOutputs` in the state `WarmUp` leaves returns `o` with no error
(so the two mappings agree key for key), the state is WARM, and a following
`WarmUp` without force records no `TerraformInitAndApply` and, its
materialization succeeding, returns `o` again with no error. -/
theorem C12_outputs_round_trip {σ : Type} (m : runnerImpl σ) (w : World σ)
    (stored : σ → Outputs) (o : Outputs)
    (hstore : OutputsStore m.StateManager stored)
    (hc : m.Options.CustomTerraformDir = "")
    (hw : w.calls = [])
    (happly : ∃ o' e, Event.TerraformInitAndApply m.TerraformDir o' e ∈ (m.WarmUp w).w.calls)
    (hret : (m.WarmUp w).val = (o, none)) :
    (m.StateManager.GetTerraformOutputs (m.WarmUp w).w.ext).1 = (o, none) ∧
    (∀ k, (m.StateManager.GetTerraformOutputs (m.WarmUp w).w.ext).1.1.lookup k = o.lookup k) ∧
    (m.WarmUp w).m.GetState = AttackTechniqueStatusWarm ∧
    (∀ d o' e,
      Event.TerraformInitAndApply d o' e ∈
        (({ (m.WarmUp w).m with
            Options := { (m.WarmUp w).m.Options with Force := false } } : runnerImpl σ).WarmUp
          (m.WarmUp w).w).w.calls →
      Event.TerraformInitAndApply d o' e ∈ (m.WarmUp w).w.calls) ∧
    ((m.StateManager.ExtractTechnique (m.WarmUp w).w.ext).1 = none →
      (({ (m.WarmUp w).m with
          Options := { (m.WarmUp w).m.Options with Force := false } } : runnerImpl σ).WarmUp
        (m.WarmUp w).w).val = (o, none)) := by
  obtain ⟨o', e, hmem⟩ := happly
  -- the first `WarmUp` took the successful-apply path
  by_cases h1 : m.Technique.PrerequisitesTerraformCode = none ∧ m.Options.CustomTerraformDir = ""
  · rw [WarmUp_noop m w h1] at hmem
    simp [World.enter, hw] at hmem
  by_cases h2 : m.Options.NoWarmup = true
  · rw [WarmUp_noWarmup m w h1 h2] at hmem
    rcases readTerraformOutputs_calls m (w.enter Event.WarmUp) with h | ⟨b, e', h⟩ <;>
      rw [h] at hmem <;> simp [World.enter, hw] at hmem
  have h2 : m.Options.NoWarmup = false := by simpa using h2
  have hcode : m.Technique.PrerequisitesTerraformCode ≠ none := fun h => h1 ⟨h, hc⟩
  cases hx : (m.StateManager.ExtractTechnique w.ext).1 with
  | some err =>
    rw [WarmUp_extract_fail m w err h1 h2 hc hx] at hmem
    simp [World.call, World.enter, hw] at hmem
  | none =>
    have hw1 := WarmUp_extract_world m w (fun _ => hx)
    by_cases hs : (m.TechniqueState = AttackTechniqueStatusWarm ∧ m.Options.Force = false) ∨
        m.TechniqueState = AttackTechniqueStatusDetonated
    · have := WarmUp_no_apply m w hs _ _ _ hmem
      simp [hw] at this
    have hs1 : ¬ (m.TechniqueState = AttackTechniqueStatusWarm ∧ m.Options.Force = false) :=
      fun h => hs (Or.inl h)
    have hd : m.TechniqueState ≠ AttackTechniqueStatusDetonated := fun h => hs (Or.inr h)
    cases ha : (m.TerraformManager.TerraformInitAndApply m.TerraformDir
        (if m.Options.CustomTerraformDir = "" then
          (m.StateManager.ExtractTechnique w.ext).2 else w.ext)).1.2 with
    | some err =>
      rw [WarmUp_apply_fail m w _ err h1 h2 hw1 hs1 hd ha] at hret
      by_cases hcan : errors.Is err context.Canceled = true <;> simp [hcan] at hret
    | none =>
      have heq := WarmUp_apply_ok_eq m w _ h1 h2 hw1 hs1 hd ha
      simp only [hc, if_true, World.call, runnerImpl.setState] at heq
      rw [heq] at hret ⊢
      simp only [Prod.mk.injEq] at hret
      obtain ⟨ho, hwr⟩ := hret
      have hstored : stored (m.StateManager.SetTechniqueState AttackTechniqueStatusWarm
          (m.StateManager.WriteTerraformOutputs
            (m.TerraformManager.TerraformInitAndApply m.TerraformDir
              (m.StateManager.ExtractTechnique w.ext).2).1.1
            (m.TerraformManager.TerraformInitAndApply m.TerraformDir
              (m.StateManager.ExtractTechnique w.ext).2).2).2).2 = o := by
        rw [hstore.setState_keeps, hstore.write _ _ hwr, ho]
      have hget : (m.StateManager.GetTerraformOutputs
          (m.StateManager.SetTechniqueState AttackTechniqueStatusWarm
            (m.StateManager.WriteTerraformOutputs
              (m.TerraformManager.TerraformInitAndApply m.TerraformDir
                (m.StateManager.ExtractTechnique w.ext).2).1.1
              (m.TerraformManager.TerraformInitAndApply m.TerraformDir
                (m.StateManager.ExtractTechnique w.ext).2).2).2).2).1 = (o, none) := by
        rw [hstore.get, hstored]
      refine ⟨hget, ?_, ?_, ?_, ?_⟩
      · intro k
        rw [hget]
      · exact GetState_withWarm m
      · intro d o'' e'' h
        exact WarmUp_no_apply _ _ (Or.inl ⟨rfl, rfl⟩) d o'' e'' h
      · intro hx2
        have hn1 : ¬ (m.Technique.PrerequisitesTerraformCode = none ∧
            m.Options.CustomTerraformDir = "") := h1
        have hskip := WarmUp_skip
          ({ Technique := m.Technique, TechniqueState := AttackTechniqueStatusWarm,
             TerraformDir := m.TerraformDir,
             Options := { m.Options with Force := false },
             TerraformManager := m.TerraformManager, StateManager := m.StateManager,
             ProviderFactory := m.ProviderFactory,
             UniqueCorrelationID := m.UniqueCorrelationID } : runnerImpl σ)
          _ _ hn1 h2
          (WarmUp_extract_world _ _ (fun _ => hx2)) (Or.inl ⟨rfl, rfl⟩)
        rw [hskip]
        simp only [hc, if_true, World.call]
        rw [hstore.get, hstore.extract_keeps, hstored]

/-- C12 at explicit inputs: a COLD technique is warmed up on the disk store;
the outputs read back are the ones `WarmUp` returned. -/
theorem C12_outputs_round_trip_witness :
    (diskStateManager.GetTerraformOutputs
      ((demoRunner (scriptedTechnique false (some [1]) none none) "COLD"
        ⟨false, false, "", ""⟩ okTerraform).WarmUp
        (demoWorld okTerraform ⟨"COLD", []⟩)).w.ext).1 = ([("endpoint", "x")], none) :=
  (C12_outputs_round_trip
    (demoRunner (scriptedTechnique false (some [1]) none none) "COLD"
      ⟨false, false, "", ""⟩ okTerraform)
    (demoWorld okTerraform ⟨"COLD", []⟩) Disk.outputs [("endpoint", "x")]
    diskStateManager_outputsStore rfl rfl
    ⟨[("endpoint", "x")], none, by decide⟩ (by decide)).1

/-! ## C13 -/

/-- C13: for every runner with a custom Terraform directory and every sequence
of `WarmUp`, `Detonate`, `Revert` and `CleanUp` calls, whatever their
outcomes, none of the calls recorded during the sequence is a
`SetTechniqueState`, `WriteTerraformOutputs`, `ExtractTechnique` or
`CleanupTechnique` call, also when a `CleanUp` of the sequence succeeds. -/
theorem C13_custom_directory_never_writes {σ : Type} (m : runnerImpl σ) (w : World σ)
    (ops : List Op) (hc : m.Options.CustomTerraformDir ≠ "") :
    ∃ evs, (runAll ops m w).2.calls = w.calls ++ evs ∧
      (∀ ev ∈ evs, ev.isPersistenceWrite = false) ∧
      (∀ st err, Event.SetTechniqueState st err ∉ evs) ∧
      (∀ o err, Event.WriteTerraformOutputs o err ∉ evs) ∧
      (∀ err, Event.ExtractTechnique err ∉ evs) ∧
      (∀ err, Event.CleanupTechnique err ∉ evs) := by
  obtain ⟨⟨evs, h1, h2⟩, -⟩ := runAll_invariant ops m w _ (custom_no_write_invariant m w hc)
    ⟨[], by simp, by simp⟩
  refine ⟨evs, h1, h2, ?_, ?_, ?_, ?_⟩
  · intro st err h
    exact absurd (h2 _ h) (by simp [Event.isPersistenceWrite])
  · intro o err h
    exact absurd (h2 _ h) (by simp [Event.isPersistenceWrite])
  · intro err h
    exact absurd (h2 _ h) (by simp [Event.isPersistenceWrite])
  · intro err h
    exact absurd (h2 _ h) (by simp [Event.isPersistenceWrite])

/-- A custom-directory runner warmed up and detonated, then cleaned up by a
`CleanUp` that succeeds. -/
theorem C13_custom_directory_never_writes_witness :
    (demoRunner (scriptedTechnique false (some [1]) none (some none))
        AttackTechniqueStatusCold ⟨false, false, "", "/tmp/tf"⟩ okTerraform).Options.CustomTerraformDir
      ≠ "" ∧
    ((runAll [Op.WarmUp, Op.Detonate]
        (demoRunner (scriptedTechnique false (some [1]) none (some none))
          AttackTechniqueStatusCold ⟨false, false, "", "/tmp/tf"⟩ okTerraform)
        (demoWorld okTerraform ⟨"", []⟩)).1.CleanUp
      (runAll [Op.WarmUp, Op.Detonate]
        (demoRunner (scriptedTechnique false (some [1]) none (some none))
          AttackTechniqueStatusCold ⟨false, false, "", "/tmp/tf"⟩ okTerraform)
        (demoWorld okTerraform ⟨"", []⟩)).2).val = none ∧
    ∃ evs, (runAll [Op.WarmUp, Op.Detonate, Op.CleanUp]
        (demoRunner (scriptedTechnique false (some [1]) none (some none))
          AttackTechniqueStatusCold ⟨false, false, "", "/tmp/tf"⟩ okTerraform)
        (demoWorld okTerraform ⟨"", []⟩)).2.calls = (demoWorld okTerraform ⟨"", []⟩).calls ++ evs ∧
      (∀ ev ∈ evs, ev.isPersistenceWrite = false) ∧
      (∀ st err, Event.SetTechniqueState st err ∉ evs) ∧
      (∀ o err, Event.WriteTerraformOutputs o err ∉ evs) ∧
      (∀ err, Event.ExtractTechnique err ∉ evs) ∧
      (∀ err, Event.CleanupTechnique err ∉ evs) :=
  ⟨by decide, by decide, C13_custom_directory_never_writes _ _ _ (by decide)⟩

/-! ## C14 -/

/-- C14, the claim as stated fails: four state changes outside its list.
(1) `Detonate` takes a COLD technique to DETONATED. (2) `Detonate` takes a
COLD technique to WARM when its warm-up succeeds and the detonation
capability fails. (3) `Revert` with force takes a COLD technique to WARM.
(4) `CleanUp` takes a DETONATED technique to WARM when its `Revert` succeeds
and the destroy that follows fails. -/
theorem C14_counterexample :
    ((demoRunner (scriptedTechnique false (some [1]) none none) "COLD"
        ⟨false, false, "", ""⟩ okTerraform).GetState = "COLD" ∧
      ((demoRunner (scriptedTechnique false (some [1]) none none) "COLD"
        ⟨false, false, "", ""⟩ okTerraform).Detonate
        (demoWorld okTerraform ⟨"COLD", []⟩)).m.GetState = "DETONATED") ∧
    ((demoRunner (scriptedTechnique false (some [1]) (some ⟨"denied", false⟩) none) "COLD"
        ⟨false, false, "", ""⟩ okTerraform).GetState = "COLD" ∧
      ((demoRunner (scriptedTechnique false (some [1]) (some ⟨"denied", false⟩) none) "COLD"
        ⟨false, false, "", ""⟩ okTerraform).Detonate
        (demoWorld okTerraform ⟨"COLD", []⟩)).m.GetState = "WARM") ∧
    ((demoRunner (scriptedTechnique false (some [1]) none (some none)) "COLD"
        ⟨true, false, "", ""⟩ okTerraform).GetState = "COLD" ∧
      ((demoRunner (scriptedTechnique false (some [1]) none (some none)) "COLD"
        ⟨true, false, "", ""⟩ okTerraform).Revert
        (demoWorld okTerraform ⟨"COLD", []⟩)).m.GetState = "WARM") ∧
    ((demoRunner (scriptedTechnique false (some [1]) none (some none)) "DETONATED"
        ⟨false, false, "", ""⟩
        (scriptedTerraform ([], none) (some ⟨"boom", false⟩) ([], none))).GetState =
        "DETONATED" ∧
      ((demoRunner (scriptedTechnique false (some [1]) none (some none)) "DETONATED"
        ⟨false, false, "", ""⟩
        (scriptedTerraform ([], none) (some ⟨"boom", false⟩) ([], none))).CleanUp
        (demoWorld okTerraform ⟨"DETONATED", []⟩)).m.GetState = "WARM") := by
  decide

/-- C14 (amended): the state after an operation is the state before it, or
the change is one of these. `WarmUp`: to WARM, from a state that is neither
WARM nor DETONATED. `Detonate`: to DETONATED; or to WARM, from a state that
is neither WARM nor DETONATED (its warm-up provisioned and the detonation did
not complete). `Revert`: to WARM, from DETONATED or with force set.
`CleanUp`: to COLD; or to WARM, from DETONATED or with force set (its
`Revert` succeeded and the clean-up did not complete). -/
theorem C14_state_changes {σ : Type} (m : runnerImpl σ) (w : World σ) :
    ((m.WarmUp w).m.GetState = m.GetState ∨
      ((m.WarmUp w).m.GetState = AttackTechniqueStatusWarm ∧
        m.GetState ≠ AttackTechniqueStatusWarm ∧
        m.GetState ≠ AttackTechniqueStatusDetonated)) ∧
    ((m.Detonate w).m.GetState = m.GetState ∨
      (m.Detonate w).m.GetState = AttackTechniqueStatusDetonated ∨
      ((m.Detonate w).m.GetState = AttackTechniqueStatusWarm ∧
        m.GetState ≠ AttackTechniqueStatusWarm ∧
        m.GetState ≠ AttackTechniqueStatusDetonated)) ∧
    ((m.Revert w).m.GetState = m.GetState ∨
      ((m.Revert w).m.GetState = AttackTechniqueStatusWarm ∧
        (m.GetState = AttackTechniqueStatusDetonated ∨ m.Options.Force = true))) ∧
    ((m.CleanUp w).m.GetState = m.GetState ∨
      (m.CleanUp w).m.GetState = AttackTechniqueStatusCold ∨
      ((m.CleanUp w).m.GetState = AttackTechniqueStatusWarm ∧
        (m.GetState = AttackTechniqueStatusDetonated ∨ m.Options.Force = true))) := by
  have hwarm := GetState_withState m AttackTechniqueStatusWarm (by decide)
  have hdet := GetState_withState m AttackTechniqueStatusDetonated (by decide)
  have hcold := GetState_withState m AttackTechniqueStatusCold (by decide)
  refine ⟨?_, ?_, ?_, ?_⟩
  · rcases WarmUp_receiver m w with h | ⟨h, -, h2⟩
    · exact Or.inl (by rw [h])
    · by_cases hs : m.GetState = AttackTechniqueStatusWarm
      · exact Or.inl (by rw [h, hwarm, hs])
      · exact Or.inr ⟨by rw [h, hwarm], hs, fun h' => h2 ((GetState_eq_detonated_iff m).1 h')⟩
  · rcases Detonate_receiver m w with h | h | ⟨h, h1, -⟩
    · exact Or.inl (by rw [h])
    · exact Or.inr (Or.inl (by rw [h, hdet]))
    · by_cases hs : m.GetState = AttackTechniqueStatusWarm
      · exact Or.inl (by rw [h, hwarm, hs])
      · exact Or.inr (Or.inr ⟨by rw [h, hwarm], hs, h1⟩)
  · rcases Revert_receiver m w with ⟨-, h⟩ | ⟨-, h, h1⟩
    · exact Or.inl (by rw [h])
    · exact Or.inr ⟨by rw [h, hwarm], h1⟩
  · rcases CleanUp_receiver m w with h | ⟨h, -⟩ | ⟨h, h1⟩
    · exact Or.inl (by rw [h])
    · exact Or.inr (Or.inl (by rw [h, hcold]))
    · exact Or.inr (Or.inr ⟨by rw [h, hwarm], h1⟩)

/-! ## C15 -/

/-- C15: without a custom directory, an operation that leaves the runner in
a state other than the one it started in has called `SetTechniqueState` with
that state before it returned; with a custom directory no operation calls
`SetTechniqueState`, the new state is kept in memory only. Consequently,
without a custom directory, over a state store whose `SetTechniqueState`
succeeds and whose record only Persistence changes, if the recorded state (none
counting as COLD) is `GetState` on entry, it is `GetState` after every
operation of every sequence. -/
theorem C15_state_written_through {σ : Type} (m : runnerImpl σ) (w : World σ) (op : Op)
    (ops : List Op) (persisted : σ → AttackTechniqueState) :
    (m.Options.CustomTerraformDir = "" →
      ∃ evs, (m.run op w).w.calls = w.calls ++ evs ∧
        ((m.run op w).m.GetState ≠ m.GetState →
          ∃ err, Event.SetTechniqueState (m.run op w).m.GetState err ∈ evs)) ∧
    (m.Options.CustomTerraformDir ≠ "" →
      ∃ evs, (m.run op w).w.calls = w.calls ++ evs ∧
        ∀ st err, Event.SetTechniqueState st err ∉ evs) ∧
    (m.Options.CustomTerraformDir = "" →
      StateStore m.StateManager persisted →
      OwnedByPersistence m w.os persisted →
      (∀ st s, (m.StateManager.SetTechniqueState st s).1 = none) →
      (if persisted w.ext = "" then AttackTechniqueStatusCold else persisted w.ext) =
        m.GetState →
      (if persisted (runAll ops m w).2.ext = "" then AttackTechniqueStatusCold
        else persisted (runAll ops m w).2.ext) = (runAll ops m w).1.GetState) := by
  refine ⟨?_, ?_, ?_⟩
  · intro hc
    obtain ⟨⟨evs, h1, h2⟩, -, h3⟩ := run_invariant m w op _
      (written_through_invariant m w m.TechniqueState hc) ⟨[], by simp, Or.inl rfl⟩
    refine ⟨evs, h1, ?_⟩
    rw [GetState_noncustom _ (by rw [h3]; exact hc), GetState_noncustom m hc]
    intro hne
    rcases h2 with h2 | h2
    · exact absurd h2 hne
    · exact h2
  · intro hc
    obtain ⟨⟨evs, h1, h2⟩, -⟩ := run_invariant m w op _
      (custom_no_write_invariant m w hc) ⟨[], by simp, by simp⟩
    refine ⟨evs, h1, ?_⟩
    intro st err h
    exact absurd (h2 _ h) (by simp [Event.isPersistenceWrite])
  · intro hc hS hO hok h
    rw [GetState_noncustom m hc] at h
    obtain ⟨⟨-, h1⟩, h2⟩ := runAll_invariant ops m w _
      (persisted_invariant m w.os persisted hS hO hok hc) ⟨rfl, h⟩
    rw [GetState_noncustom _ (by rw [h2]; exact hc)]
    exact h1

/-- A technique with no recorded state is detonated and then cleaned up over
the disk store: the state on disk is again the runner's. -/
theorem C15_state_written_through_witness :
    Event.SetTechniqueState AttackTechniqueStatusDetonated none ∈
      ((demoRunner (scriptedTechnique false (some [1]) none (some none))
          AttackTechniqueStatusCold ⟨false, false, "", ""⟩ okTerraform).run Op.Detonate
        (demoWorld okTerraform ⟨"", []⟩)).w.calls ∧
    (if (runAll [Op.Detonate, Op.CleanUp]
          (demoRunner (scriptedTechnique false (some [1]) none (some none))
            AttackTechniqueStatusCold ⟨false, false, "", ""⟩ okTerraform)
          (demoWorld okTerraform ⟨"", []⟩)).2.ext.techniqueState = ""
      then AttackTechniqueStatusCold
      else (runAll [Op.Detonate, Op.CleanUp]
          (demoRunner (scriptedTechnique false (some [1]) none (some none))
            AttackTechniqueStatusCold ⟨false, false, "", ""⟩ okTerraform)
          (demoWorld okTerraform ⟨"", []⟩)).2.ext.techniqueState) =
      (runAll [Op.Detonate, Op.CleanUp]
        (demoRunner (scriptedTechnique false (some [1]) none (some none))
          AttackTechniqueStatusCold ⟨false, false, "", ""⟩ okTerraform)
        (demoWorld okTerraform ⟨"", []⟩)).1.GetState :=
  ⟨by decide,
    (C15_state_written_through
      (demoRunner (scriptedTechnique false (some [1]) none (some none))
        AttackTechniqueStatusCold ⟨false, false, "", ""⟩ okTerraform)
      (demoWorld okTerraform ⟨"", []⟩) Op.Detonate [Op.Detonate, Op.CleanUp]
      Disk.techniqueState).2.2 rfl diskStateManager_stateStore
      (demoRunner_ownedByPersistence _ _ _ _ _ _ _ _ _ _) (fun _ _ => rfl) (by decide)⟩

/-! ## C16 -/

/-- C16, the code at the failing input: a runner is built with the custom
directory `/tmp/tf` while persistence holds DETONATED for the technique.
`initialize` calls `GetTechniqueState` whatever the options are, so the new
runner, on which no operation has been performed, reports DETONATED and not
COLD. -/
theorem C16_custom_runner_reads_persisted_state :
    (NewRunnerWithContext (scriptedTechnique false none none none)
        ⟨false, false, "", "/tmp/tf"⟩
        (demoWorld okTerraform ⟨"DETONATED", []⟩)).m.Options.CustomTerraformDir = "/tmp/tf" ∧
    (NewRunnerWithContext (scriptedTechnique false none none none)
        ⟨false, false, "", "/tmp/tf"⟩
        (demoWorld okTerraform ⟨"DETONATED", []⟩)).w.calls =
      [Event.GetRootDirectory "/home/.stratus-red-team", Event.GetTechniqueState "DETONATED"] ∧
    (NewRunnerWithContext (scriptedTechnique false none none none)
        ⟨false, false, "", "/tmp/tf"⟩
        (demoWorld okTerraform ⟨"DETONATED", []⟩)).m.GetState = "DETONATED" := by
  decide

/-! ## C17 -/

/-- C17: let `v` be the value of the environment override read by
`NewRunnerWithContext` (a total function: construction never fails). If `v`
is non-empty and parses as a UUID, `GetUniqueExecutionId` returns the string
form of the parsed UUID; if `v` is empty it returns the string form of the
UUID generated at the start of the construction; if `v` is non-empty and does
not parse it returns the string form of a UUID generated after the failed
parse. In every case the provider factory holds that same identifier and the
Terraform manager is the one built with the user agent of that same
identifier. -/
theorem C17_unique_execution_id {σ : Type} (technique : AttackTechnique σ)
    (options : RunnerOptions) (w : World σ) (uuidString : UUID → String) :
    (w.os.Getenv "STRATUS_RED_TEAM_DETONATION_ID" (w.os.uuidNew w.ext).2 ≠ "" ∧
        (w.os.uuidParse
          (w.os.Getenv "STRATUS_RED_TEAM_DETONATION_ID" (w.os.uuidNew w.ext).2)).2 = none →
      (NewRunnerWithContext technique options w).m.GetUniqueExecutionId uuidString =
        uuidString (w.os.uuidParse
          (w.os.Getenv "STRATUS_RED_TEAM_DETONATION_ID" (w.os.uuidNew w.ext).2)).1) ∧
    (w.os.Getenv "STRATUS_RED_TEAM_DETONATION_ID" (w.os.uuidNew w.ext).2 = "" →
      (NewRunnerWithContext technique options w).m.GetUniqueExecutionId uuidString =
        uuidString (w.os.uuidNew w.ext).1) ∧
    (w.os.Getenv "STRATUS_RED_TEAM_DETONATION_ID" (w.os.uuidNew w.ext).2 ≠ "" ∧
        (w.os.uuidParse
          (w.os.Getenv "STRATUS_RED_TEAM_DETONATION_ID" (w.os.uuidNew w.ext).2)).2 ≠ none →
      (NewRunnerWithContext technique options w).m.GetUniqueExecutionId uuidString =
        uuidString (w.os.uuidNew (w.os.uuidNew w.ext).2).1) ∧
    (NewRunnerWithContext technique options w).m.ProviderFactory =
      ⟨(NewRunnerWithContext technique options w).m.UniqueCorrelationID⟩ ∧
    (∃ dir, (NewRunnerWithContext technique options w).m.TerraformManager =
      w.os.NewTerraformManagerWithContext (w.os.Join dir "terraform")
        (w.os.GetStratusUserAgentForUUID
          (NewRunnerWithContext technique options w).m.UniqueCorrelationID)) := by
  refine ⟨?_, ?_, ?_, rfl, ⟨_, rfl⟩⟩
  · rintro ⟨hv, hp⟩
    simp [NewRunnerWithContext, runnerImpl.initialize, runnerImpl.GetUniqueExecutionId, hv, hp]
  · intro hv
    simp [NewRunnerWithContext, runnerImpl.initialize, runnerImpl.GetUniqueExecutionId, hv]
  · rintro ⟨hv, hp⟩
    cases hp' : (w.os.uuidParse
        (w.os.Getenv "STRATUS_RED_TEAM_DETONATION_ID" (w.os.uuidNew w.ext).2)).2 with
    | none => exact absurd hp' hp
    | some e =>
      simp [NewRunnerWithContext, runnerImpl.initialize, runnerImpl.GetUniqueExecutionId, hv,
        hp']

/-! ## C18 -/

/-- C18: for an error with message `e`, `errorMessageFromTerraformError`
returns `e` unchanged when `e` does not contain the missing-region pattern,
and the fixed authentication diagnostic followed by `e` when it does; so the
result always ends with `e`, and it differs from `e` exactly when the pattern
occurs in `e`. -/
theorem C18_errorMessageFromTerraformError (err : GoError) :
    (strings.Contains err.Error
        "The argument \"region\" is required, but no definition was found" = false →
      errorMessageFromTerraformError err = err.Error) ∧
    (strings.Contains err.Error
        "The argument \"region\" is required, but no definition was found" = true →
      errorMessageFromTerraformError err =
        "unable to create attack technique prerequisites. Ensure you are authenticated against AWS and have the right permissions to run Stratus Red Team.\n" ++
          "Stratus Red Team will display below the error that Terraform returned:\n" ++
          err.Error) ∧
    err.Error.data <:+ (errorMessageFromTerraformError err).data ∧
    (errorMessageFromTerraformError err ≠ err.Error ↔
      strings.Contains err.Error
        "The argument \"region\" is required, but no definition was found" = true) := by
  have hlen : ∀ a b : String, 0 < a.length → a ++ b ≠ b := by
    intro a b ha h
    have := congrArg String.length h
    rw [String.length_append] at this
    omega
  cases hc : strings.Contains err.Error
      "The argument \"region\" is required, but no definition was found"
  · have h : errorMessageFromTerraformError err = err.Error := by
      simp [errorMessageFromTerraformError, MissingRegionErrorMessage, hc]
    refine ⟨fun _ => h, fun h' => Bool.noConfusion h', ?_, ?_⟩
    · rw [h]
    · rw [h]
      simp
  · have h : errorMessageFromTerraformError err =
        "unable to create attack technique prerequisites. Ensure you are authenticated against AWS and have the right permissions to run Stratus Red Team.\n" ++
          "Stratus Red Team will display below the error that Terraform returned:\n" ++
          err.Error := by
      simp [errorMessageFromTerraformError, MissingRegionErrorMessage, hc]
    refine ⟨fun h' => Bool.noConfusion h', fun _ => h, ?_, ?_⟩
    · rw [h]
      simp only [String.data_append]
      exact List.suffix_append _ _
    · rw [h]
      refine ⟨fun _ => rfl, fun _ => hlen _ _ ?_⟩
      rw [String.length_append]
      have : 0 < ("Stratus Red Team will display below the error that Terraform returned:\n" :
          String).length := by decide
      omega

/-! ## C20 -/

/-- C20, the code at the failing input: `cleanup --all` without `--force`,
over a registry of one technique whose recorded state is COLD.
`doCleanupAllCmd` hands every technique of the registry to the workers, so
`CleanUp` is entered for the COLD technique and the batch result holds its
"already COLD" error. -/
theorem C20_cleanup_all_runs_on_cold_technique :
    (NewRunner (scriptedTechnique false (some [1]) none none) ⟨false, false, "", ""⟩
        (demoWorld okTerraform ⟨"COLD", []⟩)).m.GetState = AttackTechniqueStatusCold ∧
    (doCleanupAllCmd false "" [scriptedTechnique false (some [1]) none none]
        (demoWorld okTerraform ⟨"COLD", []⟩)).2.calls =
      [Event.GetRootDirectory "/home/.stratus-red-team", Event.GetRootDirectory
        "/home/.stratus-red-team", Event.GetTechniqueState "COLD", Event.CleanUp] ∧
    (doCleanupAllCmd false "" [scriptedTechnique false (some [1]) none none]
        (demoWorld okTerraform ⟨"COLD", []⟩)).1 =
      [some (errors.New ("aws.demo.technique is already COLD and should already be clean, " ++
        "use --force to force cleanup"))] := by
  decide

/-! ## C21 -/

/-- C21: for a runner with a custom directory whose technique has a revert
capability and with force not set, `CleanUp` from the WARM state enters
`Revert`, whose guard rejects the state, and returns the resulting error: no
other call is recorded (in particular no `TerraformDestroy`), the outside
state is untouched and the state stays WARM. More generally `CleanUp` of such
a runner fails from every state other than DETONATED, recording no
`TerraformDestroy`, so it can succeed only from DETONATED. -/
theorem C21_custom_cleanup_needs_detonated {σ : Type} (m : runnerImpl σ) (w : World σ)
    (hc : m.Options.CustomTerraformDir ≠ "") (hrev : m.Technique.Revert ≠ none)
    (hf : m.Options.Force = false) :
    (m.GetState = AttackTechniqueStatusWarm →
      (m.CleanUp w).val = some (errors.New ("unable to revert detonation of " ++
        m.Technique.ID ++ " before cleaning up (use --force to cleanup anyway): " ++
        (m.Technique.ID ++
          " is not in DETONATED state and should not need to be reverted, use --force to force")))
        ∧
      (m.CleanUp w).w.calls = w.calls ++ [Event.CleanUp, Event.Revert] ∧
      (m.CleanUp w).w.ext = w.ext ∧
      (m.CleanUp w).m.GetState = AttackTechniqueStatusWarm) ∧
    (m.GetState ≠ AttackTechniqueStatusDetonated →
      (∃ err, (m.CleanUp w).val = some err) ∧
      (∃ evs, (m.CleanUp w).w.calls = w.calls ++ evs ∧
        ∀ dir err, Event.TerraformDestroy dir err ∉ evs) ∧
      (m.CleanUp w).w.ext = w.ext ∧
      (m.CleanUp w).m = m) ∧
    ((m.CleanUp w).val = none → m.GetState = AttackTechniqueStatusDetonated) := by
  have hsome : m.Technique.Revert.isSome = true := by
    cases h : m.Technique.Revert with
    | none => exact absurd h hrev
    | some r => rfl
  have hpath : m.GetState ≠ AttackTechniqueStatusDetonated →
      m.TechniqueState ≠ AttackTechniqueStatusCold →
      m.CleanUp w =
        ⟨some (errors.New ("unable to revert detonation of " ++ m.Technique.ID ++
          " before cleaning up (use --force to cleanup anyway): " ++
          (errors.New (m.Technique.ID ++
            " is not in DETONATED state and should not need to be reverted, use --force to force")
            ).Error)), m, (w.enter Event.CleanUp).enter Event.Revert⟩ := by
    intro hs hcold
    have hr : (if (m.Technique.Revert.isSome &&
          (decide (m.GetState = AttackTechniqueStatusDetonated) ||
            decide (m.Options.CustomTerraformDir ≠ ""))) = true
        then m.Revert (w.enter Event.CleanUp) else ⟨none, m, w.enter Event.CleanUp⟩) =
        ⟨some (errors.New (m.Technique.ID ++
          " is not in DETONATED state and should not need to be reverted, use --force to force")),
          m, (w.enter Event.CleanUp).enter Event.Revert⟩ := by
      rw [if_pos (by simp [hsome, hc]), Revert_guard m _ hs hf]
    have h := CleanUp_revert_abort m w _ (errors.New (m.Technique.ID ++
      " is not in DETONATED state and should not need to be reverted, use --force to force"))
      (fun h => hcold h.1) hr rfl hf
    dsimp only at h
    exact h
  have hfail : m.GetState ≠ AttackTechniqueStatusDetonated →
      (∃ err, (m.CleanUp w).val = some err) ∧
      (∃ evs, (m.CleanUp w).w.calls = w.calls ++ evs ∧
        ∀ dir err, Event.TerraformDestroy dir err ∉ evs) ∧
      (m.CleanUp w).w.ext = w.ext ∧
      (m.CleanUp w).m = m := by
    intro hs
    by_cases hcold : m.TechniqueState = AttackTechniqueStatusCold
    · rw [CleanUp_guard m w hcold hf]
      exact ⟨⟨_, rfl⟩, ⟨[Event.CleanUp], rfl, by simp⟩, rfl, rfl⟩
    · rw [hpath hs hcold]
      exact ⟨⟨_, rfl⟩, ⟨[Event.CleanUp, Event.Revert], by simp [World.enter], by simp⟩, rfl, rfl⟩
  refine ⟨?_, hfail, ?_⟩
  · intro hw
    have hs : m.GetState ≠ AttackTechniqueStatusDetonated := by
      rw [hw]
      decide
    have hcold : m.TechniqueState ≠ AttackTechniqueStatusCold := by
      rw [(GetState_eq_warm_iff m).1 hw]
      decide
    rw [hpath hs hcold]
    exact ⟨rfl, by simp [World.enter], rfl, hw⟩
  · intro hnone
    by_contra hs
    obtain ⟨⟨err, he⟩, -⟩ := hfail hs
    rw [he] at hnone
    exact Option.noConfusion hnone

/-- A WARM custom-directory runner whose technique can be reverted. -/
theorem C21_custom_cleanup_needs_detonated_witness :
    ((demoRunner (scriptedTechnique false (some [1]) none (some none))
        AttackTechniqueStatusWarm ⟨false, false, "", "/tmp/tf"⟩ okTerraform).CleanUp
      (demoWorld okTerraform ⟨"", []⟩)).w.calls = [Event.CleanUp, Event.Revert] ∧
    ((demoRunner (scriptedTechnique false (some [1]) none (some none))
        AttackTechniqueStatusWarm ⟨false, false, "", "/tmp/tf"⟩ okTerraform).CleanUp
      (demoWorld okTerraform ⟨"", []⟩)).m.GetState = AttackTechniqueStatusWarm :=
  ⟨((C21_custom_cleanup_needs_detonated
      (demoRunner (scriptedTechnique false (some [1]) none (some none))
        AttackTechniqueStatusWarm ⟨false, false, "", "/tmp/tf"⟩ okTerraform)
      (demoWorld okTerraform ⟨"", []⟩) (by decide) (by simp [demoRunner, scriptedTechnique])
      rfl).1 (by decide)).2.1,
   ((C21_custom_cleanup_needs_detonated
      (demoRunner (scriptedTechnique false (some [1]) none (some none))
        AttackTechniqueStatusWarm ⟨false, false, "", "/tmp/tf"⟩ okTerraform)
      (demoWorld okTerraform ⟨"", []⟩) (by decide) (by simp [demoRunner, scriptedTechnique])
      rfl).1 (by decide)).2.2.2⟩

/-! ## C22 -/

/-- C22: `setState` returns nothing and leaves the runner in the new state
whatever `SetTechniqueState` returns. For every operation, running it over
the state manager whose `SetTechniqueState` has the same effect and returns
no error gives the same result, the same state of the runner, the same
outside state and the same record of calls apart from the errors recorded
for `SetTechniqueState`: the error is not used. And the state can differ from
the persisted one afterwards: over a disk whose `SetTechniqueState` fails, a
`Detonate` from COLD returns no error and leaves `GetState` DETONATED while
the disk still holds COLD. -/
theorem C22_setState_error_not_returned {σ : Type} (m : runnerImpl σ) (w : World σ) (op : Op)
    (st : AttackTechniqueState) :
    (m.setState st w).m.TechniqueState = st ∧
    (m.quiet.run op w.quiet).val = (m.run op w).val ∧
    (m.quiet.run op w.quiet).m.GetState = (m.run op w).m.GetState ∧
    (m.quiet.run op w.quiet).w.ext = (m.run op w).w.ext ∧
    (m.quiet.run op w.quiet).w.calls = (m.run op w).w.calls.map Event.quiet ∧
    (Event.SetTechniqueState AttackTechniqueStatusDetonated
        (some (errors.New "read-only file system")) ∈
      (({ demoRunner (scriptedTechnique false (some [1]) none none) AttackTechniqueStatusCold
            ⟨false, false, "", ""⟩ okTerraform with
          StateManager := failingStateManager } : runnerImpl Disk).Detonate
        (demoWorld okTerraform ⟨"COLD", []⟩)).w.calls ∧
      (({ demoRunner (scriptedTechnique false (some [1]) none none) AttackTechniqueStatusCold
            ⟨false, false, "", ""⟩ okTerraform with
          StateManager := failingStateManager } : runnerImpl Disk).Detonate
        (demoWorld okTerraform ⟨"COLD", []⟩)).val = none ∧
      (({ demoRunner (scriptedTechnique false (some [1]) none none) AttackTechniqueStatusCold
            ⟨false, false, "", ""⟩ okTerraform with
          StateManager := failingStateManager } : runnerImpl Disk).Detonate
        (demoWorld okTerraform ⟨"COLD", []⟩)).m.GetState = AttackTechniqueStatusDetonated ∧
      (failingStateManager.GetTechniqueState
        (({ demoRunner (scriptedTechnique false (some [1]) none none) AttackTechniqueStatusCold
              ⟨false, false, "", ""⟩ okTerraform with
            StateManager := failingStateManager } : runnerImpl Disk).Detonate
          (demoWorld okTerraform ⟨"COLD", []⟩)).w.ext).1 = AttackTechniqueStatusCold) := by
  refine ⟨rfl, ?_, ?_, ?_, ?_, by decide⟩
  · rw [run_quiet]
    rfl
  · rw [run_quiet]
    rfl
  · rw [run_quiet]
    rfl
  · rw [run_quiet]
    rfl

end Stratus
